import Mathlib

/-!
# NES CPU core (`src/cpu/cpu.c`, `src/cpu/instruction.h`)

A shallow embedding of the 6502 instruction-execution engine: the register
file with its packed status byte, the stack primitives, the address resolver
of `cpu_next_instr` and the instruction handlers of `instruction_action`.

Conventions.
* `byte` is an unsigned 8-bit integer, `uint16_t` an unsigned 16-bit integer.
  Both are natural numbers here and every store into one of them is followed
  by an explicit `% 256` / `% 65536`.
* C `int` arithmetic on promoted bytes never overflows in this file, so it is
  done on unbounded `Nat` / `Int` and truncated only where the C code stores
  into a narrower object.
* A one-bit bit-field assignment `cpu->f = e` keeps bit 0 of `e`.
-/

namespace NesEmu

/-! ## Memory bus (external collaborator) -/

/-- Modelled from the spec: the memory bus of `memory/memory.h`, which is not
part of the sources at hand. It is a byte-addressable 16-bit address space;
a cell is looked up by its address. -/
abbrev Memory := Nat → Nat

/-- Modelled from the spec: `memory_read`, `read(address: u16) -> u8`. The
address parameter is a `uint16_t`, the result a `byte`. -/
def memory_read (mem : Memory) (addr : Nat) : Nat :=
  mem (addr % 65536) % 256

/-- Modelled from the spec: `memory_write`, `write(address: u16, value: u8)`. -/
def memory_write (mem : Memory) (addr : Nat) (val : Nat) : Memory :=
  fun a => if a = addr % 65536 then val % 256 else mem a

/-- Modelled from the spec: `memory_read16`, `read16(address: u16) -> u16`,
little-endian, the second byte at `address + 1` modulo 65536. -/
def memory_read16 (mem : Memory) (addr : Nat) : Nat :=
  memory_read mem addr + 256 * memory_read mem (addr % 65536 + 1)

/-- Modelled from the spec: `memory_write16`, the little-endian 16-bit store
that mirrors `memory_read16`: low byte at `address`, high byte at
`address + 1` modulo 65536. -/
def memory_write16 (mem : Memory) (addr : Nat) (val : Nat) : Memory :=
  memory_write (memory_write mem addr (val % 65536 % 256))
    (addr % 65536 + 1) (val % 65536 / 256)

/-- Modelled from the spec: `memory_zero_page_read16`,
`zero_page_read16(address: u8) -> u16`; both bytes are read inside the zero
page, the second at `address + 1` modulo 256. -/
def memory_zero_page_read16 (mem : Memory) (addr : Nat) : Nat :=
  memory_read mem (addr % 256) + 256 * memory_read mem ((addr % 256 + 1) % 256)

/-- Modelled from the spec: `STACK_MIN` of `memory/memory.h`, the first
address of the stack page `$0100–$01FF`. -/
def STACK_MIN : Nat := 0x0100

/-! ## Register file -/

/-- Mask of status bits that do not physically exist on the CPU. -/
def CPU_STATUS_MASK : Nat := 0x30

/-- The `struct CPU`. The union of `status` with the eight one-bit fields
`c z i d b e v n` is the single byte `status`, bit 0 being `c` and bit 7
being `n`. `stdout` is not a C field: it records what the handlers `printf`. -/
structure CPU where
  mem : Memory
  clock : Int
  last_addr : Nat
  pc : Nat
  sp : Nat
  a : Nat
  x : Nat
  y : Nat
  status : Nat
  stdout : List String

/-- Every register holds a value of its C type. -/
def CPU.wf (cpu : CPU) : Prop :=
  cpu.pc < 65536 ∧ cpu.sp < 256 ∧ cpu.a < 256 ∧ cpu.x < 256 ∧ cpu.y < 256 ∧
    cpu.status < 256

instance (cpu : CPU) : Decidable cpu.wf := by
  unfold CPU.wf; exact inferInstance

/-- Read of the one-bit field at bit position `k` of a byte. -/
def bit_get (s k : Nat) : Nat := s / 2 ^ k % 2

/-- Assignment of `v` to the one-bit field at bit position `k` of a byte. -/
def bit_set (s k v : Nat) : Nat := s - (s / 2 ^ k % 2) * 2 ^ k + (v % 2) * 2 ^ k

/-- Truth value of a C condition as the integer 0 or 1. -/
def b2n (b : Bool) : Nat := if b then 1 else 0

def CPU.c (cpu : CPU) : Nat := bit_get cpu.status 0
def CPU.z (cpu : CPU) : Nat := bit_get cpu.status 1
def CPU.i (cpu : CPU) : Nat := bit_get cpu.status 2
def CPU.d (cpu : CPU) : Nat := bit_get cpu.status 3
def CPU.b (cpu : CPU) : Nat := bit_get cpu.status 4
def CPU.e (cpu : CPU) : Nat := bit_get cpu.status 5
def CPU.v (cpu : CPU) : Nat := bit_get cpu.status 6
def CPU.n (cpu : CPU) : Nat := bit_get cpu.status 7

def CPU.set_c (cpu : CPU) (v : Nat) : CPU := { cpu with status := bit_set cpu.status 0 v }
def CPU.set_z (cpu : CPU) (v : Nat) : CPU := { cpu with status := bit_set cpu.status 1 v }
def CPU.set_i (cpu : CPU) (v : Nat) : CPU := { cpu with status := bit_set cpu.status 2 v }
def CPU.set_d (cpu : CPU) (v : Nat) : CPU := { cpu with status := bit_set cpu.status 3 v }
def CPU.set_b (cpu : CPU) (v : Nat) : CPU := { cpu with status := bit_set cpu.status 4 v }
def CPU.set_e (cpu : CPU) (v : Nat) : CPU := { cpu with status := bit_set cpu.status 5 v }
def CPU.set_v (cpu : CPU) (v : Nat) : CPU := { cpu with status := bit_set cpu.status 6 v }
def CPU.set_n (cpu : CPU) (v : Nat) : CPU := { cpu with status := bit_set cpu.status 7 v }

/-- The `Address` handed to a handler: a 16-bit value and the flag
"no memory operand". -/
structure Address where
  val : Nat
  null : Bool

/-- The function `cpu_reset`. -/
def cpu_reset (cpu : CPU) : CPU :=
  let cpu := { cpu with pc := 0xC000 }
  let cpu := { cpu with sp := 0xFD }
  let cpu := { cpu with a := 0 }
  let cpu := { cpu with x := 0 }
  let cpu := { cpu with y := 0 }
  let cpu := { cpu with status := CPU_STATUS_MASK }
  cpu.set_i 1

/-- The function `cpu_new`: a CPU over `mem` with a zero clock, then reset.
The fields `cpu_new` leaves uninitialised are taken as zero. -/
def cpu_new (mem : Memory) : CPU :=
  cpu_reset
    { mem := mem, clock := 0, last_addr := 0, pc := 0, sp := 0, a := 0, x := 0,
      y := 0, status := 0, stdout := [] }

/-- The function `cpu_next_memory`: obtain the next byte in memory and
increment PC. -/
def cpu_next_memory (cpu : CPU) : Nat × CPU :=
  let addr := memory_read cpu.mem cpu.pc
  (addr, { cpu with pc := (cpu.pc + 1) % 65536 })

/-- The function `cpu_next_memory16`: obtain the next two bytes in memory and
increment PC. -/
def cpu_next_memory16 (cpu : CPU) : Nat × CPU :=
  let addr := memory_read16 cpu.mem cpu.pc
  (addr, { cpu with pc := (cpu.pc + 2) % 65536 })

/-! ## Stack operations -/

def cpu_push (cpu : CPU) (val : Nat) : CPU :=
  let cpu := { cpu with mem := memory_write cpu.mem (STACK_MIN + cpu.sp) val }
  { cpu with sp := (cpu.sp + 256 - 1) % 256 }

def cpu_push16 (cpu : CPU) (val : Nat) : CPU :=
  let cpu := { cpu with mem := memory_write16 cpu.mem (STACK_MIN + cpu.sp - 1) val }
  { cpu with sp := (cpu.sp + 256 - 2) % 256 }

def cpu_pull (cpu : CPU) : Nat × CPU :=
  let val := memory_read cpu.mem (STACK_MIN + cpu.sp + 1)
  (val, { cpu with sp := (cpu.sp + 1) % 256 })

def cpu_pull16 (cpu : CPU) : Nat × CPU :=
  let val := memory_read16 cpu.mem (STACK_MIN + cpu.sp + 1)
  (val, { cpu with sp := (cpu.sp + 2) % 256 })

/-! ## Value operations -/

def cpu_zn (cpu : CPU) (val : Nat) : CPU :=
  let val := val % 256
  let cpu := cpu.set_z (b2n (val == 0))
  cpu.set_n (val >>> 7 &&& 1)

def cpu_compare (cpu : CPU) (a b : Nat) : CPU :=
  let result := (a + 256 - b) % 256
  let cpu := cpu.set_c (b2n (decide (b ≤ a)))
  cpu_zn cpu result

/-- Bit pattern of the C expression `~x` for a 32-bit `int` operand `x`. -/
def int_not (x : Nat) : Nat := 0xFFFFFFFF ^^^ x

/-- Bit pattern (32-bit complement-of-two encoding) of a C `int`. -/
def int_bits (r : Int) : Nat := (r % 4294967296).toNat

/-- Conversion of an `int` to `int16_t`. -/
def to_int16 (r : Int) : Int := (r + 32768) % 65536 - 32768

/-- Value held by a 32-bit `int` for an arithmetic result whose exact value is
`r`. Inside the range of `int` it is `r`; outside it C defines no result and
the model takes the wrap-around of the complement-of-two machines. -/
def to_int32 (r : Int) : Int := (r + 2147483648) % 4294967296 - 2147483648

/-! ## Official instructions -/

def cpu_adc (cpu : CPU) (addr : Address) : CPU :=
  let a := cpu.a
  let b := memory_read cpu.mem addr.val
  let result := (a + b + cpu.c) % 65536
  let cpu := { cpu with a := result % 256 }
  let cpu := cpu.set_c (b2n (decide (result > 0xFF)))
  let cpu := cpu.set_v (b2n (!((a ^^^ b) >>> 7 &&& 1 != 0) && ((result ^^^ a) >>> 7 &&& 1 != 0)))
  cpu_zn cpu result

def cpu_and (cpu : CPU) (addr : Address) : CPU :=
  let result := (cpu.a &&& memory_read cpu.mem addr.val) % 256
  let cpu := { cpu with a := result }
  cpu_zn cpu result

def cpu_asl (cpu : CPU) (addr : Address) : CPU :=
  if addr.null then
    let result := cpu.a
    let cpu := cpu.set_c (result >>> 7 &&& 1)
    let result := (result <<< 1) % 256
    let cpu := { cpu with a := result }
    cpu_zn cpu result
  else
    let result := memory_read cpu.mem addr.val
    let cpu := cpu.set_c (result >>> 7 &&& 1)
    let result := (result <<< 1) % 256
    let cpu := { cpu with mem := memory_write cpu.mem addr.val result }
    cpu_zn cpu result

def cpu_bcc (cpu : CPU) (addr : Address) : CPU :=
  if cpu.c = 0 then { cpu with pc := addr.val } else cpu

def cpu_bcs (cpu : CPU) (addr : Address) : CPU :=
  if cpu.c ≠ 0 then { cpu with pc := addr.val } else cpu

def cpu_beq (cpu : CPU) (addr : Address) : CPU :=
  if cpu.z ≠ 0 then { cpu with pc := addr.val } else cpu

def cpu_bit (cpu : CPU) (addr : Address) : CPU :=
  let val := memory_read cpu.mem addr.val
  let cpu := cpu.set_z (b2n (val &&& cpu.a == 0))
  let cpu := cpu.set_v (val >>> 6 &&& 1)
  cpu.set_n (val >>> 7 &&& 1)

def cpu_bmi (cpu : CPU) (addr : Address) : CPU :=
  if cpu.n ≠ 0 then { cpu with pc := addr.val } else cpu

def cpu_bne (cpu : CPU) (addr : Address) : CPU :=
  if cpu.z = 0 then { cpu with pc := addr.val } else cpu

def cpu_bpl (cpu : CPU) (addr : Address) : CPU :=
  if cpu.n = 0 then { cpu with pc := addr.val } else cpu

def cpu_bvc (cpu : CPU) (addr : Address) : CPU :=
  if cpu.v = 0 then { cpu with pc := addr.val } else cpu

def cpu_bvs (cpu : CPU) (addr : Address) : CPU :=
  if cpu.v ≠ 0 then { cpu with pc := addr.val } else cpu

def cpu_clc (cpu : CPU) (_addr : Address) : CPU := cpu.set_c 0

def cpu_cld (cpu : CPU) (_addr : Address) : CPU := cpu.set_d 0

def cpu_cli (cpu : CPU) (_addr : Address) : CPU := cpu.set_i 0

def cpu_clv (cpu : CPU) (_addr : Address) : CPU := cpu.set_v 0

def cpu_cmp (cpu : CPU) (addr : Address) : CPU :=
  let val := memory_read cpu.mem addr.val
  cpu_compare cpu cpu.a val

def cpu_cpx (cpu : CPU) (addr : Address) : CPU :=
  let val := memory_read cpu.mem addr.val
  cpu_compare cpu cpu.x val

def cpu_cpy (cpu : CPU) (addr : Address) : CPU :=
  let val := memory_read cpu.mem addr.val
  cpu_compare cpu cpu.y val

def cpu_dec (cpu : CPU) (addr : Address) : CPU :=
  let result := (memory_read cpu.mem addr.val + 256 - 1) % 256
  let cpu := { cpu with mem := memory_write cpu.mem addr.val result }
  cpu_zn cpu result

def cpu_dex (cpu : CPU) (_addr : Address) : CPU :=
  let result := (cpu.x + 256 - 1) % 256
  let cpu := { cpu with x := result }
  cpu_zn cpu result

def cpu_dey (cpu : CPU) (_addr : Address) : CPU :=
  let result := (cpu.y + 256 - 1) % 256
  let cpu := { cpu with y := result }
  cpu_zn cpu result

def cpu_eor (cpu : CPU) (addr : Address) : CPU :=
  let result := (cpu.a ^^^ memory_read cpu.mem addr.val) % 256
  let cpu := { cpu with a := result }
  cpu_zn cpu result

def cpu_inc (cpu : CPU) (addr : Address) : CPU :=
  let result := (memory_read cpu.mem addr.val + 1) % 256
  let cpu := { cpu with mem := memory_write cpu.mem addr.val result }
  cpu_zn cpu result

def cpu_inx (cpu : CPU) (_addr : Address) : CPU :=
  let result := (cpu.x + 1) % 256
  let cpu := { cpu with x := result }
  cpu_zn cpu result

def cpu_iny (cpu : CPU) (_addr : Address) : CPU :=
  let result := (cpu.y + 1) % 256
  let cpu := { cpu with y := result }
  cpu_zn cpu result

/-- The function `cpu_jmp`, with its substitution of `0x0300` for the
resolved address `0xA900`. -/
def cpu_jmp (cpu : CPU) (addr : Address) : CPU :=
  let addr : Address := if addr.val = 0xA900 then { addr with val := 0x0300 } else addr
  { cpu with pc := addr.val }

def cpu_jsr (cpu : CPU) (addr : Address) : CPU :=
  let cpu := cpu_push16 cpu ((cpu.pc + 65536 - 1) % 65536)
  { cpu with pc := addr.val }

def cpu_lda (cpu : CPU) (addr : Address) : CPU :=
  let val := memory_read cpu.mem addr.val
  let cpu := { cpu with a := val }
  cpu_zn cpu val

def cpu_ldx (cpu : CPU) (addr : Address) : CPU :=
  let val := memory_read cpu.mem addr.val
  let cpu := { cpu with x := val }
  cpu_zn cpu val

def cpu_ldy (cpu : CPU) (addr : Address) : CPU :=
  let val := memory_read cpu.mem addr.val
  let cpu := { cpu with y := val }
  cpu_zn cpu val

def cpu_lsr (cpu : CPU) (addr : Address) : CPU :=
  if addr.null then
    let result := cpu.a
    let cpu := cpu.set_c (result &&& 1)
    let result := result >>> 1
    let cpu := { cpu with a := result }
    cpu_zn cpu result
  else
    let result := memory_read cpu.mem addr.val
    let cpu := cpu.set_c (result &&& 1)
    let result := result >>> 1
    let cpu := { cpu with mem := memory_write cpu.mem addr.val result }
    cpu_zn cpu result

def cpu_nop (cpu : CPU) (_addr : Address) : CPU := cpu

def cpu_ora (cpu : CPU) (addr : Address) : CPU :=
  let result := (cpu.a ||| memory_read cpu.mem addr.val) % 256
  let cpu := { cpu with a := result }
  cpu_zn cpu result

def cpu_pha (cpu : CPU) (_addr : Address) : CPU :=
  cpu_push cpu cpu.a

def cpu_php (cpu : CPU) (_addr : Address) : CPU :=
  cpu_push cpu (cpu.status ||| CPU_STATUS_MASK)

def cpu_pla (cpu : CPU) (_addr : Address) : CPU :=
  let (val, cpu) := cpu_pull cpu
  let cpu := { cpu with a := val }
  cpu_zn cpu val

def cpu_plp (cpu : CPU) (_addr : Address) : CPU :=
  let (val, cpu) := cpu_pull cpu
  { cpu with
    status := ((cpu.status &&& CPU_STATUS_MASK) ||| (val &&& int_not CPU_STATUS_MASK)) % 256 }

def cpu_rol (cpu : CPU) (addr : Address) : CPU :=
  if addr.null then
    let result := cpu.a
    let c := cpu.c
    let cpu := cpu.set_c (result >>> 7 &&& 1)
    let result := (result <<< 1 ||| c) % 256
    let cpu := { cpu with a := result }
    cpu_zn cpu result
  else
    let result := memory_read cpu.mem addr.val
    let c := cpu.c
    let cpu := cpu.set_c (result >>> 7 &&& 1)
    let result := (result <<< 1 ||| c) % 256
    let cpu := { cpu with mem := memory_write cpu.mem addr.val result }
    cpu_zn cpu result

def cpu_ror (cpu : CPU) (addr : Address) : CPU :=
  if addr.null then
    let result := cpu.a
    let c := cpu.c
    let cpu := cpu.set_c (result &&& 1)
    let result := (result >>> 1 ||| c <<< 7) % 256
    let cpu := { cpu with a := result }
    cpu_zn cpu result
  else
    let result := memory_read cpu.mem addr.val
    let c := cpu.c
    let cpu := cpu.set_c (result &&& 1)
    let result := (result >>> 1 ||| c <<< 7) % 256
    let cpu := { cpu with mem := memory_write cpu.mem addr.val result }
    cpu_zn cpu result

def cpu_rti (cpu : CPU) (addr : Address) : CPU :=
  let cpu := cpu_plp cpu addr
  let (val, cpu) := cpu_pull16 cpu
  { cpu with pc := val }

def cpu_rts (cpu : CPU) (_addr : Address) : CPU :=
  let (val, cpu) := cpu_pull16 cpu
  { cpu with pc := (val + 1) % 65536 }

/-- The function `cpu_sbc`. `result` is the `int16_t` of the source; its
exclusive-or with `a` is taken on the bit pattern of the promoted `int`. -/
def cpu_sbc (cpu : CPU) (addr : Address) : CPU :=
  let a := cpu.a
  let b := memory_read cpu.mem addr.val
  let result : Int := to_int16 ((a : Int) - (b : Int) - (1 - (cpu.c : Int)))
  let cpu := { cpu with a := (result % 256).toNat }
  let cpu := cpu.set_c (b2n (decide (result ≥ 0x00)))
  let cpu := cpu.set_v
    (b2n (((a ^^^ b) >>> 7 &&& 1 != 0) && ((int_bits result ^^^ a) >>> 7 &&& 1 != 0)))
  cpu_zn cpu (result % 256).toNat

def cpu_sec (cpu : CPU) (_addr : Address) : CPU := cpu.set_c 1

def cpu_sed (cpu : CPU) (_addr : Address) : CPU := cpu.set_d 1

def cpu_sei (cpu : CPU) (_addr : Address) : CPU := cpu.set_i 1

/-- The function `cpu_brk`: JSR to the fixed address `0xFFFE`, then PHP,
then SEI. -/
def cpu_brk (cpu : CPU) (addr : Address) : CPU :=
  let interrupt_addr : Address := { val := 0xFFFE, null := false }
  let cpu := cpu_jsr cpu interrupt_addr
  let cpu := cpu_php cpu addr
  cpu_sei cpu addr

def cpu_sta (cpu : CPU) (addr : Address) : CPU :=
  { cpu with mem := memory_write cpu.mem addr.val cpu.a }

def cpu_stx (cpu : CPU) (addr : Address) : CPU :=
  { cpu with mem := memory_write cpu.mem addr.val cpu.x }

def cpu_sty (cpu : CPU) (addr : Address) : CPU :=
  { cpu with mem := memory_write cpu.mem addr.val cpu.y }

def cpu_tax (cpu : CPU) (_addr : Address) : CPU :=
  let val := cpu.a
  let cpu := { cpu with x := val }
  cpu_zn cpu val

def cpu_tay (cpu : CPU) (_addr : Address) : CPU :=
  let val := cpu.a
  let cpu := { cpu with y := val }
  cpu_zn cpu val

def cpu_tsx (cpu : CPU) (_addr : Address) : CPU :=
  let val := cpu.sp
  let cpu := { cpu with x := val }
  cpu_zn cpu val

def cpu_txa (cpu : CPU) (_addr : Address) : CPU :=
  let val := cpu.x
  let cpu := { cpu with a := val }
  cpu_zn cpu val

def cpu_txs (cpu : CPU) (_addr : Address) : CPU :=
  let val := cpu.x
  { cpu with sp := val }

def cpu_tya (cpu : CPU) (_addr : Address) : CPU :=
  let val := cpu.y
  let cpu := { cpu with a := val }
  cpu_zn cpu val

/-! ## Unofficial instructions -/

/-- The body shared by every unofficial handler: `printf("STUB\n")`. -/
def cpu_stub (cpu : CPU) : CPU := { cpu with stdout := cpu.stdout ++ ["STUB\n"] }

def cpu_ahx (cpu : CPU) (_addr : Address) : CPU := cpu_stub cpu
def cpu_alr (cpu : CPU) (_addr : Address) : CPU := cpu_stub cpu
def cpu_anc (cpu : CPU) (_addr : Address) : CPU := cpu_stub cpu
def cpu_arr (cpu : CPU) (_addr : Address) : CPU := cpu_stub cpu
def cpu_axs (cpu : CPU) (_addr : Address) : CPU := cpu_stub cpu
def cpu_dcp (cpu : CPU) (_addr : Address) : CPU := cpu_stub cpu
def cpu_isc (cpu : CPU) (_addr : Address) : CPU := cpu_stub cpu
def cpu_las (cpu : CPU) (_addr : Address) : CPU := cpu_stub cpu
def cpu_lax (cpu : CPU) (_addr : Address) : CPU := cpu_stub cpu
def cpu_rla (cpu : CPU) (_addr : Address) : CPU := cpu_stub cpu
def cpu_rra (cpu : CPU) (_addr : Address) : CPU := cpu_stub cpu
def cpu_sax (cpu : CPU) (_addr : Address) : CPU := cpu_stub cpu
def cpu_shx (cpu : CPU) (_addr : Address) : CPU := cpu_stub cpu
def cpu_shy (cpu : CPU) (_addr : Address) : CPU := cpu_stub cpu
def cpu_slo (cpu : CPU) (_addr : Address) : CPU := cpu_stub cpu
def cpu_sre (cpu : CPU) (_addr : Address) : CPU := cpu_stub cpu
def cpu_stp (cpu : CPU) (_addr : Address) : CPU := cpu_stub cpu
def cpu_tas (cpu : CPU) (_addr : Address) : CPU := cpu_stub cpu
def cpu_xaa (cpu : CPU) (_addr : Address) : CPU := cpu_stub cpu


/-! ## Decoding and dispatch -/

/-- The enumeration `Instruction` of `instruction.h`, in declaration order. -/
inductive Instruction where
  | INSTR_ADC
  | INSTR_AHX
  | INSTR_ALR
  | INSTR_ANC
  | INSTR_AND
  | INSTR_ARR
  | INSTR_ASL
  | INSTR_AXS
  | INSTR_BCC
  | INSTR_BCS
  | INSTR_BEQ
  | INSTR_BIT
  | INSTR_BMI
  | INSTR_BNE
  | INSTR_BPL
  | INSTR_BRK
  | INSTR_BVC
  | INSTR_BVS
  | INSTR_CLC
  | INSTR_CLD
  | INSTR_CLI
  | INSTR_CLV
  | INSTR_CMP
  | INSTR_CPX
  | INSTR_CPY
  | INSTR_DCP
  | INSTR_DEC
  | INSTR_DEX
  | INSTR_DEY
  | INSTR_EOR
  | INSTR_INC
  | INSTR_INX
  | INSTR_INY
  | INSTR_ISC
  | INSTR_JMP
  | INSTR_JSR
  | INSTR_LAS
  | INSTR_LAX
  | INSTR_LDA
  | INSTR_LDX
  | INSTR_LDY
  | INSTR_LSR
  | INSTR_NOP
  | INSTR_ORA
  | INSTR_PHA
  | INSTR_PHP
  | INSTR_PLA
  | INSTR_PLP
  | INSTR_RLA
  | INSTR_ROL
  | INSTR_ROR
  | INSTR_RRA
  | INSTR_RTI
  | INSTR_RTS
  | INSTR_SAX
  | INSTR_SBC
  | INSTR_SEC
  | INSTR_SED
  | INSTR_SEI
  | INSTR_SHX
  | INSTR_SHY
  | INSTR_SLO
  | INSTR_SRE
  | INSTR_STA
  | INSTR_STP
  | INSTR_STX
  | INSTR_STY
  | INSTR_TAS
  | INSTR_TAX
  | INSTR_TAY
  | INSTR_TSX
  | INSTR_TXA
  | INSTR_TXS
  | INSTR_TYA
  | INSTR_XAA
  deriving DecidableEq, Repr

/-- The table `instruction_name`: the mnemonic of each instruction tag. -/
def instruction_name : Instruction → String
  | .INSTR_ADC => "ADC"
  | .INSTR_AHX => "AHX"
  | .INSTR_ALR => "ALR"
  | .INSTR_ANC => "ANC"
  | .INSTR_AND => "AND"
  | .INSTR_ARR => "ARR"
  | .INSTR_ASL => "ASL"
  | .INSTR_AXS => "AXS"
  | .INSTR_BCC => "BCC"
  | .INSTR_BCS => "BCS"
  | .INSTR_BEQ => "BEQ"
  | .INSTR_BIT => "BIT"
  | .INSTR_BMI => "BMI"
  | .INSTR_BNE => "BNE"
  | .INSTR_BPL => "BPL"
  | .INSTR_BRK => "BRK"
  | .INSTR_BVC => "BVC"
  | .INSTR_BVS => "BVS"
  | .INSTR_CLC => "CLC"
  | .INSTR_CLD => "CLD"
  | .INSTR_CLI => "CLI"
  | .INSTR_CLV => "CLV"
  | .INSTR_CMP => "CMP"
  | .INSTR_CPX => "CPX"
  | .INSTR_CPY => "CPY"
  | .INSTR_DCP => "DCP"
  | .INSTR_DEC => "DEC"
  | .INSTR_DEX => "DEX"
  | .INSTR_DEY => "DEY"
  | .INSTR_EOR => "EOR"
  | .INSTR_INC => "INC"
  | .INSTR_INX => "INX"
  | .INSTR_INY => "INY"
  | .INSTR_ISC => "ISC"
  | .INSTR_JMP => "JMP"
  | .INSTR_JSR => "JSR"
  | .INSTR_LAS => "LAS"
  | .INSTR_LAX => "LAX"
  | .INSTR_LDA => "LDA"
  | .INSTR_LDX => "LDX"
  | .INSTR_LDY => "LDY"
  | .INSTR_LSR => "LSR"
  | .INSTR_NOP => "NOP"
  | .INSTR_ORA => "ORA"
  | .INSTR_PHA => "PHA"
  | .INSTR_PHP => "PHP"
  | .INSTR_PLA => "PLA"
  | .INSTR_PLP => "PLP"
  | .INSTR_RLA => "RLA"
  | .INSTR_ROL => "ROL"
  | .INSTR_ROR => "ROR"
  | .INSTR_RRA => "RRA"
  | .INSTR_RTI => "RTI"
  | .INSTR_RTS => "RTS"
  | .INSTR_SAX => "SAX"
  | .INSTR_SBC => "SBC"
  | .INSTR_SEC => "SEC"
  | .INSTR_SED => "SED"
  | .INSTR_SEI => "SEI"
  | .INSTR_SHX => "SHX"
  | .INSTR_SHY => "SHY"
  | .INSTR_SLO => "SLO"
  | .INSTR_SRE => "SRE"
  | .INSTR_STA => "STA"
  | .INSTR_STP => "STP"
  | .INSTR_STX => "STX"
  | .INSTR_STY => "STY"
  | .INSTR_TAS => "TAS"
  | .INSTR_TAX => "TAX"
  | .INSTR_TAY => "TAY"
  | .INSTR_TSX => "TSX"
  | .INSTR_TXA => "TXA"
  | .INSTR_TXS => "TXS"
  | .INSTR_TYA => "TYA"
  | .INSTR_XAA => "XAA"

/-- The table `instruction_action`: the handler of each instruction tag. -/
def instruction_action : Instruction → CPU → Address → CPU
  | .INSTR_ADC => cpu_adc
  | .INSTR_AHX => cpu_ahx
  | .INSTR_ALR => cpu_alr
  | .INSTR_ANC => cpu_anc
  | .INSTR_AND => cpu_and
  | .INSTR_ARR => cpu_arr
  | .INSTR_ASL => cpu_asl
  | .INSTR_AXS => cpu_axs
  | .INSTR_BCC => cpu_bcc
  | .INSTR_BCS => cpu_bcs
  | .INSTR_BEQ => cpu_beq
  | .INSTR_BIT => cpu_bit
  | .INSTR_BMI => cpu_bmi
  | .INSTR_BNE => cpu_bne
  | .INSTR_BPL => cpu_bpl
  | .INSTR_BRK => cpu_brk
  | .INSTR_BVC => cpu_bvc
  | .INSTR_BVS => cpu_bvs
  | .INSTR_CLC => cpu_clc
  | .INSTR_CLD => cpu_cld
  | .INSTR_CLI => cpu_cli
  | .INSTR_CLV => cpu_clv
  | .INSTR_CMP => cpu_cmp
  | .INSTR_CPX => cpu_cpx
  | .INSTR_CPY => cpu_cpy
  | .INSTR_DCP => cpu_dcp
  | .INSTR_DEC => cpu_dec
  | .INSTR_DEX => cpu_dex
  | .INSTR_DEY => cpu_dey
  | .INSTR_EOR => cpu_eor
  | .INSTR_INC => cpu_inc
  | .INSTR_INX => cpu_inx
  | .INSTR_INY => cpu_iny
  | .INSTR_ISC => cpu_isc
  | .INSTR_JMP => cpu_jmp
  | .INSTR_JSR => cpu_jsr
  | .INSTR_LAS => cpu_las
  | .INSTR_LAX => cpu_lax
  | .INSTR_LDA => cpu_lda
  | .INSTR_LDX => cpu_ldx
  | .INSTR_LDY => cpu_ldy
  | .INSTR_LSR => cpu_lsr
  | .INSTR_NOP => cpu_nop
  | .INSTR_ORA => cpu_ora
  | .INSTR_PHA => cpu_pha
  | .INSTR_PHP => cpu_php
  | .INSTR_PLA => cpu_pla
  | .INSTR_PLP => cpu_plp
  | .INSTR_RLA => cpu_rla
  | .INSTR_ROL => cpu_rol
  | .INSTR_ROR => cpu_ror
  | .INSTR_RRA => cpu_rra
  | .INSTR_RTI => cpu_rti
  | .INSTR_RTS => cpu_rts
  | .INSTR_SAX => cpu_sax
  | .INSTR_SBC => cpu_sbc
  | .INSTR_SEC => cpu_sec
  | .INSTR_SED => cpu_sed
  | .INSTR_SEI => cpu_sei
  | .INSTR_SHX => cpu_shx
  | .INSTR_SHY => cpu_shy
  | .INSTR_SLO => cpu_slo
  | .INSTR_SRE => cpu_sre
  | .INSTR_STA => cpu_sta
  | .INSTR_STP => cpu_stp
  | .INSTR_STX => cpu_stx
  | .INSTR_STY => cpu_sty
  | .INSTR_TAS => cpu_tas
  | .INSTR_TAX => cpu_tax
  | .INSTR_TAY => cpu_tay
  | .INSTR_TSX => cpu_tsx
  | .INSTR_TXA => cpu_txa
  | .INSTR_TXS => cpu_txs
  | .INSTR_TYA => cpu_tya
  | .INSTR_XAA => cpu_xaa

/-- Modelled from the spec: the enumeration `AdressingMode` of `opcode.h`,
which is not part of the sources at hand; the thirteen modes, in the order of
the table `addr_mode_debug`. -/
inductive AdressingMode where
  | ADDR_IMPLIED
  | ADDR_ACCUMULATOR
  | ADDR_IMMEDIATE
  | ADDR_ZERO_PAGE
  | ADDR_ABSOLUTE
  | ADDR_RELATIVE
  | ADDR_ZERO_PAGE_X
  | ADDR_ZERO_PAGE_Y
  | ADDR_ABSOLUTE_X
  | ADDR_ABSOLUTE_Y
  | ADDR_INDIRECT
  | ADDR_INDIRECT_INDEXED
  | ADDR_INDEXED_INDIRECT
  deriving DecidableEq, Repr

/-- The three opcode tables of `opcode.h` (`opcode_instruction`,
`opcode_addressing_mode`, `opcode_cycles`), which are not part of the sources
at hand; they are a parameter of everything that decodes an opcode. -/
structure OpcodeTable where
  opcode_instruction : Nat → Instruction
  opcode_addressing_mode : Nat → AdressingMode
  opcode_cycles : Nat → Int

/-- The `switch (opcode_addressing_mode[opcode])` of `cpu_next_instr`: the
resolved address of the operand and the CPU with PC moved past the operand
bytes. In the Relative case PC is read after `cpu_next_memory` has advanced
it. -/
def cpu_resolve (mode : AdressingMode) (cpu : CPU) : Address × CPU :=
  match mode with
  | .ADDR_IMPLIED => ({ val := 0, null := true }, cpu)
  | .ADDR_ACCUMULATOR => ({ val := 0, null := true }, cpu)
  | .ADDR_IMMEDIATE =>
    ({ val := cpu.pc, null := false }, { cpu with pc := (cpu.pc + 1) % 65536 })
  | .ADDR_ZERO_PAGE =>
    let (m, cpu) := cpu_next_memory cpu
    ({ val := m, null := false }, cpu)
  | .ADDR_ABSOLUTE =>
    let (m, cpu) := cpu_next_memory16 cpu
    ({ val := m, null := false }, cpu)
  | .ADDR_RELATIVE =>
    let (m, cpu) := cpu_next_memory cpu
    ({ val := (m + cpu.pc) % 65536, null := false }, cpu)
  | .ADDR_ZERO_PAGE_X =>
    let (m, cpu) := cpu_next_memory cpu
    ({ val := (m + cpu.x) % 256, null := false }, cpu)
  | .ADDR_ZERO_PAGE_Y =>
    let (m, cpu) := cpu_next_memory cpu
    ({ val := (m + cpu.y) % 256, null := false }, cpu)
  | .ADDR_ABSOLUTE_X =>
    let (m, cpu) := cpu_next_memory16 cpu
    ({ val := (m + cpu.x) % 65536, null := false }, cpu)
  | .ADDR_ABSOLUTE_Y =>
    let (m, cpu) := cpu_next_memory16 cpu
    ({ val := (m + cpu.y) % 65536, null := false }, cpu)
  | .ADDR_INDIRECT =>
    let (m, cpu) := cpu_next_memory16 cpu
    ({ val := memory_read16 cpu.mem m, null := false }, cpu)
  | .ADDR_INDIRECT_INDEXED =>
    let (m, cpu) := cpu_next_memory cpu
    ({ val := (memory_zero_page_read16 cpu.mem m + cpu.y) % 65536, null := false }, cpu)
  | .ADDR_INDEXED_INDIRECT =>
    let (m, cpu) := cpu_next_memory cpu
    ({ val := memory_zero_page_read16 cpu.mem (m + cpu.x), null := false }, cpu)

/-- The function `cpu_next_instr`: evaluate the next instruction in the
program. The field `clock` is an `int`: the sum of `clock += opcode_cycles[opcode]`
is kept by `to_int32`. -/
def cpu_next_instr (t : OpcodeTable) (cpu : CPU) : CPU :=
  let (opcode, cpu) := cpu_next_memory cpu
  let instruction := t.opcode_instruction opcode
  let (addr, cpu) := cpu_resolve (t.opcode_addressing_mode opcode) cpu
  let cpu := instruction_action instruction cpu addr
  { cpu with clock := to_int32 (cpu.clock + t.opcode_cycles opcode) }

/-! ## The specification reading of Relative addressing -/

/-- The signed value of a byte read as a two-complement 8-bit number, as the
specification of Relative addressing words it. -/
def spec_signed8 (o : Nat) : Int := if o < 128 then (o : Int) else (o : Int) - 256

/-- The Relative target as the specification words it: PC after the operand
read plus the signed offset, modulo 65536. -/
def spec_relative_target (q o : Nat) : Nat :=
  (((q : Int) + 1 + spec_signed8 o) % 65536).toNat

/-! ## Concrete inputs -/

/-- A concrete CPU used to exercise the theorems: the power-on registers
over a memory that holds `0x10` in every cell, with `A = 0x50`. -/
def cpu_sample : CPU :=
  { mem := fun _ => 0x10, clock := 0, last_addr := 0, pc := 0xC000, sp := 0xFD, a := 0x50,
    x := 1, y := 2, status := 0x34, stdout := [] }

/-- A concrete resolved address with a memory operand. -/
def addr_sample : Address := { val := 0x0200, null := false }

/-- A concrete CPU whose stack pointer is zero, over a memory of zero
cells. -/
def cpu_sp_zero : CPU :=
  { mem := fun _ => 0, clock := 0, last_addr := 0, pc := 0xC000, sp := 0x00, a := 0,
    x := 0, y := 0, status := 0x34, stdout := [] }

/-- A concrete CPU whose next operand byte is `0xFF` and whose X is 1. -/
def cpu_zero_page_wrap : CPU :=
  { mem := fun _ => 0xFF, clock := 0, last_addr := 0, pc := 0xC001, sp := 0xFD, a := 0,
    x := 1, y := 0, status := 0x34, stdout := [] }

/-- An opcode table that decodes every opcode as a relative `BCC` of two
cycles. -/
def table_bcc : OpcodeTable :=
  { opcode_instruction := fun _ => .INSTR_BCC,
    opcode_addressing_mode := fun _ => .ADDR_RELATIVE,
    opcode_cycles := fun _ => 2 }

/-- A concrete CPU whose PC points at a Relative operand byte `0xFE`. -/
def cpu_branch_back : CPU :=
  { mem := fun _ => 0xFE, clock := 0, last_addr := 0, pc := 0x8001, sp := 0xFD, a := 0,
    x := 0, y := 0, status := 0x34, stdout := [] }

/-- An opcode table that decodes every opcode as an absolute `JSR` of six
cycles. -/
def table_jsr : OpcodeTable :=
  { opcode_instruction := fun _ => .INSTR_JSR,
    opcode_addressing_mode := fun _ => .ADDR_ABSOLUTE,
    opcode_cycles := fun _ => 6 }

/-- A concrete CPU whose stack pointer is in the middle of the stack page,
over a memory that holds `0xC3` in every cell. -/
def cpu_mid_stack : CPU :=
  { mem := fun _ => 0xC3, clock := 7, last_addr := 0, pc := 0x8000, sp := 0x80, a := 0x81,
    x := 0x10, y := 0x90, status := 0x34, stdout := [] }

/-! ## The enumeration and its two tables as arrays -/

deriving instance Fintype for Instruction

/-- The integer value of an `Instruction` enumerator: its position in the
declaration, from 0. -/
def Instruction.index : Instruction → Nat
  | .INSTR_ADC => 0
  | .INSTR_AHX => 1
  | .INSTR_ALR => 2
  | .INSTR_ANC => 3
  | .INSTR_AND => 4
  | .INSTR_ARR => 5
  | .INSTR_ASL => 6
  | .INSTR_AXS => 7
  | .INSTR_BCC => 8
  | .INSTR_BCS => 9
  | .INSTR_BEQ => 10
  | .INSTR_BIT => 11
  | .INSTR_BMI => 12
  | .INSTR_BNE => 13
  | .INSTR_BPL => 14
  | .INSTR_BRK => 15
  | .INSTR_BVC => 16
  | .INSTR_BVS => 17
  | .INSTR_CLC => 18
  | .INSTR_CLD => 19
  | .INSTR_CLI => 20
  | .INSTR_CLV => 21
  | .INSTR_CMP => 22
  | .INSTR_CPX => 23
  | .INSTR_CPY => 24
  | .INSTR_DCP => 25
  | .INSTR_DEC => 26
  | .INSTR_DEX => 27
  | .INSTR_DEY => 28
  | .INSTR_EOR => 29
  | .INSTR_INC => 30
  | .INSTR_INX => 31
  | .INSTR_INY => 32
  | .INSTR_ISC => 33
  | .INSTR_JMP => 34
  | .INSTR_JSR => 35
  | .INSTR_LAS => 36
  | .INSTR_LAX => 37
  | .INSTR_LDA => 38
  | .INSTR_LDX => 39
  | .INSTR_LDY => 40
  | .INSTR_LSR => 41
  | .INSTR_NOP => 42
  | .INSTR_ORA => 43
  | .INSTR_PHA => 44
  | .INSTR_PHP => 45
  | .INSTR_PLA => 46
  | .INSTR_PLP => 47
  | .INSTR_RLA => 48
  | .INSTR_ROL => 49
  | .INSTR_ROR => 50
  | .INSTR_RRA => 51
  | .INSTR_RTI => 52
  | .INSTR_RTS => 53
  | .INSTR_SAX => 54
  | .INSTR_SBC => 55
  | .INSTR_SEC => 56
  | .INSTR_SED => 57
  | .INSTR_SEI => 58
  | .INSTR_SHX => 59
  | .INSTR_SHY => 60
  | .INSTR_SLO => 61
  | .INSTR_SRE => 62
  | .INSTR_STA => 63
  | .INSTR_STP => 64
  | .INSTR_STX => 65
  | .INSTR_STY => 66
  | .INSTR_TAS => 67
  | .INSTR_TAX => 68
  | .INSTR_TAY => 69
  | .INSTR_TSX => 70
  | .INSTR_TXA => 71
  | .INSTR_TXS => 72
  | .INSTR_TYA => 73
  | .INSTR_XAA => 74

/-- The array `instruction_name[]` of `instruction.h`, entry by entry. -/
def instruction_name_array : List String := [
  "ADC", "AHX", "ALR", "ANC",
  "AND", "ARR", "ASL", "AXS",
  "BCC", "BCS", "BEQ", "BIT",
  "BMI", "BNE", "BPL", "BRK",
  "BVC", "BVS", "CLC", "CLD",
  "CLI", "CLV", "CMP", "CPX",
  "CPY", "DCP", "DEC", "DEX",
  "DEY", "EOR", "INC", "INX",
  "INY", "ISC", "JMP", "JSR",
  "LAS", "LAX", "LDA", "LDX",
  "LDY", "LSR", "NOP", "ORA",
  "PHA", "PHP", "PLA", "PLP",
  "RLA", "ROL", "ROR", "RRA",
  "RTI", "RTS", "SAX", "SBC",
  "SEC", "SED", "SEI", "SHX",
  "SHY", "SLO", "SRE", "STA",
  "STP", "STX", "STY", "TAS",
  "TAX", "TAY", "TSX", "TXA",
  "TXS", "TYA", "XAA"]

/-- The array `instruction_action[]` of `instruction.h`, entry by entry. -/
def instruction_action_array : List (CPU → Address → CPU) := [
  cpu_adc, cpu_ahx, cpu_alr, cpu_anc,
  cpu_and, cpu_arr, cpu_asl, cpu_axs,
  cpu_bcc, cpu_bcs, cpu_beq, cpu_bit,
  cpu_bmi, cpu_bne, cpu_bpl, cpu_brk,
  cpu_bvc, cpu_bvs, cpu_clc, cpu_cld,
  cpu_cli, cpu_clv, cpu_cmp, cpu_cpx,
  cpu_cpy, cpu_dcp, cpu_dec, cpu_dex,
  cpu_dey, cpu_eor, cpu_inc, cpu_inx,
  cpu_iny, cpu_isc, cpu_jmp, cpu_jsr,
  cpu_las, cpu_lax, cpu_lda, cpu_ldx,
  cpu_ldy, cpu_lsr, cpu_nop, cpu_ora,
  cpu_pha, cpu_php, cpu_pla, cpu_plp,
  cpu_rla, cpu_rol, cpu_ror, cpu_rra,
  cpu_rti, cpu_rts, cpu_sax, cpu_sbc,
  cpu_sec, cpu_sed, cpu_sei, cpu_shx,
  cpu_shy, cpu_slo, cpu_sre, cpu_sta,
  cpu_stp, cpu_stx, cpu_sty, cpu_tas,
  cpu_tax, cpu_tay, cpu_tsx, cpu_txa,
  cpu_txs, cpu_tya, cpu_xaa]

/-- Whether the handler of an instruction is defined under the heading
"Unoffical instructions" of `cpu.c` (the undocumented opcodes) rather than
under "Official instructions". -/
def Instruction.unofficial : Instruction → Bool
  | .INSTR_AHX => true
  | .INSTR_ALR => true
  | .INSTR_ANC => true
  | .INSTR_ARR => true
  | .INSTR_AXS => true
  | .INSTR_DCP => true
  | .INSTR_ISC => true
  | .INSTR_LAS => true
  | .INSTR_LAX => true
  | .INSTR_RLA => true
  | .INSTR_RRA => true
  | .INSTR_SAX => true
  | .INSTR_SHX => true
  | .INSTR_SHY => true
  | .INSTR_SLO => true
  | .INSTR_SRE => true
  | .INSTR_STP => true
  | .INSTR_TAS => true
  | .INSTR_XAA => true
  | _ => false

/-! ## The specification reading of operand widths and PC assignment -/

/-- The number of operand bytes of an addressing mode, as the specification
lists them: none for Implied and Accumulator, two for Absolute, AbsoluteX,
AbsoluteY and Indirect, one for the other modes. -/
def spec_operand_width : AdressingMode → Nat
  | .ADDR_IMPLIED => 0
  | .ADDR_ACCUMULATOR => 0
  | .ADDR_IMMEDIATE => 1
  | .ADDR_ZERO_PAGE => 1
  | .ADDR_ABSOLUTE => 2
  | .ADDR_RELATIVE => 1
  | .ADDR_ZERO_PAGE_X => 1
  | .ADDR_ZERO_PAGE_Y => 1
  | .ADDR_ABSOLUTE_X => 2
  | .ADDR_ABSOLUTE_Y => 2
  | .ADDR_INDIRECT => 2
  | .ADDR_INDIRECT_INDEXED => 1
  | .ADDR_INDEXED_INDIRECT => 1

/-- Whether the handler of an instruction assigns PC when run with the given
status byte, as the specification lists it: a taken branch, JMP, JSR, RTS,
RTI or BRK. -/
def spec_assigns_pc (i : Instruction) (status : Nat) : Bool :=
  match i with
  | .INSTR_BCC => bit_get status 0 == 0
  | .INSTR_BCS => bit_get status 0 == 1
  | .INSTR_BEQ => bit_get status 1 == 1
  | .INSTR_BNE => bit_get status 1 == 0
  | .INSTR_BMI => bit_get status 7 == 1
  | .INSTR_BPL => bit_get status 7 == 0
  | .INSTR_BVC => bit_get status 6 == 0
  | .INSTR_BVS => bit_get status 6 == 1
  | .INSTR_JMP => true
  | .INSTR_JSR => true
  | .INSTR_RTS => true
  | .INSTR_RTI => true
  | .INSTR_BRK => true
  | _ => false

/-- An opcode table that decodes every opcode as an `LDA` with AbsoluteX
addressing of four cycles. -/
def table_lda_absx : OpcodeTable :=
  { opcode_instruction := fun _ => .INSTR_LDA,
    opcode_addressing_mode := fun _ => .ADDR_ABSOLUTE_X,
    opcode_cycles := fun _ => 4 }

/-! ## Trace formatter -/

/-- One upper-case hexadecimal digit. -/
def hex_digit (d : Nat) : Char :=
  if d % 16 < 10 then Char.ofNat (48 + d % 16) else Char.ofNat (55 + d % 16)

/-- The conversion `%02X` of a `byte` argument: two hexadecimal digits. -/
def fmt_02X (n : Nat) : List Char := [hex_digit (n / 16), hex_digit n]

/-- The conversion `%04X` of a `uint16_t` argument: four hexadecimal
digits. -/
def fmt_04X (n : Nat) : List Char :=
  [hex_digit (n / 4096), hex_digit (n / 256), hex_digit (n / 16), hex_digit n]

/-- The conversion `%d` of an `int`. -/
def fmt_d (v : Int) : List Char :=
  if v < 0 then '-' :: Nat.toDigits 10 v.natAbs else Nat.toDigits 10 v.toNat

/-- The conversion `%3d` of an `int`: `%d` right-aligned in a field of at
least three characters. -/
def fmt_3d (v : Int) : List Char :=
  List.replicate (3 - (fmt_d v).length) ' ' ++ fmt_d v

/-- The conversion `%*c` with field width `w` and character `c`; a negative
width asks for left alignment in a field of `-w` characters. -/
def fmt_star_c (w : Int) (c : Char) : List Char :=
  if w < 0 then c :: List.replicate (w.natAbs - 1) ' '
  else List.replicate (w.toNat - 1) ' ' ++ [c]

def debug_addr_implied (_cpu : CPU) (instruction : Instruction) : List Char :=
  let name := instruction_name instruction
  "       ".toList ++ name.toList

def debug_addr_accumulator (_cpu : CPU) (instruction : Instruction) : List Char :=
  let name := instruction_name instruction
  "       ".toList ++ name.toList ++ " A".toList

def debug_addr_immediate (cpu : CPU) (instruction : Instruction) : List Char :=
  let name := instruction_name instruction
  let val := memory_read cpu.mem (cpu.pc + 1)
  fmt_02X val ++ "     ".toList ++ name.toList ++ " #$".toList ++ fmt_02X val

def debug_addr_zero_page (cpu : CPU) (instruction : Instruction) : List Char :=
  let name := instruction_name instruction
  let addr := memory_read cpu.mem (cpu.pc + 1)
  let val := memory_read cpu.mem addr
  fmt_02X addr ++ "     ".toList ++ name.toList ++ " $".toList ++ fmt_02X addr ++ " = ".toList ++
    fmt_02X val

def debug_addr_absolute (cpu : CPU) (instruction : Instruction) : List Char :=
  let name := instruction_name instruction
  let addr_low := memory_read cpu.mem (cpu.pc + 1)
  let addr_high := memory_read cpu.mem (cpu.pc + 2)
  let addr := (addr_high <<< 8 ||| addr_low) % 65536
  if instruction = .INSTR_JMP ∨ instruction = .INSTR_JSR then
    fmt_02X addr_low ++ " ".toList ++ fmt_02X addr_high ++ "  ".toList ++ name.toList ++
      " $".toList ++ fmt_04X addr
  else
    let val := memory_read cpu.mem addr
    fmt_02X addr_low ++ " ".toList ++ fmt_02X addr_high ++ "  ".toList ++ name.toList ++
      " $".toList ++ fmt_04X addr ++ " = ".toList ++ fmt_02X val

def debug_addr_relative (cpu : CPU) (instruction : Instruction) : List Char :=
  let name := instruction_name instruction
  let offset := memory_read cpu.mem (cpu.pc + 1)
  let addr := (cpu.pc + 2 + offset) % 65536
  fmt_02X offset ++ "     ".toList ++ name.toList ++ " $".toList ++ fmt_04X addr

def debug_addr_zero_page_x (cpu : CPU) (instruction : Instruction) : List Char :=
  let name := instruction_name instruction
  let offset := memory_read cpu.mem (cpu.pc + 1)
  let addr := (offset + cpu.x) % 256
  let val := memory_read cpu.mem addr
  fmt_02X offset ++ "     ".toList ++ name.toList ++ " $".toList ++ fmt_02X offset ++
    ",X @ ".toList ++ fmt_02X addr ++ " = ".toList ++ fmt_02X val

def debug_addr_zero_page_y (cpu : CPU) (instruction : Instruction) : List Char :=
  let name := instruction_name instruction
  let offset := memory_read cpu.mem (cpu.pc + 1)
  let addr := (offset + cpu.y) % 256
  let val := memory_read cpu.mem addr
  fmt_02X offset ++ "     ".toList ++ name.toList ++ " $".toList ++ fmt_02X offset ++
    ",Y @ ".toList ++ fmt_02X addr ++ " = ".toList ++ fmt_02X val

def debug_addr_absolute_x (cpu : CPU) (instruction : Instruction) : List Char :=
  let name := instruction_name instruction
  let offset_low := memory_read cpu.mem (cpu.pc + 1)
  let offset_high := memory_read cpu.mem (cpu.pc + 2)
  let offset := (offset_high <<< 8 ||| offset_low) % 65536
  let addr := (offset + cpu.x) % 65536
  let val := memory_read cpu.mem addr
  fmt_02X offset_low ++ " ".toList ++ fmt_02X offset_high ++ "  ".toList ++ name.toList ++
    " $".toList ++ fmt_04X offset ++ ",X @ ".toList ++ fmt_04X addr ++ " = ".toList ++ fmt_02X val

def debug_addr_absolute_y (cpu : CPU) (instruction : Instruction) : List Char :=
  let name := instruction_name instruction
  let offset_low := memory_read cpu.mem (cpu.pc + 1)
  let offset_high := memory_read cpu.mem (cpu.pc + 2)
  let offset := (offset_high <<< 8 ||| offset_low) % 65536
  let addr := (offset + cpu.y) % 65536
  let val := memory_read cpu.mem addr
  fmt_02X offset_low ++ " ".toList ++ fmt_02X offset_high ++ "  ".toList ++ name.toList ++
    " $".toList ++ fmt_04X offset ++ ",Y @ ".toList ++ fmt_04X addr ++ " = ".toList ++ fmt_02X val

def debug_addr_indirect (cpu : CPU) (instruction : Instruction) : List Char :=
  let name := instruction_name instruction
  let addr_addr_low := memory_read cpu.mem (cpu.pc + 1)
  let addr_addr_high := memory_read cpu.mem (cpu.pc + 2)
  let addr_addr := (addr_addr_high <<< 8 ||| addr_addr_low) % 65536
  let addr := memory_read16 cpu.mem addr_addr
  fmt_02X addr_addr_low ++ " ".toList ++ fmt_02X addr_addr_high ++ "  ".toList ++ name.toList ++
    " ($".toList ++ fmt_04X addr_addr ++ ") = ".toList ++ fmt_04X addr

def debug_addr_indirect_indexed (cpu : CPU) (instruction : Instruction) : List Char :=
  let name := instruction_name instruction
  let addr_addr := memory_read cpu.mem (cpu.pc + 1)
  let offset := memory_zero_page_read16 cpu.mem addr_addr
  let addr := (offset + cpu.y) % 65536
  let val := memory_read cpu.mem addr
  fmt_02X addr_addr ++ "     ".toList ++ name.toList ++ " ($".toList ++ fmt_02X addr_addr ++
    "),Y = ".toList ++ fmt_04X offset ++ " @ ".toList ++ fmt_04X addr ++ " = ".toList ++
    fmt_02X val

def debug_addr_indexed_indirect (cpu : CPU) (instruction : Instruction) : List Char :=
  let name := instruction_name instruction
  let offset := memory_read cpu.mem (cpu.pc + 1)
  let addr_addr := (offset + cpu.x) % 256
  let addr := memory_zero_page_read16 cpu.mem addr_addr
  let val := memory_read cpu.mem addr
  fmt_02X offset ++ "     ".toList ++ name.toList ++ " ($".toList ++ fmt_02X offset ++
    ",X) @ ".toList ++ fmt_02X addr_addr ++ " = ".toList ++ fmt_04X addr ++ " = ".toList ++
    fmt_02X val

/-- The table `addr_mode_debug` of `cpu_debug_instr`: the template of each
addressing mode. -/
def addr_mode_debug : AdressingMode → CPU → Instruction → List Char
  | .ADDR_IMPLIED => debug_addr_implied
  | .ADDR_ACCUMULATOR => debug_addr_accumulator
  | .ADDR_IMMEDIATE => debug_addr_immediate
  | .ADDR_ZERO_PAGE => debug_addr_zero_page
  | .ADDR_ABSOLUTE => debug_addr_absolute
  | .ADDR_RELATIVE => debug_addr_relative
  | .ADDR_ZERO_PAGE_X => debug_addr_zero_page_x
  | .ADDR_ZERO_PAGE_Y => debug_addr_zero_page_y
  | .ADDR_ABSOLUTE_X => debug_addr_absolute_x
  | .ADDR_ABSOLUTE_Y => debug_addr_absolute_y
  | .ADDR_INDIRECT => debug_addr_indirect
  | .ADDR_INDIRECT_INDEXED => debug_addr_indirect_indexed
  | .ADDR_INDEXED_INDIRECT => debug_addr_indexed_indirect

/-- The function `cpu_debug_instr`: the text left in `buffer`. The head and
the template are written one after the other, `i` counting their characters;
`%*c` writes its field at offset `i`; the register dump is then written at
offset 48, over whatever stood there. The product `clock * 3` is an `int`
product, kept by `to_int32`. -/
def cpu_debug_instr (t : OpcodeTable) (cpu : CPU) : List Char :=
  let head := fmt_04X cpu.pc ++ "  ".toList ++ fmt_02X (memory_read cpu.mem cpu.pc) ++ " ".toList
  let opcode := memory_read cpu.mem cpu.pc
  let instruction := t.opcode_instruction opcode
  let adressing_mode := t.opcode_addressing_mode opcode
  let body := addr_mode_debug adressing_mode cpu instruction
  let i : Int := (head.length : Int) + (body.length : Int)
  let pad := fmt_star_c (i - 48) ' '
  let ppu_cycle : Int := Int.tmod (to_int32 (cpu.clock * 3)) 341
  (head ++ body ++ pad).take 48 ++
    ("A:".toList ++ fmt_02X cpu.a ++ " X:".toList ++ fmt_02X cpu.x ++ " Y:".toList ++
      fmt_02X cpu.y ++ " P:".toList ++ fmt_02X cpu.status ++ " SP:".toList ++ fmt_02X cpu.sp ++
      " CYC:".toList ++ fmt_3d ppu_cycle)

/-! ## Reading the reference log -/

/-- What one call `fgets(test, n + 1, fp)` of the C library reads from what is
left of the file `fp`: at most `n` characters, stopping after a newline or at
the end of the file. The result is the characters stored in `test` and what
is left of the file after the call. -/
def fgets_read : Nat → List Char → List Char × List Char
  | 0, fp => ([], fp)
  | _ + 1, [] => ([], [])
  | n + 1, c :: fp =>
    if c = '\n' then ([c], fp)
    else (c :: (fgets_read n fp).1, (fgets_read n fp).2)

/-- The call `fgets(test, size, fp)`: `none` is the `NULL` returned at the end
of the file, when no character is left. -/
def fgets (size : Nat) (fp : List Char) : Option (List Char × List Char) :=
  match fp with
  | [] => none
  | _ :: _ => some (fgets_read (size - 1) fp)

/-- The results of the successive calls `fgets(test, ARRAY_LENGTH(test), fp)`
of the loop of `cpu_debug_test`, `test` being an array of
`CPU_DEBUG_LENGTH + 1` = 83 characters, until the call that returns `NULL`.
`fuel` bounds the number of calls. -/
def fgets_pieces_fuel : Nat → List Char → List (List Char)
  | 0, _ => []
  | fuel + 1, fp =>
    match fgets 83 fp with
    | none => []
    | some (test, rest) => test :: fgets_pieces_fuel fuel rest

/-- The list `cpu_debug_test_loop` works on for a reference log of content
`fp`. Every call of `fgets` before the last takes at least one character, so
the length of the file is fuel enough (`fgets_pieces_all`). -/
def fgets_pieces (fp : List Char) : List (List Char) := fgets_pieces_fuel fp.length fp

/-! ## Verification harness -/

/-- The function `cpu_debug_reset`, with the text it prints. The function
`memory_reset` of the memory bus is not part of the sources at hand and is a
parameter. -/
def cpu_debug_reset (memory_reset : Memory → Memory) (cpu : CPU) : CPU × List String :=
  let cpu := cpu_reset cpu
  let cpu := { cpu with mem := memory_reset cpu.mem }
  (cpu, ["Reset to initial state\n"])

/-- The local variables of `cpu_debug_test` that its loop changes, with the
CPU and the text printed so far. -/
structure TestState where
  cpu : CPU
  tolerance : Int
  lineno : Int
  out : List String

/-- The `while` loop of `cpu_debug_test`. The argument is what the successive
calls of `fgets` on the reference log return before the end of the file, the
list `fgets_pieces` of the content of the file: a line of more than 81
characters arrives in several pieces, one pass of the loop each. No line is
read once the tolerance is zero. -/
def cpu_debug_test_loop (t : OpcodeTable) : List (List Char) → TestState → TestState
  | [], st => st
  | test :: rest, st =>
    if st.tolerance = 0 then st
    else
      let debug := cpu_debug_instr t st.cpu
      let st :=
        if debug.take 81 ≠ test.take 81 then
          let st := { st with out := st.out ++
            ["Test Failed (line " ++ toString st.lineno ++ "):\nExpected: " ++ String.mk test ++
              "Obtained: " ++ String.mk debug ++ "\n"] }
          let st := { st with tolerance := st.tolerance - 1 }
          if st.tolerance ≠ 0 then { st with out := st.out ++ ["\n"] } else st
        else st
      let st := { st with cpu := cpu_next_instr t st.cpu }
      let st := { st with lineno := st.lineno + 1 }
      cpu_debug_test_loop t rest st

/-- The function `cpu_debug_test`, with the text it prints. `parsed` is the
number `strtol` reads from the command argument, if any; `file` is the
reference log as the pieces `fgets` returns (`fgets_pieces` of its content),
or the error text of a failed `fopen`. -/
def cpu_debug_test (t : OpcodeTable) (memory_reset : Memory → Memory) (parsed : Option Int)
    (file : Except String (List (List Char))) (cpu : CPU) : CPU × List String :=
  let tolerance : Int := match parsed with
    | some n => n
    | none => 1
  match file with
  | .error e => (cpu, ["Failed to load test: " ++ e ++ "\n"])
  | .ok lines =>
    let (cpu, out) := cpu_debug_reset memory_reset cpu
    let out := out ++ ["\n"]
    let cpu := cpu.set_b 0
    let st := cpu_debug_test_loop t lines
      { cpu := cpu, tolerance := tolerance, lineno := 1, out := out }
    let out := st.out ++ ["\n"]
    let (cpu, out_reset) := cpu_debug_reset memory_reset st.cpu
    (cpu, out ++ out_reset)

/-! ## The specification reading of the harness loop -/

/-- For each line of the reference log, whether it differs (in its first 81
characters) from the trace of the state reached by executing one instruction
per earlier line. -/
def spec_mismatches (t : OpcodeTable) : CPU → List (List Char) → List Bool
  | _, [] => []
  | cpu, test :: rest =>
    decide ((cpu_debug_instr t cpu).take 81 ≠ test.take 81) ::
      spec_mismatches t (cpu_next_instr t cpu) rest

/-- The 1-based positions of the mismatching lines. -/
def spec_mismatch_positions : List Bool → List Nat
  | [] => []
  | b :: bs => (if b then [1] else []) ++ (spec_mismatch_positions bs).map (fun k => k + 1)

/-- The number of instructions the specification lets the harness execute
with tolerance `T`: the position of the `T`-th mismatching line if there are
that many, the number of lines otherwise. -/
def spec_executed (T : Nat) (flags : List Bool) : Nat :=
  match (spec_mismatch_positions flags)[T - 1]? with
  | some k => k
  | none => flags.length

/-- An opcode table that decodes every opcode as an implied `NOP` of two
cycles. -/
def table_nop : OpcodeTable :=
  { opcode_instruction := fun _ => .INSTR_NOP,
    opcode_addressing_mode := fun _ => .ADDR_IMPLIED,
    opcode_cycles := fun _ => 2 }

/-- A memory that holds `0xEA` in every cell. -/
def mem_nop : Memory := fun _ => 0xEA

/-- The trace line of a freshly created CPU over `mem_nop` decoded with
`table_nop`, once the harness has cleared the B bit, followed by the newline
`fgets` keeps. -/
def line_nop_first : List Char :=
  "C000  EA        NOP                             A:00 X:00 Y:00 P:24 SP:FD CYC:  0\n".toList

/-! ## The two status bits without hardware -/

/-- Bits 4 and 5 of a status byte, the bits `CPU_STATUS_MASK` covers. -/
def mask_bits (s : Nat) : Nat × Nat := (bit_get s 4, bit_get s 5)

/-! ## The effective address inside the trace templates -/

/-- The effective address a template of the trace formatter computes before
printing it: the local `addr` of `debug_addr_zero_page`, `debug_addr_absolute`,
`debug_addr_relative`, `debug_addr_zero_page_x`, `debug_addr_zero_page_y`,
`debug_addr_absolute_x`, `debug_addr_absolute_y`, `debug_addr_indirect`,
`debug_addr_indirect_indexed` and `debug_addr_indexed_indirect`. The other
three templates compute none. -/
def debug_effective_addr (mode : AdressingMode) (cpu : CPU) : Option Nat :=
  match mode with
  | .ADDR_IMPLIED => none
  | .ADDR_ACCUMULATOR => none
  | .ADDR_IMMEDIATE => none
  | .ADDR_ZERO_PAGE => some (memory_read cpu.mem (cpu.pc + 1))
  | .ADDR_ABSOLUTE =>
    let addr_low := memory_read cpu.mem (cpu.pc + 1)
    let addr_high := memory_read cpu.mem (cpu.pc + 2)
    some ((addr_high <<< 8 ||| addr_low) % 65536)
  | .ADDR_RELATIVE =>
    let offset := memory_read cpu.mem (cpu.pc + 1)
    some ((cpu.pc + 2 + offset) % 65536)
  | .ADDR_ZERO_PAGE_X =>
    let offset := memory_read cpu.mem (cpu.pc + 1)
    some ((offset + cpu.x) % 256)
  | .ADDR_ZERO_PAGE_Y =>
    let offset := memory_read cpu.mem (cpu.pc + 1)
    some ((offset + cpu.y) % 256)
  | .ADDR_ABSOLUTE_X =>
    let offset_low := memory_read cpu.mem (cpu.pc + 1)
    let offset_high := memory_read cpu.mem (cpu.pc + 2)
    let offset := (offset_high <<< 8 ||| offset_low) % 65536
    some ((offset + cpu.x) % 65536)
  | .ADDR_ABSOLUTE_Y =>
    let offset_low := memory_read cpu.mem (cpu.pc + 1)
    let offset_high := memory_read cpu.mem (cpu.pc + 2)
    let offset := (offset_high <<< 8 ||| offset_low) % 65536
    some ((offset + cpu.y) % 65536)
  | .ADDR_INDIRECT =>
    let addr_addr_low := memory_read cpu.mem (cpu.pc + 1)
    let addr_addr_high := memory_read cpu.mem (cpu.pc + 2)
    let addr_addr := (addr_addr_high <<< 8 ||| addr_addr_low) % 65536
    some (memory_read16 cpu.mem addr_addr)
  | .ADDR_INDIRECT_INDEXED =>
    let addr_addr := memory_read cpu.mem (cpu.pc + 1)
    let offset := memory_zero_page_read16 cpu.mem addr_addr
    some ((offset + cpu.y) % 65536)
  | .ADDR_INDEXED_INDIRECT =>
    let offset := memory_read cpu.mem (cpu.pc + 1)
    let addr_addr := (offset + cpu.x) % 256
    some (memory_zero_page_read16 cpu.mem addr_addr)

/-- A state whose clock is large enough for `clock * 3` to leave the range of a
32-bit `int`: the state `cpu_mid_stack` after 715827884 cycles. -/
def cpu_clock_overflow : CPU := { cpu_mid_stack with clock := 715827884 }

/-- A concrete CPU whose stack pointer is zero and whose accumulator holds
`0x42`, over a memory of zero cells. -/
def cpu_sp_zero_a42 : CPU :=
  { mem := fun _ => 0, clock := 0, last_addr := 0, pc := 0xC000, sp := 0x00, a := 0x42,
    x := 0, y := 0, status := 0x34, stdout := [] }

/-- A concrete memory whose cell 0x0200 holds `0x3C` and whose cell 0x0201
holds its complement `0xC3`; every other cell holds `0xC3` too. -/
def mem_complement : Memory := fun a => if a = 0x0200 then 0x3C else 0xC3

/-- A concrete CPU over `mem_complement`. -/
def cpu_complement : CPU :=
  { mem := mem_complement, clock := 0, last_addr := 0, pc := 0x8000, sp := 0xFD, a := 0x50,
    x := 0, y := 0, status := 0x35, stdout := [] }

/-! ## The clock at the top of the range of `int` -/

/-- The state `cpu_sample` with its clock at `INT_MAX`. -/
def cpu_clock_max : CPU := { cpu_sample with clock := 2147483647 }

/-! ## The specification reading of the reference log -/

/-- The content of a reference log that consists of the given lines, each
ended by a newline. -/
def spec_log_file : List (List Char) → List Char
  | [] => []
  | line :: rest => line ++ '\n' :: spec_log_file rest

/-- A line in the format of the usual reference log of the test ROM: the
81 characters of `line_nop_first` followed by a scanline column, 88
characters in all. -/
def line_nop_long : List Char :=
  "C000  EA        NOP                             A:00 X:00 Y:00 P:24 SP:FD CYC:  0 SL:241".toList

/-! # Theorems -/

/-! ## Bit-level facts -/

theorem bit7_xor (x y : Nat) : (x ^^^ y) >>> 7 &&& 1 = (x / 128 + y / 128) % 2 := by
  rw [Nat.and_one_is_mod, Nat.shiftRight_eq_div_pow]
  have h := Nat.testBit_xor x y 7
  simp only [Nat.testBit_to_div_mod] at h
  norm_num at h ⊢
  by_cases h1 : x / 128 % 2 = 1 <;> by_cases h2 : y / 128 % 2 = 1 <;> simp [h1, h2] at h <;> omega

theorem bit_get_xor_7 (x y : Nat) : bit_get (x ^^^ y) 7 = (x / 128 + y / 128) % 2 := by
  have h := bit7_xor x y
  rw [Nat.and_one_is_mod, Nat.shiftRight_eq_div_pow] at h
  simpa [bit_get] using h

theorem bit_get_bit_set (s k j v : Nat) (hk : k < 8) (hj : j < 8) :
    bit_get (bit_set s k v) j = if j = k then v % 2 else bit_get s j := by
  interval_cases k <;> interval_cases j <;> simp [bit_get, bit_set] <;> omega

theorem bit_set_lt (s k v : Nat) (hs : s < 256) (hk : k < 8) : bit_set s k v < 256 := by
  interval_cases k <;> simp [bit_set] <;> omega

theorem b2n_mod (b : Bool) : b2n b % 2 = b2n b := by
  cases b <;> rfl

theorem b2n_eq_one (b : Bool) : b2n b = 1 ↔ b = true := by
  cases b <;> simp [b2n]

theorem bit_get_eq_testBit (x k : Nat) : bit_get x k = if x.testBit k then 1 else 0 := by
  unfold bit_get
  rw [Nat.testBit_to_div_mod]
  have h := Nat.mod_two_eq_zero_or_one (x / 2 ^ k)
  rcases h with h | h <;> simp [h]

theorem testBit_status_mask : ∀ k, k < 8 → Nat.testBit 0x30 k = decide (k = 4 ∨ k = 5) := by
  decide

theorem testBit_flags_mask : ∀ k, k < 8 → Nat.testBit 0xCF k = !decide (k = 4 ∨ k = 5) := by
  decide

theorem bit_get_or_mask (s k : Nat) (hk : k < 8) :
    bit_get (s ||| CPU_STATUS_MASK) k = if k = 4 ∨ k = 5 then 1 else bit_get s k := by
  simp only [bit_get_eq_testBit, Nat.testBit_or, CPU_STATUS_MASK, testBit_status_mask k hk]
  by_cases h : k = 4 ∨ k = 5 <;> simp [h]

theorem and_int_not_mask (p : Nat) (hp : p < 256) :
    p &&& int_not CPU_STATUS_MASK = p &&& 0xCF := by
  have hp8 : p &&& 255 = p := Nat.and_pow_two_sub_one_of_lt_two_pow (n := 8) hp
  calc p &&& int_not CPU_STATUS_MASK
      = (p &&& 255) &&& int_not CPU_STATUS_MASK := by rw [hp8]
    _ = p &&& (255 &&& int_not CPU_STATUS_MASK) := Nat.and_assoc _ _ _
    _ = p &&& 0xCF := by rfl

theorem bit_get_plp (s p k : Nat) (hk : k < 8) :
    bit_get ((s &&& CPU_STATUS_MASK) ||| (p &&& 0xCF)) k =
      if k = 4 ∨ k = 5 then bit_get s k else bit_get p k := by
  simp only [bit_get_eq_testBit, Nat.testBit_or, Nat.testBit_and, CPU_STATUS_MASK,
    testBit_status_mask k hk, testBit_flags_mask k hk]
  by_cases h : k = 4 ∨ k = 5 <;> simp [h]

theorem plp_status_lt (s p : Nat) (hs : s < 256) (hp : p < 256) :
    (s &&& CPU_STATUS_MASK) ||| (p &&& 0xCF) < 256 := by
  have h1 : s &&& CPU_STATUS_MASK < 2 ^ 8 := lt_of_le_of_lt Nat.and_le_left hs
  have h2 : p &&& 0xCF < 2 ^ 8 := lt_of_le_of_lt Nat.and_le_left hp
  exact Nat.or_lt_two_pow h1 h2

theorem memory_read_lt (mem : Memory) (addr : Nat) : memory_read mem addr < 256 :=
  Nat.mod_lt _ (by decide)

theorem memory_read_write_same (mem : Memory) (addr val : Nat) :
    memory_read (memory_write mem addr val) addr = val % 256 := by
  simp [memory_read, memory_write]

theorem memory_read_write_other (mem : Memory) (addr val other : Nat)
    (h : other % 65536 ≠ addr % 65536) :
    memory_read (memory_write mem addr val) other = memory_read mem other := by
  simp [memory_read, memory_write, h]

/-! ## Reset -/

/-- C1: for every CPU state, `cpu_reset` yields PC = 0xC000, SP = 0xFD,
A = X = Y = 0 and a status byte of exactly 0x34 (I = 1, bits 4 and 5 set,
C = Z = D = V = N = 0), and leaves memory (and the clock) as it was. -/
theorem cpu_reset_power_on (cpu : CPU) :
    (cpu_reset cpu).pc = 0xC000 ∧ (cpu_reset cpu).sp = 0xFD ∧ (cpu_reset cpu).a = 0 ∧
    (cpu_reset cpu).x = 0 ∧ (cpu_reset cpu).y = 0 ∧ (cpu_reset cpu).status = 0x34 ∧
    (cpu_reset cpu).i = 1 ∧ (cpu_reset cpu).b = 1 ∧ (cpu_reset cpu).e = 1 ∧
    (cpu_reset cpu).c = 0 ∧ (cpu_reset cpu).z = 0 ∧ (cpu_reset cpu).d = 0 ∧
    (cpu_reset cpu).v = 0 ∧ (cpu_reset cpu).n = 0 ∧ (cpu_reset cpu).mem = cpu.mem ∧
    (cpu_reset cpu).clock = cpu.clock := by
  simp [cpu_reset, CPU.set_i, CPU.i, CPU.b, CPU.e, CPU.c, CPU.z, CPU.d, CPU.v, CPU.n, bit_set,
    bit_get, CPU_STATUS_MASK]

/-! ## Arithmetic -/

/-- C2: for every accumulator value, operand byte and carry-in, `cpu_adc`
leaves A = (A + M + c) mod 256, C = 1 iff A + M + c > 0xFF, V = 1 iff bit 7
of (A xor M) is 0 and bit 7 of (new A xor A) is 1, Z = 1 iff new A = 0 and
N = bit 7 of new A; the three worked sums of the specification follow. -/
theorem cpu_adc_spec (cpu : CPU) (addr : Address) (h : cpu.wf) :
    (cpu_adc cpu addr).a = (cpu.a + memory_read cpu.mem addr.val + cpu.c) % 256 ∧
    ((cpu_adc cpu addr).c = 1 ↔ cpu.a + memory_read cpu.mem addr.val + cpu.c > 0xFF) ∧
    ((cpu_adc cpu addr).v = 1 ↔
      bit_get (cpu.a ^^^ memory_read cpu.mem addr.val) 7 = 0 ∧
      bit_get ((cpu_adc cpu addr).a ^^^ cpu.a) 7 = 1) ∧
    ((cpu_adc cpu addr).z = 1 ↔ (cpu_adc cpu addr).a = 0) ∧
    (cpu_adc cpu addr).n = bit_get (cpu_adc cpu addr).a 7 ∧
    (cpu.a = 0x50 → memory_read cpu.mem addr.val = 0x10 → cpu.c = 0 →
      (cpu_adc cpu addr).a = 0x60 ∧ (cpu_adc cpu addr).c = 0 ∧ (cpu_adc cpu addr).v = 0) ∧
    (cpu.a = 0x7F → memory_read cpu.mem addr.val = 0x01 → cpu.c = 0 →
      (cpu_adc cpu addr).a = 0x80 ∧ (cpu_adc cpu addr).v = 1 ∧ (cpu_adc cpu addr).n = 1) ∧
    (cpu.a = 0xFF → memory_read cpu.mem addr.val = 0x01 → cpu.c = 0 →
      (cpu_adc cpu addr).a = 0x00 ∧ (cpu_adc cpu addr).c = 1 ∧ (cpu_adc cpu addr).z = 1) := by
  obtain ⟨-, -, ha, -, -, -⟩ := h
  have hm : memory_read cpu.mem addr.val < 256 := memory_read_lt _ _
  have hc : cpu.c < 2 := Nat.mod_lt _ (by decide)
  simp only [bit_get_xor_7]
  simp only [cpu_adc, cpu_zn, CPU.set_c, CPU.set_v, CPU.set_z, CPU.set_n, CPU.c, CPU.v, CPU.z,
    CPU.n] at hc ⊢
  simp only [bit7_xor]
  simp only [b2n, Nat.and_one_is_mod, Nat.shiftRight_eq_div_pow]
  simp [bit_get_bit_set]
  generalize memory_read cpu.mem addr.val = M at hm ⊢
  generalize cpu.a = A at ha ⊢
  generalize bit_get cpu.status 0 = C at hc ⊢
  simp only [bit_get]
  norm_num
  refine ⟨?_, ?_, ?_, ?_, ?_, ?_⟩ <;> (try intro h1 h2 h3) <;> split_ifs <;> norm_num <;> omega

theorem cpu_adc_spec_witness :
    cpu_sample.wf ∧ (cpu_adc cpu_sample addr_sample).a = 0x60 ∧
      (cpu_adc cpu_sample addr_sample).c = 0 ∧ (cpu_adc cpu_sample addr_sample).v = 0 :=
  ⟨by decide,
    (cpu_adc_spec cpu_sample addr_sample (by decide)).2.2.2.2.2.1 (by decide) (by decide)
      (by decide)⟩

/-- C3: for every accumulator value, operand byte and carry-in, `cpu_sbc`
computes r = A - M - (1 - c) as a signed integer and leaves A = r mod 256,
C = 1 iff r >= 0, V = 1 iff bit 7 of (A xor M) is 1 and bit 7 of
(new A xor A) is 1, Z = 1 iff new A = 0 and N = bit 7 of new A. -/
theorem cpu_sbc_spec (cpu : CPU) (addr : Address) (h : cpu.wf) :
    (cpu_sbc cpu addr).a =
      (((cpu.a : Int) - (memory_read cpu.mem addr.val : Int) - (1 - (cpu.c : Int))) % 256).toNat ∧
    ((cpu_sbc cpu addr).c = 1 ↔
      (cpu.a : Int) - (memory_read cpu.mem addr.val : Int) - (1 - (cpu.c : Int)) ≥ 0) ∧
    ((cpu_sbc cpu addr).v = 1 ↔
      bit_get (cpu.a ^^^ memory_read cpu.mem addr.val) 7 = 1 ∧
      bit_get ((cpu_sbc cpu addr).a ^^^ cpu.a) 7 = 1) ∧
    ((cpu_sbc cpu addr).z = 1 ↔ (cpu_sbc cpu addr).a = 0) ∧
    (cpu_sbc cpu addr).n = bit_get (cpu_sbc cpu addr).a 7 := by
  obtain ⟨-, -, ha, -, -, -⟩ := h
  have hm : memory_read cpu.mem addr.val < 256 := memory_read_lt _ _
  have hc : cpu.c < 2 := Nat.mod_lt _ (by decide)
  simp only [bit_get_xor_7]
  simp only [cpu_sbc, cpu_zn, CPU.set_c, CPU.set_v, CPU.set_z, CPU.set_n, CPU.c, CPU.v, CPU.z,
    CPU.n] at hc ⊢
  simp only [bit7_xor]
  simp only [b2n, Nat.and_one_is_mod, Nat.shiftRight_eq_div_pow, to_int16, int_bits]
  simp [bit_get_bit_set]
  generalize memory_read cpu.mem addr.val = M at hm ⊢
  generalize cpu.a = A at ha ⊢
  generalize bit_get cpu.status 0 = C at hc ⊢
  simp only [bit_get]
  norm_num
  have hr : ((A : Int) - (M : Int) - (1 - (C : Int)) + 32768) % 65536 - 32768
      = (A : Int) - (M : Int) - (1 - (C : Int)) := by omega
  simp only [hr]
  refine ⟨trivial, ?_, ?_, ?_, ?_⟩ <;> (try split_ifs) <;> (try norm_num) <;> omega

theorem cpu_sbc_spec_witness :
    cpu_sample.wf ∧ (cpu_sbc cpu_sample addr_sample).a = 0x3F ∧
      (cpu_sbc cpu_sample addr_sample).c = 1 :=
  ⟨by decide,
    (cpu_sbc_spec cpu_sample addr_sample (by decide)).1.trans (by decide),
    (cpu_sbc_spec cpu_sample addr_sample (by decide)).2.1.mpr (by decide)⟩

/-! ## Stack -/

/-- The stack pointer after `cpu_push16` is the original one minus 2 modulo
256, and after the following `cpu_pull16` it is the original one again. -/
theorem cpu_push16_pull16_sp (cpu : CPU) (v : Nat) (h : cpu.wf) :
    (cpu_push16 cpu v).sp = (cpu.sp + 254) % 256 ∧
    (cpu_pull16 (cpu_push16 cpu v)).2.sp = cpu.sp := by
  obtain ⟨-, hsp, -, -, -, -⟩ := h
  simp only [cpu_push16, cpu_pull16]
  omega

/-- Away from the bottom of the stack page (SP at least 2) a pushed 16-bit
value is pulled back unchanged. -/
theorem cpu_push16_pull16_value (cpu : CPU) (v : Nat) (h : cpu.wf) (hv : v < 65536)
    (hsp : 2 ≤ cpu.sp) : (cpu_pull16 (cpu_push16 cpu v)).1 = v := by
  obtain ⟨-, hsp', -, -, -, -⟩ := h
  have e1 : (cpu.sp + 256 - 2) % 256 = cpu.sp - 2 := by omega
  have e2 : STACK_MIN + (cpu.sp - 2) + 1 = STACK_MIN + cpu.sp - 1 := by
    simp only [STACK_MIN]; omega
  have e3 : (STACK_MIN + cpu.sp - 1) % 65536 = STACK_MIN + cpu.sp - 1 := by
    simp only [STACK_MIN]; omega
  simp only [cpu_push16, cpu_pull16, e1, e2, memory_read16, memory_write16, e3]
  rw [memory_read_write_same, memory_read_write_other, memory_read_write_same]
  · omega
  · simp only [STACK_MIN]; omega

/-- C4, at the failing input SP = 0x00: `cpu_push16` stores the value
0x1234 at 0x00FF and 0x0100, leaves SP = 0xFE, and the `cpu_pull16` that
follows reads 0x01FF and 0x0200 and returns 0x0000, not 0x1234, although SP
is back at 0x00; so the round trip does not hold for every stack pointer. -/
theorem cpu_push16_pull16_sp_zero :
    cpu_sp_zero.wf ∧
    memory_read (cpu_push16 cpu_sp_zero 0x1234).mem 0x00FF = 0x34 ∧
    memory_read (cpu_push16 cpu_sp_zero 0x1234).mem 0x0100 = 0x12 ∧
    (cpu_push16 cpu_sp_zero 0x1234).sp = 0xFE ∧
    (cpu_pull16 (cpu_push16 cpu_sp_zero 0x1234)).1 = 0x0000 ∧
    (cpu_pull16 (cpu_push16 cpu_sp_zero 0x1234)).2.sp = 0x00 ∧
    ¬ (∀ (cpu : CPU) (v : Nat), cpu.wf → v < 65536 →
        (cpu_pull16 (cpu_push16 cpu v)).1 = v) := by
  refine ⟨by decide, by decide, by decide, by decide, by decide, by decide, ?_⟩
  intro hall
  exact absurd (hall cpu_sp_zero 0x1234 (by decide) (by decide)) (by decide)

/-- C5: for every CPU state, `cpu_php` writes the byte (status OR 0x30), the
live status with bits 4 and 5 forced to 1, to the stack cell 0x0100 + SP and
to no other cell, decrements SP by 1 modulo 256, and leaves the live status
register, A, X, Y and PC unchanged. -/
theorem cpu_php_spec (cpu : CPU) (addr : Address) (h : cpu.wf) :
    memory_read (cpu_php cpu addr).mem (0x0100 + cpu.sp) = cpu.status ||| 0x30 ∧
    (∀ k, k < 8 →
      bit_get (memory_read (cpu_php cpu addr).mem (0x0100 + cpu.sp)) k =
        if k = 4 ∨ k = 5 then 1 else bit_get cpu.status k) ∧
    (∀ other, other % 65536 ≠ 0x0100 + cpu.sp →
      memory_read (cpu_php cpu addr).mem other = memory_read cpu.mem other) ∧
    (cpu_php cpu addr).sp = (cpu.sp + 256 - 1) % 256 ∧
    (cpu_php cpu addr).status = cpu.status ∧ (cpu_php cpu addr).a = cpu.a ∧
    (cpu_php cpu addr).x = cpu.x ∧ (cpu_php cpu addr).y = cpu.y ∧
    (cpu_php cpu addr).pc = cpu.pc := by
  obtain ⟨-, hsp, -, -, -, hs⟩ := h
  have hlt : cpu.status ||| CPU_STATUS_MASK < 256 :=
    Nat.or_lt_two_pow (n := 8) hs (by decide)
  have hw : memory_read (cpu_php cpu addr).mem (0x0100 + cpu.sp) = cpu.status ||| CPU_STATUS_MASK := by
    simp only [cpu_php, cpu_push, STACK_MIN, memory_read_write_same]
    exact Nat.mod_eq_of_lt hlt
  refine ⟨hw, ?_, ?_, rfl, rfl, rfl, rfl, rfl, rfl⟩
  · intro k hk
    rw [hw]
    exact bit_get_or_mask _ _ hk
  · intro other ho
    simp only [cpu_php, cpu_push, STACK_MIN]
    apply memory_read_write_other
    omega

theorem cpu_php_spec_witness :
    cpu_sample.wf ∧
    memory_read (cpu_php cpu_sample addr_sample).mem (0x0100 + cpu_sample.sp) =
      cpu_sample.status ||| 0x30 ∧
    (cpu_php cpu_sample addr_sample).sp = 0xFC :=
  ⟨by decide, (cpu_php_spec cpu_sample addr_sample (by decide)).1,
    (cpu_php_spec cpu_sample addr_sample (by decide)).2.2.2.1⟩

/-- C6: for every CPU state and every pulled byte p, `cpu_plp` sets the live
status to (old status AND 0x30) OR (p AND 0xCF): the six real flags C, Z, I,
D, V, N are taken from the pulled byte and bits 4 and 5 keep their previous
live value. -/
theorem cpu_plp_spec (cpu : CPU) (addr : Address) (p : Nat) (h : cpu.wf)
    (hp : memory_read cpu.mem (STACK_MIN + cpu.sp + 1) = p) :
    (cpu_plp cpu addr).status = (cpu.status &&& 0x30) ||| (p &&& 0xCF) ∧
    (cpu_plp cpu addr).c = bit_get p 0 ∧ (cpu_plp cpu addr).z = bit_get p 1 ∧
    (cpu_plp cpu addr).i = bit_get p 2 ∧ (cpu_plp cpu addr).d = bit_get p 3 ∧
    (cpu_plp cpu addr).v = bit_get p 6 ∧ (cpu_plp cpu addr).n = bit_get p 7 ∧
    (cpu_plp cpu addr).b = cpu.b ∧ (cpu_plp cpu addr).e = cpu.e := by
  obtain ⟨-, -, -, -, -, hs⟩ := h
  have hplt : p < 256 := hp ▸ memory_read_lt _ _
  have hst : (cpu_plp cpu addr).status = (cpu.status &&& CPU_STATUS_MASK) ||| (p &&& 0xCF) := by
    simp only [cpu_plp, cpu_pull, hp, and_int_not_mask p hplt]
    exact Nat.mod_eq_of_lt (plp_status_lt _ _ hs hplt)
  refine ⟨hst, ?_, ?_, ?_, ?_, ?_, ?_, ?_, ?_⟩ <;>
    simp only [CPU.c, CPU.z, CPU.i, CPU.d, CPU.v, CPU.n, CPU.b, CPU.e, hst] <;>
    rw [bit_get_plp _ _ _ (by decide)] <;> simp

theorem cpu_plp_spec_witness :
    cpu_sample.wf ∧ memory_read cpu_sample.mem (STACK_MIN + cpu_sample.sp + 1) = 0x10 ∧
    (cpu_plp cpu_sample addr_sample).status = (cpu_sample.status &&& 0x30) ||| (0x10 &&& 0xCF) :=
  ⟨by decide, by decide, (cpu_plp_spec cpu_sample addr_sample 0x10 (by decide) (by decide)).1⟩

/-! ## Address resolution -/

/-- C7: for every operand byte b (the byte at PC) and index register value,
ZeroPageX and ZeroPageY resolution yields the address (b + X) mod 256,
respectively (b + Y) mod 256, always below 0x0100, with a memory operand,
and advances PC by 1; in particular b = 0xFF with X = 1 resolves to 0x0000. -/
theorem cpu_resolve_zero_page_indexed (cpu : CPU) :
    (cpu_resolve .ADDR_ZERO_PAGE_X cpu).1.val = (memory_read cpu.mem cpu.pc + cpu.x) % 256 ∧
    (cpu_resolve .ADDR_ZERO_PAGE_X cpu).1.val < 0x0100 ∧
    (cpu_resolve .ADDR_ZERO_PAGE_X cpu).1.null = false ∧
    (cpu_resolve .ADDR_ZERO_PAGE_X cpu).2.pc = (cpu.pc + 1) % 65536 ∧
    (cpu_resolve .ADDR_ZERO_PAGE_Y cpu).1.val = (memory_read cpu.mem cpu.pc + cpu.y) % 256 ∧
    (cpu_resolve .ADDR_ZERO_PAGE_Y cpu).1.val < 0x0100 ∧
    (cpu_resolve .ADDR_ZERO_PAGE_Y cpu).1.null = false ∧
    (cpu_resolve .ADDR_ZERO_PAGE_Y cpu).2.pc = (cpu.pc + 1) % 65536 ∧
    (memory_read cpu.mem cpu.pc = 0xFF → cpu.x = 1 →
      (cpu_resolve .ADDR_ZERO_PAGE_X cpu).1.val = 0x0000) := by
  refine ⟨rfl, ?_, rfl, rfl, rfl, ?_, rfl, rfl, ?_⟩
  · exact Nat.mod_lt _ (by decide)
  · exact Nat.mod_lt _ (by decide)
  · intro hb hx
    show (memory_read cpu.mem cpu.pc + cpu.x) % 256 = 0
    rw [hb, hx]

theorem cpu_resolve_zero_page_indexed_witness :
    memory_read cpu_zero_page_wrap.mem cpu_zero_page_wrap.pc = 0xFF ∧
    cpu_zero_page_wrap.x = 1 ∧
    (cpu_resolve .ADDR_ZERO_PAGE_X cpu_zero_page_wrap).1.val = 0x0000 :=
  ⟨by decide, by decide,
    (cpu_resolve_zero_page_indexed cpu_zero_page_wrap).2.2.2.2.2.2.2.2 (by decide) (by decide)⟩

/-! ## Branches -/

/-- C8: one step of a branch instruction located at address p, decoded with
Relative addressing. When the branch condition is false (BCC: C=1, BCS: C=0,
BEQ: Z=0, BNE: Z=1, BMI: N=0, BPL: N=1, BVC: V=1, BVS: V=0) PC is left at
(p + 2) mod 65536; when it is true PC becomes the resolved target; in both
cases A, X, Y, SP, the status register and memory are unchanged. -/
theorem cpu_next_instr_branch (t : OpcodeTable) (cpu : CPU) (i : Instruction)
    (untaken : Prop) (h : cpu.wf)
    (hmode : t.opcode_addressing_mode (memory_read cpu.mem cpu.pc) = .ADDR_RELATIVE)
    (hinstr : t.opcode_instruction (memory_read cpu.mem cpu.pc) = i)
    (hcond : (i = .INSTR_BCC ∧ (untaken ↔ cpu.c = 1)) ∨
      (i = .INSTR_BCS ∧ (untaken ↔ cpu.c = 0)) ∨
      (i = .INSTR_BEQ ∧ (untaken ↔ cpu.z = 0)) ∨
      (i = .INSTR_BNE ∧ (untaken ↔ cpu.z = 1)) ∨
      (i = .INSTR_BMI ∧ (untaken ↔ cpu.n = 0)) ∨
      (i = .INSTR_BPL ∧ (untaken ↔ cpu.n = 1)) ∨
      (i = .INSTR_BVC ∧ (untaken ↔ cpu.v = 1)) ∨
      (i = .INSTR_BVS ∧ (untaken ↔ cpu.v = 0))) :
    (untaken → (cpu_next_instr t cpu).pc = (cpu.pc + 2) % 65536) ∧
    (¬ untaken → (cpu_next_instr t cpu).pc =
      (cpu_resolve .ADDR_RELATIVE (cpu_next_memory cpu).2).1.val) ∧
    (cpu_resolve .ADDR_RELATIVE (cpu_next_memory cpu).2).1.val =
      (memory_read cpu.mem (cpu.pc + 1) + (cpu.pc + 2)) % 65536 ∧
    (cpu_next_instr t cpu).a = cpu.a ∧ (cpu_next_instr t cpu).x = cpu.x ∧
    (cpu_next_instr t cpu).y = cpu.y ∧ (cpu_next_instr t cpu).sp = cpu.sp ∧
    (cpu_next_instr t cpu).status = cpu.status ∧ (cpu_next_instr t cpu).mem = cpu.mem := by
  obtain ⟨hpc, -, -, -, -, -⟩ := h
  have hc : cpu.c = 0 ∨ cpu.c = 1 := Nat.mod_two_eq_zero_or_one _
  have hz : cpu.z = 0 ∨ cpu.z = 1 := Nat.mod_two_eq_zero_or_one _
  have hn : cpu.n = 0 ∨ cpu.n = 1 := Nat.mod_two_eq_zero_or_one _
  have hv : cpu.v = 0 ∨ cpu.v = 1 := Nat.mod_two_eq_zero_or_one _
  have hpc2 : ((cpu.pc + 1) % 65536 + 1) % 65536 = (cpu.pc + 2) % 65536 := by omega
  have hrd : memory_read cpu.mem ((cpu.pc + 1) % 65536) = memory_read cpu.mem (cpu.pc + 1) := by
    simp [memory_read]
  have htgt : (memory_read cpu.mem (cpu.pc + 1) + (cpu.pc + 2) % 65536) % 65536 =
      (memory_read cpu.mem (cpu.pc + 1) + (cpu.pc + 2)) % 65536 := by omega
  simp only [cpu_next_instr, cpu_next_memory, cpu_resolve, hmode, hinstr, hpc2, hrd, htgt]
  rcases hcond with ⟨rfl, hu⟩ | ⟨rfl, hu⟩ | ⟨rfl, hu⟩ | ⟨rfl, hu⟩ | ⟨rfl, hu⟩ | ⟨rfl, hu⟩ |
    ⟨rfl, hu⟩ | ⟨rfl, hu⟩ <;>
  simp only [instruction_action, cpu_bcc, cpu_bcs, cpu_beq, cpu_bne, cpu_bmi, cpu_bpl, cpu_bvc,
    cpu_bvs, CPU.c, CPU.z, CPU.n, CPU.v, hu] at hc hz hn hv ⊢
  all_goals (split_ifs with hk <;> simp <;> omega)

theorem cpu_next_instr_branch_witness :
    cpu_sample.wf ∧ cpu_sample.c ≠ 1 ∧
    (cpu_next_instr table_bcc cpu_sample).pc = 0xC012 ∧
    (cpu_next_instr table_bcc cpu_sample).status = cpu_sample.status :=
  ⟨by decide, by decide,
    ((cpu_next_instr_branch table_bcc cpu_sample .INSTR_BCC (cpu_sample.c = 1) (by decide) rfl
      rfl (Or.inl ⟨rfl, Iff.rfl⟩)).2.1 (by decide)).trans (by decide),
    (cpu_next_instr_branch table_bcc cpu_sample .INSTR_BCC (cpu_sample.c = 1) (by decide) rfl
      rfl (Or.inl ⟨rfl, Iff.rfl⟩)).2.2.2.2.2.2.2.1⟩

/-- What the Relative case of the resolver computes: the operand byte o at
address q is added as an unsigned value 0..255 to the PC after the read, so
the result agrees with the signed reading exactly when o is below 0x80. -/
theorem cpu_resolve_relative_unsigned (cpu : CPU) (h : cpu.wf) :
    (cpu_resolve .ADDR_RELATIVE cpu).1.val =
      (cpu.pc + 1 + memory_read cpu.mem cpu.pc) % 65536 ∧
    (cpu_resolve .ADDR_RELATIVE cpu).2.pc = (cpu.pc + 1) % 65536 ∧
    ((cpu_resolve .ADDR_RELATIVE cpu).1.val =
        spec_relative_target cpu.pc (memory_read cpu.mem cpu.pc) ↔
      memory_read cpu.mem cpu.pc < 128) := by
  obtain ⟨hpc, -, -, -, -, -⟩ := h
  have hm : memory_read cpu.mem cpu.pc < 256 := memory_read_lt _ _
  simp only [cpu_resolve, cpu_next_memory, spec_relative_target, spec_signed8]
  generalize memory_read cpu.mem cpu.pc = o at hm ⊢
  refine ⟨by omega, trivial, ?_⟩
  split_ifs <;> omega

/-- C9, at the failing input: with the operand byte 0xFE stored at
q = 0x8001 the resolver yields 0x8100 (q + 1 + 254), whereas the signed
reading of the claim gives q - 1 = 0x8000; with 0x80 it yields q + 129, not
q - 127. The offset is never sign-extended. -/
theorem cpu_resolve_relative_backward :
    cpu_branch_back.wf ∧
    memory_read cpu_branch_back.mem cpu_branch_back.pc = 0xFE ∧
    (cpu_resolve .ADDR_RELATIVE cpu_branch_back).1.val = 0x8100 ∧
    spec_relative_target cpu_branch_back.pc 0xFE = 0x8000 ∧
    (cpu_resolve .ADDR_RELATIVE cpu_branch_back).1.val ≠
      spec_relative_target cpu_branch_back.pc
        (memory_read cpu_branch_back.mem cpu_branch_back.pc) ∧
    (cpu_resolve .ADDR_RELATIVE { cpu_branch_back with mem := fun _ => 0x80 }).1.val = 0x8082 ∧
    spec_relative_target cpu_branch_back.pc 0x80 = 0x7F82 := by
  refine ⟨by decide, by decide, by decide, by decide, by decide, by decide, by decide⟩

/-! ## Jumps -/

/-- For every resolved address other than 0xA900, `cpu_jmp` sets PC to it
and changes nothing else. -/
theorem cpu_jmp_other (cpu : CPU) (addr : Address) (h : addr.val ≠ 0xA900) :
    cpu_jmp cpu addr = { cpu with pc := addr.val } := by
  simp [cpu_jmp, h]

/-- C10, at the failing input: for the resolved address 0xA900 `cpu_jmp`
leaves PC = 0x0300, not 0xA900 (the substitution its own comment calls a
hack), every other field being unchanged; so PC does not end at the
resolved address for every address. -/
theorem cpu_jmp_a900 :
    (cpu_jmp cpu_sample { val := 0xA900, null := false }).pc = 0x0300 ∧
    cpu_jmp cpu_sample { val := 0xA900, null := false } = { cpu_sample with pc := 0x0300 } ∧
    ¬ (∀ (cpu : CPU) (addr : Address), (cpu_jmp cpu addr).pc = addr.val) := by
  refine ⟨rfl, rfl, ?_⟩
  intro hall
  exact absurd (hall cpu_sample { val := 0xA900, null := false }) (by decide)

/-! ## Subroutines and interrupts -/

theorem memory_read16_lt (mem : Memory) (addr : Nat) : memory_read16 mem addr < 65536 := by
  have h1 := memory_read_lt mem addr
  have h2 := memory_read_lt mem (addr % 65536 + 1)
  simp only [memory_read16]
  omega

/-- The two cells written by `cpu_push16` when SP is at least 2, the
untouched rest of memory, and the new SP. -/
theorem cpu_push16_cells (cpu : CPU) (v : Nat) (h : cpu.wf) (hsp : 2 ≤ cpu.sp) :
    memory_read (cpu_push16 cpu v).mem (0x0100 + cpu.sp - 1) = v % 65536 % 256 ∧
    memory_read (cpu_push16 cpu v).mem (0x0100 + cpu.sp) = v % 65536 / 256 ∧
    (∀ other, other % 65536 ≠ 0x0100 + cpu.sp - 1 → other % 65536 ≠ 0x0100 + cpu.sp →
      memory_read (cpu_push16 cpu v).mem other = memory_read cpu.mem other) ∧
    (cpu_push16 cpu v).sp = cpu.sp - 2 := by
  obtain ⟨-, hsp', -, -, -, -⟩ := h
  have e1 : (0x0100 + cpu.sp - 1) % 65536 + 1 = 0x0100 + cpu.sp := by omega
  have e2 : (0x0100 + cpu.sp - 1) % 65536 ≠ (0x0100 + cpu.sp) % 65536 := by omega
  simp only [cpu_push16, memory_write16, STACK_MIN, e1]
  refine ⟨?_, ?_, ?_, by omega⟩
  · rw [memory_read_write_other _ _ _ _ e2, memory_read_write_same]
    omega
  · rw [memory_read_write_same]
    omega
  · intro other h1 h2
    rw [memory_read_write_other, memory_read_write_other] <;> omega

/-- C11: for every state with SP >= 2 and a JSR (Absolute) located at
address p, one step sets PC to the target read from the operand bytes,
stores the 16-bit value p + 2 little-endian at the stack cells 0x0100+SP-1
(low) and 0x0100+SP (high) and decreases SP by 2; a following `cpu_rts`
sets PC = (p + 3) mod 65536 and restores SP. -/
theorem cpu_jsr_rts (t : OpcodeTable) (cpu : CPU) (addr : Address) (h : cpu.wf)
    (hsp : 2 ≤ cpu.sp)
    (hmode : t.opcode_addressing_mode (memory_read cpu.mem cpu.pc) = .ADDR_ABSOLUTE)
    (hinstr : t.opcode_instruction (memory_read cpu.mem cpu.pc) = .INSTR_JSR) :
    (cpu_next_instr t cpu).pc = memory_read16 cpu.mem (cpu.pc + 1) ∧
    memory_read (cpu_next_instr t cpu).mem (0x0100 + cpu.sp - 1) = (cpu.pc + 2) % 65536 % 256 ∧
    memory_read (cpu_next_instr t cpu).mem (0x0100 + cpu.sp) = (cpu.pc + 2) % 65536 / 256 ∧
    (cpu_next_instr t cpu).sp = cpu.sp - 2 ∧
    (cpu_rts (cpu_next_instr t cpu) addr).pc = (cpu.pc + 3) % 65536 ∧
    (cpu_rts (cpu_next_instr t cpu) addr).sp = cpu.sp := by
  have hwf := h
  obtain ⟨hpc, hsp', -, -, -, -⟩ := h
  have hret : (((cpu.pc + 1) % 65536 + 2) % 65536 + 65536 - 1) % 65536 = (cpu.pc + 2) % 65536 := by
    omega
  have hrd : memory_read16 cpu.mem ((cpu.pc + 1) % 65536) = memory_read16 cpu.mem (cpu.pc + 1) := by
    simp [memory_read16, memory_read]
  have hstep : cpu_next_instr t cpu =
      { cpu_push16 { cpu with pc := ((cpu.pc + 1) % 65536 + 2) % 65536 } ((cpu.pc + 2) % 65536) with
        pc := memory_read16 cpu.mem (cpu.pc + 1),
        clock := to_int32 (cpu.clock + t.opcode_cycles (memory_read cpu.mem cpu.pc)) } := by
    simp only [cpu_next_instr, cpu_next_memory, cpu_resolve, hmode, hinstr, cpu_next_memory16,
      instruction_action, cpu_jsr, hret, hrd]
    rfl
  have hwf1 : ({ cpu with pc := ((cpu.pc + 1) % 65536 + 2) % 65536 } : CPU).wf := by
    obtain ⟨-, h2, h3, h4, h5, h6⟩ := hwf
    exact ⟨Nat.mod_lt _ (by decide), h2, h3, h4, h5, h6⟩
  obtain ⟨c1, c2, -, c4⟩ :=
    cpu_push16_cells { cpu with pc := ((cpu.pc + 1) % 65536 + 2) % 65536 } ((cpu.pc + 2) % 65536)
      hwf1 hsp
  have hv := cpu_push16_pull16_value { cpu with pc := ((cpu.pc + 1) % 65536 + 2) % 65536 }
    ((cpu.pc + 2) % 65536) hwf1 (Nat.mod_lt _ (by decide)) hsp
  have hs := (cpu_push16_pull16_sp { cpu with pc := ((cpu.pc + 1) % 65536 + 2) % 65536 }
    ((cpu.pc + 2) % 65536) hwf1).2
  rw [hstep]
  refine ⟨rfl, ?_, ?_, c4, ?_, ?_⟩
  · simpa using c1
  · simpa using c2
  · simp only [cpu_rts, cpu_pull16] at hv ⊢
    simp only [cpu_push16] at hv ⊢
    rw [hv]
    omega
  · simpa [cpu_rts, cpu_pull16, cpu_push16] using hs

theorem cpu_jsr_rts_witness :
    cpu_sample.wf ∧ 2 ≤ cpu_sample.sp ∧
    (cpu_next_instr table_jsr cpu_sample).pc = 0x1010 ∧
    (cpu_rts (cpu_next_instr table_jsr cpu_sample) addr_sample).pc = 0xC003 :=
  ⟨by decide, by decide,
    (cpu_jsr_rts table_jsr cpu_sample addr_sample (by decide) (by decide) rfl rfl).1.trans
      (by decide),
    (cpu_jsr_rts table_jsr cpu_sample addr_sample (by decide) (by decide) rfl rfl).2.2.2.2.1⟩

theorem or_mask_lt (s : Nat) (hs : s < 256) : s ||| CPU_STATUS_MASK < 256 :=
  Nat.or_lt_two_pow (n := 8) hs (by decide)

/-- The status byte left by `cpu_plp`. -/
theorem cpu_plp_status (cpu : CPU) (addr : Address) (h : cpu.wf) :
    (cpu_plp cpu addr).status =
      (cpu.status &&& 0x30) ||| (memory_read cpu.mem (STACK_MIN + cpu.sp + 1) &&& 0xCF) := by
  obtain ⟨-, -, -, -, -, hs⟩ := h
  have hp := memory_read_lt cpu.mem (STACK_MIN + cpu.sp + 1)
  simp only [cpu_plp, cpu_pull, and_int_not_mask _ hp]
  exact Nat.mod_eq_of_lt (plp_status_lt _ _ hs hp)

/-- The state after `cpu_brk`, for SP at least 3, as reads of the three
stack cells and the registers. -/
theorem cpu_brk_cells (cpu : CPU) (addr : Address) (h : cpu.wf) (hsp : 3 ≤ cpu.sp) :
    memory_read (cpu_brk cpu addr).mem (0x0100 + cpu.sp - 1) = (cpu.pc + 65536 - 1) % 65536 % 256 ∧
    memory_read (cpu_brk cpu addr).mem (0x0100 + cpu.sp) = (cpu.pc + 65536 - 1) % 65536 / 256 ∧
    memory_read (cpu_brk cpu addr).mem (0x0100 + cpu.sp - 2) = cpu.status ||| 0x30 ∧
    (cpu_brk cpu addr).sp = cpu.sp - 3 ∧
    (cpu_brk cpu addr).status = bit_set cpu.status 2 1 ∧
    (cpu_brk cpu addr).pc = 0xFFFE := by
  have hwf := h
  obtain ⟨-, hsp', -, -, -, hs⟩ := h
  obtain ⟨c1, c2, -, c4⟩ := cpu_push16_cells cpu ((cpu.pc + 65536 - 1) % 65536) hwf (by omega)
  have e0 : (cpu.sp + 256 - 2) % 256 = cpu.sp - 2 := by omega
  have e1 : (cpu.sp - 2 + 256 - 1) % 256 = cpu.sp - 3 := by omega
  have e2 : STACK_MIN + (cpu.sp - 2) = 0x0100 + cpu.sp - 2 := by simp only [STACK_MIN]; omega
  have hmem : (cpu_brk cpu addr).mem =
      memory_write (cpu_push16 cpu ((cpu.pc + 65536 - 1) % 65536)).mem
        (0x0100 + cpu.sp - 2) (cpu.status ||| CPU_STATUS_MASK) := by
    simp only [cpu_brk, cpu_jsr, cpu_php, cpu_push, cpu_sei, CPU.set_i, cpu_push16, e0, e2]
  have hsp3 : (cpu_brk cpu addr).sp = cpu.sp - 3 := by
    simp only [cpu_brk, cpu_jsr, cpu_php, cpu_push, cpu_sei, CPU.set_i, cpu_push16, e0, e1]
  have n1 : (0x0100 + cpu.sp - 1) % 65536 ≠ (0x0100 + cpu.sp - 2) % 65536 := by omega
  have n2 : (0x0100 + cpu.sp) % 65536 ≠ (0x0100 + cpu.sp - 2) % 65536 := by omega
  refine ⟨?_, ?_, ?_, hsp3, rfl, rfl⟩
  · rw [hmem, memory_read_write_other _ _ _ _ n1, c1]
    omega
  · rw [hmem, memory_read_write_other _ _ _ _ n2, c2]
    omega
  · rw [hmem, memory_read_write_same]
    exact Nat.mod_eq_of_lt (or_mask_lt _ hs)

/-- C12: for every state with SP >= 3 in which the PC already advanced past
the BRK opcode is q, `cpu_brk` is the JSR path to 0xFFFE, then the PHP path,
then SEI: it pushes the 16-bit value q - 1, then pushes (status OR 0x30)
with the status as it was before the Interrupt-disable flag is set, leaves
SP decreased by 3, sets I = 1 with all other live status bits unchanged,
and leaves PC = 0xFFFE. -/
theorem cpu_brk_spec (cpu : CPU) (addr : Address) (h : cpu.wf) (hsp : 3 ≤ cpu.sp) :
    cpu_brk cpu addr =
      cpu_sei (cpu_php (cpu_jsr cpu { val := 0xFFFE, null := false }) addr) addr ∧
    memory_read (cpu_brk cpu addr).mem (0x0100 + cpu.sp - 1) = (cpu.pc + 65536 - 1) % 65536 % 256 ∧
    memory_read (cpu_brk cpu addr).mem (0x0100 + cpu.sp) = (cpu.pc + 65536 - 1) % 65536 / 256 ∧
    memory_read (cpu_brk cpu addr).mem (0x0100 + cpu.sp - 2) = cpu.status ||| 0x30 ∧
    (cpu_brk cpu addr).sp = cpu.sp - 3 ∧
    (cpu_brk cpu addr).i = 1 ∧
    (∀ k, k < 8 → k ≠ 2 → bit_get (cpu_brk cpu addr).status k = bit_get cpu.status k) ∧
    (cpu_brk cpu addr).pc = 0xFFFE := by
  obtain ⟨c1, c2, c3, c4, c5, c6⟩ := cpu_brk_cells cpu addr h hsp
  refine ⟨rfl, c1, c2, c3, c4, ?_, ?_, c6⟩
  · simp only [CPU.i, c5]
    rw [bit_get_bit_set _ _ _ _ (by decide) (by decide)]
    rfl
  · intro k hk hne
    rw [c5, bit_get_bit_set _ _ _ _ (by decide) hk, if_neg hne]

theorem cpu_brk_spec_witness :
    cpu_sample.wf ∧ 3 ≤ cpu_sample.sp ∧ (cpu_brk cpu_sample addr_sample).sp = 0xFA ∧
    (cpu_brk cpu_sample addr_sample).pc = 0xFFFE :=
  ⟨by decide, by decide, (cpu_brk_spec cpu_sample addr_sample (by decide) (by decide)).2.2.2.2.1,
    (cpu_brk_spec cpu_sample addr_sample (by decide) (by decide)).2.2.2.2.2.2.2⟩

/-- C13: for every state with SP <= 0xFC, `cpu_rti` sets status =
(old status AND 0x30) OR (mem[0x0100+SP+1] AND 0xCF), then sets PC to the
little-endian 16-bit value at mem[0x0100+SP+2], mem[0x0100+SP+3] with no +1
adjustment, and leaves SP increased by 3; and an RTI executed right after
the pushes of a BRK (SP >= 3 before the BRK) restores SP and the six real
flags as they were before the BRK. -/
theorem cpu_rti_spec (cpu : CPU) (addr addr0 : Address) (h : cpu.wf) :
    (cpu.sp ≤ 0xFC →
      (cpu_rti cpu addr).status =
        (cpu.status &&& 0x30) ||| (memory_read cpu.mem (0x0100 + cpu.sp + 1) &&& 0xCF) ∧
      (cpu_rti cpu addr).pc =
        memory_read cpu.mem (0x0100 + cpu.sp + 2) +
          256 * memory_read cpu.mem (0x0100 + cpu.sp + 3) ∧
      (cpu_rti cpu addr).sp = cpu.sp + 3) ∧
    (3 ≤ cpu.sp →
      (cpu_rti (cpu_brk cpu addr0) addr).sp = cpu.sp ∧
      (cpu_rti (cpu_brk cpu addr0) addr).c = cpu.c ∧
      (cpu_rti (cpu_brk cpu addr0) addr).z = cpu.z ∧
      (cpu_rti (cpu_brk cpu addr0) addr).i = cpu.i ∧
      (cpu_rti (cpu_brk cpu addr0) addr).d = cpu.d ∧
      (cpu_rti (cpu_brk cpu addr0) addr).v = cpu.v ∧
      (cpu_rti (cpu_brk cpu addr0) addr).n = cpu.n) := by
  have hgen : ∀ s : CPU, s.wf → s.sp ≤ 0xFC →
      (cpu_rti s addr).status =
        (s.status &&& 0x30) ||| (memory_read s.mem (0x0100 + s.sp + 1) &&& 0xCF) ∧
      (cpu_rti s addr).pc =
        memory_read s.mem (0x0100 + s.sp + 2) + 256 * memory_read s.mem (0x0100 + s.sp + 3) ∧
      (cpu_rti s addr).sp = s.sp + 3 := by
    intro s hs hsp
    have hplp := (cpu_plp_status s addr hs)
    obtain ⟨-, hsp', -, -, -, -⟩ := hs
    have e1 : (s.sp + 1) % 256 = s.sp + 1 := by omega
    have e2 : (s.sp + 1 + 2) % 256 = s.sp + 3 := by omega
    have e3 : (STACK_MIN + (s.sp + 1) + 1) % 65536 + 1 = 0x0100 + s.sp + 3 := by
      simp only [STACK_MIN]; omega
    have e4 : STACK_MIN + (s.sp + 1) + 1 = 0x0100 + s.sp + 2 := by
      simp only [STACK_MIN]; omega
    refine ⟨?_, ?_, ?_⟩
    · simpa [cpu_rti, cpu_pull16, STACK_MIN] using hplp
    · simp only [cpu_rti, cpu_pull16, cpu_plp, cpu_pull, e1, memory_read16, e3]
      rw [e4]
    · simp only [cpu_rti, cpu_pull16, cpu_plp, cpu_pull, e1, e2]
  refine ⟨hgen cpu h, ?_⟩
  intro hsp
  obtain ⟨-, -, b3, b4, b5, -⟩ := cpu_brk_cells cpu addr0 h hsp
  have hwf := h
  obtain ⟨-, hsp', -, -, -, hs⟩ := h
  have hbwf : (cpu_brk cpu addr0).wf := by
    obtain ⟨-, -, h3, h4, h5, -⟩ := hwf
    refine ⟨?_, ?_, h3, h4, h5, ?_⟩
    · show 0xFFFE < 65536
      decide
    · rw [b4]; omega
    · rw [b5]; exact bit_set_lt _ _ _ hs (by decide)
  obtain ⟨r1, -, r3⟩ := hgen (cpu_brk cpu addr0) hbwf (by rw [b4]; omega)
  have e : 0x0100 + (cpu_brk cpu addr0).sp + 1 = 0x0100 + cpu.sp - 2 := by rw [b4]; omega
  rw [e, b3, b5] at r1
  have hbits : ∀ k, k < 8 → k ≠ 4 → k ≠ 5 →
      bit_get (cpu_rti (cpu_brk cpu addr0) addr).status k = bit_get cpu.status k := by
    intro k hk h4 h5
    have p1 := bit_get_plp (bit_set cpu.status 2 1) (cpu.status ||| 0x30) k hk
    have p2 := bit_get_or_mask cpu.status k hk
    simp only [CPU_STATUS_MASK] at p1 p2
    rw [r1, p1, if_neg (by omega), p2, if_neg (by omega)]
  refine ⟨by rw [r3, b4]; omega, hbits 0 (by decide) (by decide) (by decide),
    hbits 1 (by decide) (by decide) (by decide), hbits 2 (by decide) (by decide) (by decide),
    hbits 3 (by decide) (by decide) (by decide), hbits 6 (by decide) (by decide) (by decide),
    hbits 7 (by decide) (by decide) (by decide)⟩

theorem cpu_rti_spec_witness :
    cpu_mid_stack.wf ∧ cpu_mid_stack.sp ≤ 0xFC ∧ 3 ≤ cpu_mid_stack.sp ∧
    (cpu_rti cpu_mid_stack addr_sample).sp = cpu_mid_stack.sp + 3 ∧
    (cpu_rti (cpu_brk cpu_mid_stack addr_sample) addr_sample).sp = cpu_mid_stack.sp :=
  ⟨by decide, by decide, by decide,
    ((cpu_rti_spec cpu_mid_stack addr_sample addr_sample (by decide)).1 (by decide)).2.2,
    ((cpu_rti_spec cpu_mid_stack addr_sample addr_sample (by decide)).2 (by decide)).1⟩

/-! ## Compare -/

/-- The flags and registers left by `cpu_compare` on two bytes. -/
theorem cpu_compare_flags (cpu : CPU) (r m : Nat) (hr : r < 256) (hm : m < 256) :
    ((cpu_compare cpu r m).c = 1 ↔ m ≤ r) ∧ ((cpu_compare cpu r m).z = 1 ↔ r = m) ∧
    (cpu_compare cpu r m).n = bit_get (((r : Int) - (m : Int)) % 256).toNat 7 ∧
    (cpu_compare cpu r m).a = cpu.a ∧ (cpu_compare cpu r m).x = cpu.x ∧
    (cpu_compare cpu r m).y = cpu.y ∧ (cpu_compare cpu r m).sp = cpu.sp ∧
    (cpu_compare cpu r m).pc = cpu.pc ∧ (cpu_compare cpu r m).i = cpu.i ∧
    (cpu_compare cpu r m).d = cpu.d ∧ (cpu_compare cpu r m).v = cpu.v ∧
    (cpu_compare cpu r m).b = cpu.b ∧ (cpu_compare cpu r m).e = cpu.e ∧
    (cpu_compare cpu r m).mem = cpu.mem := by
  have hd : (((r : Int) - (m : Int)) % 256).toNat = (r + 256 - m) % 256 := by omega
  rw [hd]
  simp only [cpu_compare, cpu_zn, CPU.set_c, CPU.set_z, CPU.set_n, CPU.c, CPU.z, CPU.n, CPU.i,
    CPU.d, CPU.v, CPU.b, CPU.e]
  simp only [b2n, Nat.and_one_is_mod, Nat.shiftRight_eq_div_pow]
  simp [bit_get_bit_set]
  simp only [bit_get]
  norm_num
  refine ⟨?_, ?_, ?_⟩ <;> (try split_ifs) <;> (try norm_num) <;> omega

/-- C14: for CMP, CPX and CPY with register value r (A, X or Y) and operand
byte m: afterwards C = 1 iff m <= r, Z = 1 iff r = m, N = bit 7 of
(r - m) mod 256; A, X, Y, SP, PC, the flags I, D, V, bits 4-5 of status and
all of memory are unchanged. -/
theorem cpu_cmp_cpx_cpy_spec (cpu : CPU) (addr : Address) (h : cpu.wf) :
    (((cpu_cmp cpu addr).c = 1 ↔ memory_read cpu.mem addr.val ≤ cpu.a) ∧
      ((cpu_cmp cpu addr).z = 1 ↔ cpu.a = memory_read cpu.mem addr.val) ∧
      (cpu_cmp cpu addr).n =
        bit_get (((cpu.a : Int) - (memory_read cpu.mem addr.val : Int)) % 256).toNat 7 ∧
      (cpu_cmp cpu addr).a = cpu.a ∧ (cpu_cmp cpu addr).x = cpu.x ∧
      (cpu_cmp cpu addr).y = cpu.y ∧ (cpu_cmp cpu addr).sp = cpu.sp ∧
      (cpu_cmp cpu addr).pc = cpu.pc ∧ (cpu_cmp cpu addr).i = cpu.i ∧
      (cpu_cmp cpu addr).d = cpu.d ∧ (cpu_cmp cpu addr).v = cpu.v ∧
      (cpu_cmp cpu addr).b = cpu.b ∧ (cpu_cmp cpu addr).e = cpu.e ∧
      (cpu_cmp cpu addr).mem = cpu.mem) ∧
    (((cpu_cpx cpu addr).c = 1 ↔ memory_read cpu.mem addr.val ≤ cpu.x) ∧
      ((cpu_cpx cpu addr).z = 1 ↔ cpu.x = memory_read cpu.mem addr.val) ∧
      (cpu_cpx cpu addr).n =
        bit_get (((cpu.x : Int) - (memory_read cpu.mem addr.val : Int)) % 256).toNat 7 ∧
      (cpu_cpx cpu addr).a = cpu.a ∧ (cpu_cpx cpu addr).x = cpu.x ∧
      (cpu_cpx cpu addr).y = cpu.y ∧ (cpu_cpx cpu addr).sp = cpu.sp ∧
      (cpu_cpx cpu addr).pc = cpu.pc ∧ (cpu_cpx cpu addr).i = cpu.i ∧
      (cpu_cpx cpu addr).d = cpu.d ∧ (cpu_cpx cpu addr).v = cpu.v ∧
      (cpu_cpx cpu addr).b = cpu.b ∧ (cpu_cpx cpu addr).e = cpu.e ∧
      (cpu_cpx cpu addr).mem = cpu.mem) ∧
    (((cpu_cpy cpu addr).c = 1 ↔ memory_read cpu.mem addr.val ≤ cpu.y) ∧
      ((cpu_cpy cpu addr).z = 1 ↔ cpu.y = memory_read cpu.mem addr.val) ∧
      (cpu_cpy cpu addr).n =
        bit_get (((cpu.y : Int) - (memory_read cpu.mem addr.val : Int)) % 256).toNat 7 ∧
      (cpu_cpy cpu addr).a = cpu.a ∧ (cpu_cpy cpu addr).x = cpu.x ∧
      (cpu_cpy cpu addr).y = cpu.y ∧ (cpu_cpy cpu addr).sp = cpu.sp ∧
      (cpu_cpy cpu addr).pc = cpu.pc ∧ (cpu_cpy cpu addr).i = cpu.i ∧
      (cpu_cpy cpu addr).d = cpu.d ∧ (cpu_cpy cpu addr).v = cpu.v ∧
      (cpu_cpy cpu addr).b = cpu.b ∧ (cpu_cpy cpu addr).e = cpu.e ∧
      (cpu_cpy cpu addr).mem = cpu.mem) := by
  obtain ⟨-, -, ha, hx, hy, -⟩ := h
  have hm := memory_read_lt cpu.mem addr.val
  exact ⟨cpu_compare_flags cpu cpu.a _ ha hm, cpu_compare_flags cpu cpu.x _ hx hm,
    cpu_compare_flags cpu cpu.y _ hy hm⟩

theorem cpu_cmp_cpx_cpy_spec_witness :
    cpu_sample.wf ∧ (cpu_cmp cpu_sample addr_sample).c = 1 ∧
    (cpu_cpx cpu_sample addr_sample).n = 1 :=
  ⟨by decide, (cpu_cmp_cpx_cpy_spec cpu_sample addr_sample (by decide)).1.1.mpr (by decide),
    (cpu_cmp_cpx_cpy_spec cpu_sample addr_sample (by decide)).2.1.2.2.1.trans (by decide)⟩


/-! ## Shifts and rotates -/

set_option maxRecDepth 100000 in
theorem rol_arith : ∀ x, x < 256 → ∀ c, c < 2 → (x <<< 1 ||| c) % 256 = (2 * x + c) % 256 := by
  decide

set_option maxRecDepth 100000 in
theorem ror_arith :
    ∀ x, x < 256 → ∀ c, c < 2 → (x >>> 1 ||| c <<< 7) % 256 = x / 2 + 128 * c := by
  decide

theorem shl_one_arith (x : Nat) : (x <<< 1) % 256 = (2 * x) % 256 := by
  rw [Nat.shiftLeft_eq]; omega

/-- The common tail of the accumulator form of a shift or rotate: carry
assigned, result stored in A, then `cpu_zn`. -/
theorem shift_tail_acc (cpu : CPU) (cy res : Nat) (hres : res < 256) :
    (cpu_zn { cpu.set_c cy with a := res } res).a = res ∧
    (cpu_zn { cpu.set_c cy with a := res } res).c = cy % 2 ∧
    ((cpu_zn { cpu.set_c cy with a := res } res).z = 1 ↔ res = 0) ∧
    (cpu_zn { cpu.set_c cy with a := res } res).n = bit_get res 7 ∧
    (cpu_zn { cpu.set_c cy with a := res } res).mem = cpu.mem := by
  simp only [cpu_zn, CPU.set_c, CPU.set_z, CPU.set_n, CPU.c, CPU.z, CPU.n]
  simp only [b2n, Nat.and_one_is_mod, Nat.shiftRight_eq_div_pow]
  simp [bit_get_bit_set]
  simp only [bit_get]
  norm_num
  refine ⟨?_, ?_⟩ <;> (try split_ifs) <;> (try norm_num) <;> omega

/-- The common tail of the memory form of a shift or rotate: carry assigned,
result written back to the cell, then `cpu_zn`. -/
theorem shift_tail_mem (cpu : CPU) (cy res addr : Nat) (hres : res < 256) :
    memory_read (cpu_zn { cpu.set_c cy with mem := memory_write cpu.mem addr res } res).mem addr
      = res ∧
    (∀ other, other % 65536 ≠ addr % 65536 →
      memory_read (cpu_zn { cpu.set_c cy with mem := memory_write cpu.mem addr res } res).mem other
        = memory_read cpu.mem other) ∧
    (cpu_zn { cpu.set_c cy with mem := memory_write cpu.mem addr res } res).a = cpu.a ∧
    (cpu_zn { cpu.set_c cy with mem := memory_write cpu.mem addr res } res).c = cy % 2 ∧
    ((cpu_zn { cpu.set_c cy with mem := memory_write cpu.mem addr res } res).z = 1 ↔ res = 0) ∧
    (cpu_zn { cpu.set_c cy with mem := memory_write cpu.mem addr res } res).n = bit_get res 7 := by
  obtain ⟨-, h2, h3, h4, -⟩ := shift_tail_acc cpu cy res hres
  refine ⟨?_, ?_, rfl, h2, h3, h4⟩
  · show memory_read (memory_write cpu.mem addr res) addr = res
    rw [memory_read_write_same]
    exact Nat.mod_eq_of_lt hres
  · intro other ho
    show memory_read (memory_write cpu.mem addr res) other = memory_read cpu.mem other
    exact memory_read_write_other _ _ _ _ ho

theorem bit7_shift (x : Nat) : x >>> 7 &&& 1 = bit_get x 7 := by
  simp [bit_get, Nat.and_one_is_mod, Nat.shiftRight_eq_div_pow]

theorem bit0_and (x : Nat) : x &&& 1 = bit_get x 0 := by
  simp [bit_get, Nat.and_one_is_mod]

theorem bit_get_mod (x k : Nat) : bit_get x k % 2 = bit_get x k := by
  simp [bit_get]

/-- C20: for ASL, LSR, ROL and ROR with operand value v and carry-in c the
result is (2v) mod 256, v div 2, (2v + c) mod 256 and (v div 2) + 128c; the
new carry is bit 7 of v for ASL/ROL and bit 0 of v for LSR/ROR; Z and N are
set from the result. With no memory operand v is A, the result goes to A and
memory is unchanged; otherwise v is the cell at the resolved address, the
result is written back to that cell only and A is unchanged. -/
theorem cpu_shift_rotate_spec (cpu : CPU) (addr : Address) (h : cpu.wf) :
    (addr.null = true →
      ((cpu_asl cpu addr).a = (2 * cpu.a) % 256 ∧ (cpu_asl cpu addr).c = bit_get cpu.a 7 ∧
        ((cpu_asl cpu addr).z = 1 ↔ (2 * cpu.a) % 256 = 0) ∧
        (cpu_asl cpu addr).n = bit_get ((2 * cpu.a) % 256) 7 ∧ (cpu_asl cpu addr).mem = cpu.mem) ∧
      ((cpu_lsr cpu addr).a = cpu.a / 2 ∧ (cpu_lsr cpu addr).c = bit_get cpu.a 0 ∧
        ((cpu_lsr cpu addr).z = 1 ↔ cpu.a / 2 = 0) ∧
        (cpu_lsr cpu addr).n = bit_get (cpu.a / 2) 7 ∧ (cpu_lsr cpu addr).mem = cpu.mem) ∧
      ((cpu_rol cpu addr).a = (2 * cpu.a + cpu.c) % 256 ∧ (cpu_rol cpu addr).c = bit_get cpu.a 7 ∧
        ((cpu_rol cpu addr).z = 1 ↔ (2 * cpu.a + cpu.c) % 256 = 0) ∧
        (cpu_rol cpu addr).n = bit_get ((2 * cpu.a + cpu.c) % 256) 7 ∧ (cpu_rol cpu addr).mem = cpu.mem) ∧
      ((cpu_ror cpu addr).a = cpu.a / 2 + 128 * cpu.c ∧ (cpu_ror cpu addr).c = bit_get cpu.a 0 ∧
        ((cpu_ror cpu addr).z = 1 ↔ cpu.a / 2 + 128 * cpu.c = 0) ∧
        (cpu_ror cpu addr).n = bit_get (cpu.a / 2 + 128 * cpu.c) 7 ∧ (cpu_ror cpu addr).mem = cpu.mem)) ∧
    (addr.null = false →
      (memory_read (cpu_asl cpu addr).mem addr.val = (2 * memory_read cpu.mem addr.val) % 256 ∧
        (∀ other, other % 65536 ≠ addr.val % 65536 →
          memory_read (cpu_asl cpu addr).mem other = memory_read cpu.mem other) ∧
        (cpu_asl cpu addr).a = cpu.a ∧ (cpu_asl cpu addr).c = bit_get (memory_read cpu.mem addr.val) 7 ∧
        ((cpu_asl cpu addr).z = 1 ↔ (2 * memory_read cpu.mem addr.val) % 256 = 0) ∧
        (cpu_asl cpu addr).n = bit_get ((2 * memory_read cpu.mem addr.val) % 256) 7) ∧
      (memory_read (cpu_lsr cpu addr).mem addr.val = (memory_read cpu.mem addr.val) / 2 ∧
        (∀ other, other % 65536 ≠ addr.val % 65536 →
          memory_read (cpu_lsr cpu addr).mem other = memory_read cpu.mem other) ∧
        (cpu_lsr cpu addr).a = cpu.a ∧ (cpu_lsr cpu addr).c = bit_get (memory_read cpu.mem addr.val) 0 ∧
        ((cpu_lsr cpu addr).z = 1 ↔ (memory_read cpu.mem addr.val) / 2 = 0) ∧
        (cpu_lsr cpu addr).n = bit_get ((memory_read cpu.mem addr.val) / 2) 7) ∧
      (memory_read (cpu_rol cpu addr).mem addr.val = (2 * memory_read cpu.mem addr.val + cpu.c) % 256 ∧
        (∀ other, other % 65536 ≠ addr.val % 65536 →
          memory_read (cpu_rol cpu addr).mem other = memory_read cpu.mem other) ∧
        (cpu_rol cpu addr).a = cpu.a ∧ (cpu_rol cpu addr).c = bit_get (memory_read cpu.mem addr.val) 7 ∧
        ((cpu_rol cpu addr).z = 1 ↔ (2 * memory_read cpu.mem addr.val + cpu.c) % 256 = 0) ∧
        (cpu_rol cpu addr).n = bit_get ((2 * memory_read cpu.mem addr.val + cpu.c) % 256) 7) ∧
      (memory_read (cpu_ror cpu addr).mem addr.val = (memory_read cpu.mem addr.val) / 2 + 128 * cpu.c ∧
        (∀ other, other % 65536 ≠ addr.val % 65536 →
          memory_read (cpu_ror cpu addr).mem other = memory_read cpu.mem other) ∧
        (cpu_ror cpu addr).a = cpu.a ∧ (cpu_ror cpu addr).c = bit_get (memory_read cpu.mem addr.val) 0 ∧
        ((cpu_ror cpu addr).z = 1 ↔ (memory_read cpu.mem addr.val) / 2 + 128 * cpu.c = 0) ∧
        (cpu_ror cpu addr).n = bit_get ((memory_read cpu.mem addr.val) / 2 + 128 * cpu.c) 7)) := by
  obtain ⟨-, -, ha, -, -, -⟩ := h
  have hm := memory_read_lt cpu.mem addr.val
  have hc : cpu.c < 2 := Nat.mod_lt _ (by decide)
  have ra := ror_arith cpu.a ha cpu.c hc
  have la := rol_arith cpu.a ha cpu.c hc
  have rm := ror_arith _ hm cpu.c hc
  have lm := rol_arith _ hm cpu.c hc
  have sr : ∀ x : Nat, x >>> 1 = x / 2 := fun x => by
    rw [Nat.shiftRight_eq_div_pow]
  constructor
  · intro hnull
    refine ⟨?_, ?_, ?_, ?_⟩
    · have t := shift_tail_acc cpu (cpu.a >>> 7 &&& 1) ((cpu.a <<< 1) % 256)
        (Nat.mod_lt _ (by decide))
      simp only [bit7_shift, bit_get_mod, shl_one_arith] at t
      simpa only [cpu_asl, hnull, if_true, bit7_shift, shl_one_arith] using t
    · have t := shift_tail_acc cpu (cpu.a &&& 1) (cpu.a >>> 1) (by rw [sr]; omega)
      simp only [bit0_and, bit_get_mod, sr] at t
      simpa only [cpu_lsr, hnull, if_true, bit0_and, sr] using t
    · have t := shift_tail_acc cpu (cpu.a >>> 7 &&& 1) ((cpu.a <<< 1 ||| cpu.c) % 256)
        (Nat.mod_lt _ (by decide))
      simp only [bit7_shift, bit_get_mod, la] at t
      simpa only [cpu_rol, hnull, if_true, bit7_shift, la] using t
    · have t := shift_tail_acc cpu (cpu.a &&& 1) ((cpu.a >>> 1 ||| cpu.c <<< 7) % 256)
        (Nat.mod_lt _ (by decide))
      simp only [bit0_and, bit_get_mod, ra] at t
      simpa only [cpu_ror, hnull, if_true, bit0_and, ra] using t
  · intro hnull
    refine ⟨?_, ?_, ?_, ?_⟩
    · have t := shift_tail_mem cpu (memory_read cpu.mem addr.val >>> 7 &&& 1)
        ((memory_read cpu.mem addr.val <<< 1) % 256) addr.val (Nat.mod_lt _ (by decide))
      simp only [bit7_shift, bit_get_mod, shl_one_arith] at t
      simpa only [cpu_asl, hnull, Bool.false_eq_true, if_false, bit7_shift, shl_one_arith]
        using t
    · have t := shift_tail_mem cpu (memory_read cpu.mem addr.val &&& 1)
        (memory_read cpu.mem addr.val >>> 1) addr.val (by rw [sr]; omega)
      simp only [bit0_and, bit_get_mod, sr] at t
      simpa only [cpu_lsr, hnull, Bool.false_eq_true, if_false, bit0_and, sr] using t
    · have t := shift_tail_mem cpu (memory_read cpu.mem addr.val >>> 7 &&& 1)
        ((memory_read cpu.mem addr.val <<< 1 ||| cpu.c) % 256) addr.val
        (Nat.mod_lt _ (by decide))
      simp only [bit7_shift, bit_get_mod, lm] at t
      simpa only [cpu_rol, hnull, Bool.false_eq_true, if_false, bit7_shift, lm] using t
    · have t := shift_tail_mem cpu (memory_read cpu.mem addr.val &&& 1)
        ((memory_read cpu.mem addr.val >>> 1 ||| cpu.c <<< 7) % 256) addr.val
        (Nat.mod_lt _ (by decide))
      simp only [bit0_and, bit_get_mod, rm] at t
      simpa only [cpu_ror, hnull, Bool.false_eq_true, if_false, bit0_and, rm] using t

theorem cpu_shift_rotate_spec_witness :
    cpu_sample.wf ∧ addr_sample.null = false ∧
    memory_read (cpu_ror cpu_sample addr_sample).mem addr_sample.val = 0x08 ∧
    (cpu_asl cpu_sample { val := 0, null := true }).a = 0xA0 :=
  ⟨by decide, rfl,
    ((cpu_shift_rotate_spec cpu_sample addr_sample (by decide)).2 rfl).2.2.2.1.trans (by decide),
    ((cpu_shift_rotate_spec cpu_sample { val := 0, null := true } (by decide)).1 rfl).1.1.trans
      (by decide)⟩

/-! ## The instruction enumeration -/

set_option maxRecDepth 1000000 in
/-- C15, as the source has it: the `Instruction` enumeration has exactly 75
variants, 56 with a handler under "Official instructions" and 19 under
"Unoffical instructions"; the arrays `instruction_action` and
`instruction_name` have 75 entries each, one per variant, the entry at the
integer value of a variant being its handler and its mnemonic. -/
theorem instruction_enumeration_75 :
    Fintype.card Instruction = 75 ∧
    (Finset.univ.filter (fun i : Instruction => i.unofficial = false)).card = 56 ∧
    (Finset.univ.filter (fun i : Instruction => i.unofficial = true)).card = 19 ∧
    instruction_action_array.length = 75 ∧ instruction_name_array.length = 75 ∧
    (∀ i j : Instruction, i.index = j.index → i = j) ∧
    (∀ k, k < 75 → ∃ i : Instruction, i.index = k) ∧
    (∀ i : Instruction, instruction_action_array[i.index]? = some (instruction_action i)) ∧
    (∀ i : Instruction, instruction_name_array[i.index]? = some (instruction_name i)) := by
  refine ⟨rfl, by decide, by decide, rfl, rfl, by decide, by decide, ?_, ?_⟩
  · intro i; cases i <;> rfl
  · intro i; cases i <;> rfl

/-- C15, as claimed: the enumeration does not have 78 variants, nor are 22
of them undocumented. -/
theorem instruction_enumeration_not_78 :
    Fintype.card Instruction ≠ 78 ∧
    (Finset.univ.filter (fun i : Instruction => i.unofficial = true)).card ≠ 22 ∧
    instruction_action_array.length ≠ 78 ∧ instruction_name_array.length ≠ 78 := by
  refine ⟨by decide, by decide, by decide, by decide⟩

/-! ## Program counter and clock of one step -/

/-- No handler touches the clock. -/
theorem instruction_action_clock (i : Instruction) (cpu : CPU) (addr : Address) :
    (instruction_action i cpu addr).clock = cpu.clock := by
  obtain ⟨val, null⟩ := addr
  cases i <;> simp only [instruction_action] <;> first
    | rfl
    | (cases null <;> rfl)
    | (simp only [cpu_bcc, cpu_bcs, cpu_beq, cpu_bne, cpu_bmi, cpu_bpl, cpu_bvc, cpu_bvs]
       split_ifs <;> rfl)

/-- A handler other than a taken branch, JMP, JSR, RTS, RTI and BRK leaves
PC as the address resolver left it. -/
theorem instruction_action_pc (i : Instruction) (cpu : CPU) (addr : Address)
    (h : spec_assigns_pc i cpu.status = false) :
    (instruction_action i cpu addr).pc = cpu.pc := by
  obtain ⟨val, null⟩ := addr
  cases i <;> simp only [instruction_action] <;> first
    | rfl
    | (cases null <;> rfl)
    | (simp only [spec_assigns_pc, beq_eq_false_iff_ne, ne_eq] at h
       have hb : ∀ k, bit_get cpu.status k < 2 := fun k => Nat.mod_lt _ (by decide)
       have h0 := hb 0
       have h1 := hb 1
       have h6 := hb 6
       have h7 := hb 7
       simp only [cpu_bcc, cpu_bcs, cpu_beq, cpu_bne, cpu_bmi, cpu_bpl, cpu_bvc, cpu_bvs, CPU.c,
         CPU.z, CPU.n, CPU.v]
       split_ifs <;> first | rfl | omega)
    | (simp [spec_assigns_pc] at h)

/-- The address resolver moves PC past the operand bytes and changes no other
register, nor memory, nor the clock. -/
theorem cpu_resolve_pc (m : AdressingMode) (cpu : CPU) (h : cpu.pc < 65536) :
    (cpu_resolve m cpu).2.pc = (cpu.pc + spec_operand_width m) % 65536 ∧
    (cpu_resolve m cpu).2.status = cpu.status ∧ (cpu_resolve m cpu).2.clock = cpu.clock ∧
    (cpu_resolve m cpu).2.mem = cpu.mem := by
  cases m <;> refine ⟨?_, rfl, rfl, rfl⟩ <;>
    simp only [cpu_resolve, cpu_next_memory, cpu_next_memory16, spec_operand_width] <;> omega

/-- One step away from the overflow of the clock: for every opcode table and
state, and every opcode whose handler does not assign PC (anything other than
a taken branch, JMP, JSR, RTS, RTI or BRK), one `cpu_next_instr` step leaves
PC = (PC + 1 + w) mod 65536 with w the operand width of the addressing mode
(0, 1 or 2); the clock of every step is the 32-bit wrap of the sum
clock + `opcode_cycles[opcode]`, and it is that sum itself, whatever the
addresses involved, as long as the sum is inside the range of `int`. -/
theorem cpu_next_instr_pc_clock (t : OpcodeTable) (cpu : CPU) (h : cpu.wf) :
    (spec_assigns_pc (t.opcode_instruction (memory_read cpu.mem cpu.pc)) cpu.status = false →
      (cpu_next_instr t cpu).pc =
        (cpu.pc + 1 + spec_operand_width (t.opcode_addressing_mode (memory_read cpu.mem cpu.pc)))
          % 65536) ∧
    (cpu_next_instr t cpu).clock =
      to_int32 (cpu.clock + t.opcode_cycles (memory_read cpu.mem cpu.pc)) ∧
    (-2147483648 ≤ cpu.clock + t.opcode_cycles (memory_read cpu.mem cpu.pc) →
      cpu.clock + t.opcode_cycles (memory_read cpu.mem cpu.pc) ≤ 2147483647 →
      (cpu_next_instr t cpu).clock =
        cpu.clock + t.opcode_cycles (memory_read cpu.mem cpu.pc)) := by
  obtain ⟨hpc, -, -, -, -, -⟩ := h
  have hr := cpu_resolve_pc (t.opcode_addressing_mode (memory_read cpu.mem cpu.pc))
    (cpu_next_memory cpu).2 (Nat.mod_lt _ (by decide))
  obtain ⟨r1, r2, r3, -⟩ := hr
  constructor
  · intro hna
    have hst : spec_assigns_pc (t.opcode_instruction (memory_read cpu.mem cpu.pc))
        (cpu_resolve (t.opcode_addressing_mode (memory_read cpu.mem cpu.pc))
          (cpu_next_memory cpu).2).2.status = false := by
      rw [r2]; exact hna
    have hp := instruction_action_pc _ _
      (cpu_resolve (t.opcode_addressing_mode (memory_read cpu.mem cpu.pc))
        (cpu_next_memory cpu).2).1 hst
    have hstep : (cpu_next_instr t cpu).pc =
        (instruction_action (t.opcode_instruction (memory_read cpu.mem cpu.pc))
          (cpu_resolve (t.opcode_addressing_mode (memory_read cpu.mem cpu.pc))
            (cpu_next_memory cpu).2).2
          (cpu_resolve (t.opcode_addressing_mode (memory_read cpu.mem cpu.pc))
            (cpu_next_memory cpu).2).1).pc := rfl
    rw [hstep, hp, r1]
    simp only [cpu_next_memory]
    omega
  · have hstep : (cpu_next_instr t cpu).clock =
        to_int32 ((instruction_action (t.opcode_instruction (memory_read cpu.mem cpu.pc))
          (cpu_resolve (t.opcode_addressing_mode (memory_read cpu.mem cpu.pc))
            (cpu_next_memory cpu).2).2
          (cpu_resolve (t.opcode_addressing_mode (memory_read cpu.mem cpu.pc))
            (cpu_next_memory cpu).2).1).clock +
          t.opcode_cycles (memory_read cpu.mem cpu.pc)) := rfl
    have hclk : (cpu_next_instr t cpu).clock =
        to_int32 (cpu.clock + t.opcode_cycles (memory_read cpu.mem cpu.pc)) := by
      rw [hstep, instruction_action_clock, r3]
      rfl
    refine ⟨hclk, fun h0 h1 => ?_⟩
    rw [hclk]
    unfold to_int32
    omega

/-- The step on a concrete state: an LDA with AbsoluteX addressing of four
cycles at 0xC000, clock 0. -/
theorem cpu_next_instr_pc_clock_sample :
    (cpu_next_instr table_lda_absx cpu_sample).pc = 0xC003 ∧
    (cpu_next_instr table_lda_absx cpu_sample).clock = 4 :=
  ⟨((cpu_next_instr_pc_clock table_lda_absx cpu_sample (by decide)).1 rfl).trans (by decide),
    ((cpu_next_instr_pc_clock table_lda_absx cpu_sample (by decide)).2.2 (by decide)
      (by decide)).trans (by decide)⟩

/-- C16, refuted on a state whose clock is at the top of the `int` range: for
clock = 2147483647 and an opcode of four cycles (LDA with AbsoluteX addressing)
the step does leave PC = (PC + 1 + 2) mod 65536, but the sum
2147483647 + 4 does not fit the `int` field `clock`; on the 32-bit
wrap-around the clock after the step is -2147483645, smaller than before, and
not the clock before plus `opcode_cycles[opcode]`. -/
theorem cpu_next_instr_clock_overflow :
    cpu_clock_max.wf ∧ cpu_clock_max.clock = 2147483647 ∧
    table_lda_absx.opcode_cycles (memory_read cpu_clock_max.mem cpu_clock_max.pc) = 4 ∧
    (cpu_next_instr table_lda_absx cpu_clock_max).pc = 0xC003 ∧
    (cpu_next_instr table_lda_absx cpu_clock_max).clock = -2147483645 ∧
    (cpu_next_instr table_lda_absx cpu_clock_max).clock < cpu_clock_max.clock ∧
    (cpu_next_instr table_lda_absx cpu_clock_max).clock ≠
      cpu_clock_max.clock +
        table_lda_absx.opcode_cycles (memory_read cpu_clock_max.mem cpu_clock_max.pc) ∧
    ¬ (∀ (t : OpcodeTable) (cpu : CPU), cpu.wf → -2147483648 ≤ cpu.clock →
        cpu.clock ≤ 2147483647 →
        (cpu_next_instr t cpu).clock =
          cpu.clock + t.opcode_cycles (memory_read cpu.mem cpu.pc)) := by
  refine ⟨by decide, by decide, by decide, by decide, by decide, by decide, by decide, ?_⟩
  intro hall
  exact absurd (hall table_lda_absx cpu_clock_max (by decide) (by decide) (by decide))
    (by decide)

/-! ## Verification harness -/

/-- With a zero tolerance the harness loop reads no line and changes
nothing. -/
theorem cpu_debug_test_loop_zero (t : OpcodeTable) (lines : List (List Char)) (st : TestState)
    (h : st.tolerance = 0) : cpu_debug_test_loop t lines st = st := by
  cases lines with
  | nil => rfl
  | cons test rest => simp [cpu_debug_test_loop, h]

/-- One pass of the harness loop over a line that matches the trace. -/
theorem cpu_debug_test_loop_match (t : OpcodeTable) (test : List Char)
    (rest : List (List Char)) (st : TestState) (h : st.tolerance ≠ 0)
    (hm : (cpu_debug_instr t st.cpu).take 81 = test.take 81) :
    cpu_debug_test_loop t (test :: rest) st =
      cpu_debug_test_loop t rest
        { st with cpu := cpu_next_instr t st.cpu, lineno := st.lineno + 1 } := by
  rw [cpu_debug_test_loop]
  simp [h, hm]

/-- One pass of the harness loop over a line that differs from the trace. -/
theorem cpu_debug_test_loop_mismatch (t : OpcodeTable) (test : List Char)
    (rest : List (List Char)) (st : TestState) (h : st.tolerance ≠ 0)
    (hm : (cpu_debug_instr t st.cpu).take 81 ≠ test.take 81) :
    cpu_debug_test_loop t (test :: rest) st =
      cpu_debug_test_loop t rest
        { cpu := cpu_next_instr t st.cpu, tolerance := st.tolerance - 1,
          lineno := st.lineno + 1,
          out := if st.tolerance - 1 ≠ 0 then
              st.out ++ ["Test Failed (line " ++ toString st.lineno ++ "):\nExpected: " ++
                String.mk test ++ "Obtained: " ++ String.mk (cpu_debug_instr t st.cpu) ++ "\n"] ++
                ["\n"]
            else
              st.out ++ ["Test Failed (line " ++ toString st.lineno ++ "):\nExpected: " ++
                String.mk test ++ "Obtained: " ++ String.mk (cpu_debug_instr t st.cpu) ++ "\n"] } := by
  rw [cpu_debug_test_loop]
  by_cases h1 : st.tolerance - 1 = 0 <;> simp [h, hm, h1]

theorem spec_executed_nil (T : Nat) : spec_executed T [] = 0 := by
  simp [spec_executed, spec_mismatch_positions]

theorem spec_executed_cons_false (T : Nat) (bs : List Bool) :
    spec_executed T (false :: bs) = 1 + spec_executed T bs := by
  simp only [spec_executed, spec_mismatch_positions, Bool.false_eq_true, if_false, List.nil_append,
    List.getElem?_map, List.length_cons]
  cases h : (spec_mismatch_positions bs)[T - 1]? <;> simp <;> omega

theorem spec_executed_cons_true_one (bs : List Bool) : spec_executed 1 (true :: bs) = 1 := by
  simp [spec_executed, spec_mismatch_positions]

theorem spec_executed_cons_true (T : Nat) (bs : List Bool) (hT : 2 ≤ T) :
    spec_executed T (true :: bs) = 1 + spec_executed (T - 1) bs := by
  obtain ⟨n, rfl⟩ : ∃ n, T = n + 2 := ⟨T - 2, by omega⟩
  have e1 : n + 2 - 1 = n + 1 := rfl
  have e2 : n + 1 - 1 = n := rfl
  unfold spec_executed
  simp only [spec_mismatch_positions, if_true, List.singleton_append, e1, e2,
    List.getElem?_cons_succ, List.getElem?_map, List.length_cons]
  cases h : (spec_mismatch_positions bs)[n]? <;> simp <;> omega

/-- The harness loop over the pieces `fgets` returns: with n pieces and a
tolerance T >= 1, the loop (a total function) executes exactly k
instructions, k being the 1-based position of the T-th mismatching piece if
at least T pieces mismatch and n otherwise: the line counter ends at its
start value plus k and the CPU is the start CPU after k steps of
`cpu_next_instr`, whether or not the pieces matched. -/
theorem cpu_debug_test_loop_executed (t : OpcodeTable) (lines : List (List Char)) (cpu : CPU)
    (T : Nat) (lineno : Int) (out : List String) (hT : 1 ≤ T) :
    (cpu_debug_test_loop t lines
        { cpu := cpu, tolerance := (T : Int), lineno := lineno, out := out }).lineno =
      lineno + (spec_executed T (spec_mismatches t cpu lines) : Int) ∧
    (cpu_debug_test_loop t lines
        { cpu := cpu, tolerance := (T : Int), lineno := lineno, out := out }).cpu =
      (cpu_next_instr t)^[spec_executed T (spec_mismatches t cpu lines)] cpu ∧
    spec_executed T (spec_mismatches t cpu lines) ≤ lines.length := by
  induction lines generalizing cpu T lineno out with
  | nil =>
    simp [cpu_debug_test_loop, spec_mismatches, spec_executed_nil]
  | cons test rest ih =>
    have hT0 : (T : Int) ≠ 0 := by omega
    by_cases hm : (cpu_debug_instr t cpu).take 81 = test.take 81
    · have hstep := cpu_debug_test_loop_match t test rest
        { cpu := cpu, tolerance := (T : Int), lineno := lineno, out := out } hT0 hm
      have hflag : spec_mismatches t cpu (test :: rest) =
          false :: spec_mismatches t (cpu_next_instr t cpu) rest := by
        simp [spec_mismatches, hm]
      obtain ⟨i1, i2, i3⟩ := ih (cpu_next_instr t cpu) T (lineno + 1) out hT
      rw [hstep, hflag, spec_executed_cons_false]
      refine ⟨?_, ?_, ?_⟩
      · rw [i1]; push_cast; ring
      · rw [i2, Nat.add_comm 1, Function.iterate_succ_apply]
      · simp only [List.length_cons]; omega
    · have hstep := cpu_debug_test_loop_mismatch t test rest
        { cpu := cpu, tolerance := (T : Int), lineno := lineno, out := out } hT0 hm
      have hflag : spec_mismatches t cpu (test :: rest) =
          true :: spec_mismatches t (cpu_next_instr t cpu) rest := by
        simp [spec_mismatches, hm]
      rw [hstep, hflag]
      by_cases h1 : T = 1
      · subst h1
        rw [cpu_debug_test_loop_zero _ _ _ (by simp), spec_executed_cons_true_one]
        refine ⟨by simp, by simp, by simp⟩
      · have hc : ((T : Int) - 1) = ((T - 1 : Nat) : Int) := by omega
        simp only [hc]
        generalize (if ((T - 1 : Nat) : Int) ≠ 0 then _ else _ : List String) = out1
        obtain ⟨i1, i2, i3⟩ := ih (cpu_next_instr t cpu) (T - 1) (lineno + 1) out1 (by omega)
        rw [spec_executed_cons_true _ _ (by omega)]
        refine ⟨?_, ?_, ?_⟩
        · rw [i1]; push_cast; ring
        · rw [i2, Nat.add_comm 1, Function.iterate_succ_apply]
        · simp only [List.length_cons]; omega

set_option maxRecDepth 100000 in
/-- The loop on three pieces that all read as the first trace line, with
tolerance 1: the second piece is the first mismatch and the line counter
ends at 3. -/
theorem cpu_debug_test_loop_executed_sample :
    (1 : Nat) ≤ 1 ∧
    (cpu_debug_test_loop table_nop [line_nop_first, line_nop_first, line_nop_first]
        { cpu := (cpu_new mem_nop).set_b 0, tolerance := ((1 : Nat) : Int), lineno := 1,
          out := [] }).lineno = 1 + 2 :=
  ⟨by decide,
    (cpu_debug_test_loop_executed table_nop [line_nop_first, line_nop_first, line_nop_first]
      ((cpu_new mem_nop).set_b 0) 1 1 [] (by decide)).1.trans (by decide)⟩

/-- The trace line always has its register dump from character 48 on. -/
theorem cpu_debug_instr_dump (t : OpcodeTable) (cpu : CPU) :
    (cpu_debug_instr t cpu).drop 48 =
      "A:".toList ++ fmt_02X cpu.a ++ " X:".toList ++ fmt_02X cpu.x ++ " Y:".toList ++
        fmt_02X cpu.y ++ " P:".toList ++ fmt_02X cpu.status ++ " SP:".toList ++ fmt_02X cpu.sp ++
        " CYC:".toList ++ fmt_3d (Int.tmod (to_int32 (cpu.clock * 3)) 341) := by
  simp only [cpu_debug_instr]
  generalize hh : fmt_04X cpu.pc ++ "  ".toList ++ fmt_02X (memory_read cpu.mem cpu.pc) ++
    " ".toList = head
  generalize hb : addr_mode_debug (t.opcode_addressing_mode (memory_read cpu.mem cpu.pc)) cpu
    (t.opcode_instruction (memory_read cpu.mem cpu.pc)) = body
  have hlen : 48 ≤ (head ++ body ++
      fmt_star_c ((head.length : Int) + (body.length : Int) - 48) ' ').length := by
    simp only [List.length_append, fmt_star_c]
    split_ifs with hw
    · simp only [List.length_cons, List.length_replicate]; omega
    · simp only [List.length_append, List.length_cons, List.length_replicate, List.length_nil]
      omega
  have htake : ((head ++ body ++
      fmt_star_c ((head.length : Int) + (body.length : Int) - 48) ' ').take 48).length = 48 := by
    rw [List.length_take]; omega
  rw [List.drop_append_of_le_length (by omega), List.drop_of_length_le (by omega)]
  rfl

/-- C18, as the source has it: the state from which the harness formats and
executes the first reference line is the reset state with the B bit cleared:
PC = 0xC000, SP = 0xFD, A = X = Y = 0 and status = 0x24 (Interrupt-disable
and bit 5 set, bit 4 clear); the harness loop starts from it, its first pass
formats and executes from it, and the register dump of that first trace line
reads P:24. -/
theorem cpu_debug_test_first_state (t : OpcodeTable) (memory_reset : Memory → Memory)
    (cpu : CPU) :
    ((cpu_debug_reset memory_reset cpu).1.set_b 0).pc = 0xC000 ∧
    ((cpu_debug_reset memory_reset cpu).1.set_b 0).sp = 0xFD ∧
    ((cpu_debug_reset memory_reset cpu).1.set_b 0).a = 0 ∧
    ((cpu_debug_reset memory_reset cpu).1.set_b 0).x = 0 ∧
    ((cpu_debug_reset memory_reset cpu).1.set_b 0).y = 0 ∧
    ((cpu_debug_reset memory_reset cpu).1.set_b 0).status = 0x24 ∧
    ((cpu_debug_reset memory_reset cpu).1.set_b 0).i = 1 ∧
    ((cpu_debug_reset memory_reset cpu).1.set_b 0).e = 1 ∧
    ((cpu_debug_reset memory_reset cpu).1.set_b 0).b = 0 ∧
    (∀ (parsed : Option Int) (lines : List (List Char)),
      cpu_debug_test t memory_reset parsed (.ok lines) cpu =
        ((cpu_debug_reset memory_reset
            (cpu_debug_test_loop t lines
              { cpu := (cpu_debug_reset memory_reset cpu).1.set_b 0,
                tolerance := parsed.getD 1, lineno := 1,
                out := ["Reset to initial state\n", "\n"] }).cpu).1,
          (cpu_debug_test_loop t lines
              { cpu := (cpu_debug_reset memory_reset cpu).1.set_b 0,
                tolerance := parsed.getD 1, lineno := 1,
                out := ["Reset to initial state\n", "\n"] }).out ++
            ["\n"] ++ ["Reset to initial state\n"])) ∧
    (∀ (test : List Char) (rest : List (List Char)) (tolerance lineno : Int)
        (out : List String), tolerance ≠ 0 →
      ∃ tolerance1 out1,
        cpu_debug_test_loop t (test :: rest)
            { cpu := (cpu_debug_reset memory_reset cpu).1.set_b 0, tolerance := tolerance,
              lineno := lineno, out := out } =
          cpu_debug_test_loop t rest
            { cpu := cpu_next_instr t ((cpu_debug_reset memory_reset cpu).1.set_b 0),
              tolerance := tolerance1, lineno := lineno + 1, out := out1 } ∧
        (tolerance1 ≠ tolerance ↔
          (cpu_debug_instr t ((cpu_debug_reset memory_reset cpu).1.set_b 0)).take 81 ≠
            test.take 81)) ∧
    ((cpu_debug_instr t ((cpu_debug_reset memory_reset cpu).1.set_b 0)).drop 48).take 19 =
      "A:00 X:00 Y:00 P:24".toList := by
  refine ⟨rfl, rfl, rfl, rfl, rfl, ?_, ?_, ?_, ?_, ?_, ?_, ?_⟩
  · simp [cpu_debug_reset, cpu_reset, CPU.set_i, CPU.set_b, bit_set, CPU_STATUS_MASK]
  · simp [cpu_debug_reset, cpu_reset, CPU.set_i, CPU.set_b, CPU.i, bit_set, bit_get,
      CPU_STATUS_MASK]
  · simp [cpu_debug_reset, cpu_reset, CPU.set_i, CPU.set_b, CPU.e, bit_set, bit_get,
      CPU_STATUS_MASK]
  · simp [cpu_debug_reset, cpu_reset, CPU.set_i, CPU.set_b, CPU.b, bit_set, bit_get,
      CPU_STATUS_MASK]
  · intro parsed lines
    cases parsed <;> rfl
  · intro test rest tolerance lineno out htol
    by_cases hm : (cpu_debug_instr t ((cpu_debug_reset memory_reset cpu).1.set_b 0)).take 81 =
        test.take 81
    · refine ⟨tolerance, out, ?_, ?_⟩
      · exact cpu_debug_test_loop_match t test rest _ htol hm
      · simp [hm]
    · refine ⟨tolerance - 1, _, cpu_debug_test_loop_mismatch t test rest _ htol hm, ?_⟩
      simp [hm]
  · rw [cpu_debug_instr_dump]
    have hst : ((cpu_debug_reset memory_reset cpu).1.set_b 0).status = 0x24 := by
      simp [cpu_debug_reset, cpu_reset, CPU.set_i, CPU.set_b, bit_set, CPU_STATUS_MASK]
    have ha : ((cpu_debug_reset memory_reset cpu).1.set_b 0).a = 0 := rfl
    have hx : ((cpu_debug_reset memory_reset cpu).1.set_b 0).x = 0 := rfl
    have hy : ((cpu_debug_reset memory_reset cpu).1.set_b 0).y = 0 := rfl
    rw [hst, ha, hx, hy]
    rfl

/-- C18, as claimed: on a concrete run the state the harness formats first
does not have status 0x34, and the trace line it prints for the first
reference line shows P:24, not P:34. -/
theorem cpu_debug_test_first_state_not_34 :
    ((cpu_debug_reset id (cpu_new mem_nop)).1.set_b 0).status ≠ 0x34 ∧
    (cpu_debug_test table_nop id (some 1) (.ok ["x".toList]) (cpu_new mem_nop)).2 =
      ["Reset to initial state\n", "\n",
        "Test Failed (line 1):\nExpected: xObtained: C000  EA        NOP                             A:00 X:00 Y:00 P:24 SP:FD CYC:  0\n",
        "\n", "Reset to initial state\n"] := by
  refine ⟨by decide, by decide⟩

/-- The final `cpu_debug_reset` of the harness gives every register its
power-on value but leaves the clock as the loop left it. -/
theorem cpu_debug_test_final (t : OpcodeTable) (memory_reset : Memory → Memory)
    (parsed : Option Int) (lines : List (List Char)) (cpu : CPU) :
    (cpu_debug_test t memory_reset parsed (.ok lines) cpu).1.pc = 0xC000 ∧
    (cpu_debug_test t memory_reset parsed (.ok lines) cpu).1.sp = 0xFD ∧
    (cpu_debug_test t memory_reset parsed (.ok lines) cpu).1.a = 0 ∧
    (cpu_debug_test t memory_reset parsed (.ok lines) cpu).1.x = 0 ∧
    (cpu_debug_test t memory_reset parsed (.ok lines) cpu).1.y = 0 ∧
    (cpu_debug_test t memory_reset parsed (.ok lines) cpu).1.status = 0x34 ∧
    (cpu_debug_test t memory_reset parsed (.ok lines) cpu).1.clock =
      (cpu_debug_test_loop t lines
        { cpu := (cpu_debug_reset memory_reset cpu).1.set_b 0, tolerance := parsed.getD 1,
          lineno := 1, out := ["Reset to initial state\n", "\n"] }).cpu.clock := by
  cases parsed <;>
    exact ⟨rfl, rfl, rfl, rfl, rfl,
      by simp [cpu_debug_test, cpu_debug_reset, cpu_reset, CPU.set_i, bit_set, CPU_STATUS_MASK],
      rfl⟩

set_option maxRecDepth 100000 in
/-- C17, at the failing input: a reference log of one line that matches the
first trace, tolerance 1, every opcode a two-cycle NOP. The harness ends
with PC, SP, A, X, Y and status at their power-on values but with the clock
at 2, whereas `cpu_new` gives clock 0; the first run reports no mismatch and
a second run over the same line reports one, its trace reading CYC:  6
instead of CYC:  0. -/
theorem cpu_debug_test_clock_residue :
    (cpu_debug_test table_nop id (some 1) (.ok [line_nop_first]) (cpu_new mem_nop)).1.clock = 2 ∧
    (cpu_new mem_nop).clock = 0 ∧
    (cpu_debug_test table_nop id (some 1) (.ok [line_nop_first]) (cpu_new mem_nop)).1.status =
      (cpu_new mem_nop).status ∧
    (cpu_debug_test table_nop id (some 1) (.ok [line_nop_first]) (cpu_new mem_nop)).1.pc =
      (cpu_new mem_nop).pc ∧
    (cpu_debug_test table_nop id (some 1) (.ok [line_nop_first]) (cpu_new mem_nop)).2 =
      ["Reset to initial state\n", "\n", "\n", "Reset to initial state\n"] ∧
    (cpu_debug_test table_nop id (some 1) (.ok [line_nop_first])
        (cpu_debug_test table_nop id (some 1) (.ok [line_nop_first]) (cpu_new mem_nop)).1).2 =
      ["Reset to initial state\n", "\n",
        "Test Failed (line 1):\nExpected: C000  EA        NOP                             A:00 X:00 Y:00 P:24 SP:FD CYC:  0\nObtained: C000  EA        NOP                             A:00 X:00 Y:00 P:24 SP:FD CYC:  6\n",
        "\n", "Reset to initial state\n"] ∧
    ¬ (∀ (t : OpcodeTable) (lines : List (List Char)) (tolerance : Int) (mem : Memory),
        (cpu_debug_test t id (some tolerance) (.ok lines) (cpu_new mem)).1.clock =
          (cpu_new mem).clock) := by
  refine ⟨by decide, by decide, by decide, by decide, by decide, by decide, ?_⟩
  intro hall
  exact absurd (hall table_nop [line_nop_first] 1 mem_nop) (by decide)

/-! ## Undocumented instructions -/

/-- What every unofficial handler does: it appends the line "STUB" to the
standard output and changes nothing else. -/
theorem cpu_stub_effect (cpu : CPU) :
    cpu_stub cpu = { cpu with stdout := cpu.stdout ++ ["STUB\n"] } ∧
    (cpu_stub cpu).stdout ≠ cpu.stdout := by
  refine ⟨rfl, ?_⟩
  intro h
  have hl := congrArg List.length h
  simp [cpu_stub] at hl

/-- C21: each undocumented-instruction handler (AHX, ALR, ANC, ARR, AXS, DCP,
ISC, LAS, LAX, RLA, RRA, SAX, SHX, SHY, SLO, SRE, STP, TAS, XAA) is a total
function of the state and the resolved address, leaves every register, flag
and memory cell (and the clock) unchanged, and prints the line "STUB", which
the documented NOP does not: NOP returns the state as it is, output
included. -/
theorem cpu_unofficial_stub (i : Instruction) (cpu : CPU) (addr : Address)
    (h : i.unofficial = true) :
    instruction_action i cpu addr = { cpu with stdout := cpu.stdout ++ ["STUB\n"] } ∧
    (instruction_action i cpu addr).mem = cpu.mem ∧
    (instruction_action i cpu addr).pc = cpu.pc ∧
    (instruction_action i cpu addr).sp = cpu.sp ∧
    (instruction_action i cpu addr).a = cpu.a ∧
    (instruction_action i cpu addr).x = cpu.x ∧
    (instruction_action i cpu addr).y = cpu.y ∧
    (instruction_action i cpu addr).status = cpu.status ∧
    (instruction_action i cpu addr).clock = cpu.clock ∧
    (instruction_action i cpu addr).stdout = cpu.stdout ++ ["STUB\n"] ∧
    (instruction_action i cpu addr).stdout ≠ (cpu_nop cpu addr).stdout ∧
    cpu_nop cpu addr = cpu ∧
    (i = .INSTR_AHX ∨ i = .INSTR_ALR ∨ i = .INSTR_ANC ∨ i = .INSTR_ARR ∨ i = .INSTR_AXS ∨
      i = .INSTR_DCP ∨ i = .INSTR_ISC ∨ i = .INSTR_LAS ∨ i = .INSTR_LAX ∨ i = .INSTR_RLA ∨
      i = .INSTR_RRA ∨ i = .INSTR_SAX ∨ i = .INSTR_SHX ∨ i = .INSTR_SHY ∨ i = .INSTR_SLO ∨
      i = .INSTR_SRE ∨ i = .INSTR_STP ∨ i = .INSTR_TAS ∨ i = .INSTR_XAA) := by
  have hs := (cpu_stub_effect cpu).2
  have key : instruction_action i cpu addr = cpu_stub cpu := by
    cases i <;> first | rfl | (simp [Instruction.unofficial] at h)
  rw [key]
  refine ⟨rfl, rfl, rfl, rfl, rfl, rfl, rfl, rfl, rfl, rfl, hs, rfl, ?_⟩
  cases i <;> simp [Instruction.unofficial] at h <;> simp

theorem cpu_unofficial_stub_witness :
    Instruction.unofficial .INSTR_LAX = true ∧
    (instruction_action .INSTR_LAX cpu_sample addr_sample).stdout = ["STUB\n"] ∧
    (instruction_action .INSTR_LAX cpu_sample addr_sample).a = 0x50 :=
  ⟨rfl, (cpu_unofficial_stub .INSTR_LAX cpu_sample addr_sample rfl).2.2.2.2.2.2.2.2.2.1,
    (cpu_unofficial_stub .INSTR_LAX cpu_sample addr_sample rfl).2.2.2.2.1⟩

/-! ## Bits 4 and 5 of the status register -/

theorem mask_bits_bit_set (s k v : Nat) (hk : k < 8) (h4 : k ≠ 4) (h5 : k ≠ 5) :
    mask_bits (bit_set s k v) = mask_bits s := by
  simp only [mask_bits]
  rw [bit_get_bit_set _ _ _ _ hk (by decide), bit_get_bit_set _ _ _ _ hk (by decide),
    if_neg (Ne.symm h4), if_neg (Ne.symm h5)]

theorem bit_get_mod_256 (x k : Nat) (hk : k < 8) : bit_get (x % 256) k = bit_get x k := by
  interval_cases k <;> simp [bit_get] <;> omega

theorem mask_bits_plp (s p : Nat) (hp : p < 256) :
    mask_bits (((s &&& CPU_STATUS_MASK) ||| (p &&& int_not CPU_STATUS_MASK)) % 256) =
      mask_bits s := by
  rw [and_int_not_mask p hp]
  simp only [mask_bits]
  rw [bit_get_mod_256 _ _ (by decide), bit_get_mod_256 _ _ (by decide),
    bit_get_plp _ _ _ (by decide), bit_get_plp _ _ _ (by decide)]
  simp

/-- An AND with the mask gives the mask exactly when bits 4 and 5 are set. -/
theorem and_mask_eq_iff (s : Nat) : s &&& 0x30 = 0x30 ↔ mask_bits s = (1, 1) := by
  simp only [mask_bits, bit_get_eq_testBit, Prod.mk.injEq]
  constructor
  · intro h
    have h4 := congrArg (fun x => Nat.testBit x 4) h
    have h5 := congrArg (fun x => Nat.testBit x 5) h
    simp only [Nat.testBit_and] at h4 h5
    have c4 : Nat.testBit 0x30 4 = true := by decide
    have c5 : Nat.testBit 0x30 5 = true := by decide
    rw [c4] at h4
    rw [c5] at h5
    simp only [Bool.and_true] at h4 h5
    simp [h4, h5]
  · intro ⟨h4, h5⟩
    have t4 : s.testBit 4 = true := by
      by_contra hc; simp [hc] at h4
    have t5 : s.testBit 5 = true := by
      by_contra hc; simp [hc] at h5
    apply Nat.eq_of_testBit_eq
    intro i
    rw [Nat.testBit_and]
    by_cases hi : i < 8
    · rw [testBit_status_mask i hi]
      by_cases h : i = 4 ∨ i = 5
      · rcases h with rfl | rfl <;> simp [t4, t5]
      · simp [h]
    · have : Nat.testBit 0x30 i = false := by
        apply Nat.testBit_lt_two_pow
        calc 0x30 < 2 ^ 8 := by decide
          _ ≤ 2 ^ i := Nat.pow_le_pow_right (by decide) (by omega)
      simp [this]

/-- Every handler leaves bits 4 and 5 of the status byte as they were. -/
theorem instruction_action_mask (i : Instruction) (cpu : CPU) (addr : Address) :
    mask_bits (instruction_action i cpu addr).status = mask_bits cpu.status := by
  have hp := memory_read_lt cpu.mem (STACK_MIN + cpu.sp + 1)
  have hplp := mask_bits_plp cpu.status _ hp
  obtain ⟨val, null⟩ := addr
  cases i <;>
    simp only [instruction_action, cpu_adc, cpu_and, cpu_asl, cpu_bcc, cpu_bcs, cpu_beq, cpu_bit,
      cpu_bmi, cpu_bne, cpu_bpl, cpu_brk, cpu_bvc, cpu_bvs, cpu_clc, cpu_cld, cpu_cli, cpu_clv,
      cpu_cmp, cpu_cpx, cpu_cpy, cpu_dec, cpu_dex, cpu_dey, cpu_eor, cpu_inc, cpu_inx, cpu_iny,
      cpu_jmp, cpu_jsr, cpu_lda, cpu_ldx, cpu_ldy, cpu_lsr, cpu_nop, cpu_ora, cpu_pha, cpu_php,
      cpu_pla, cpu_plp, cpu_rol, cpu_ror, cpu_rti, cpu_rts, cpu_sbc, cpu_sec, cpu_sed, cpu_sei,
      cpu_sta, cpu_stx, cpu_sty, cpu_tax, cpu_tay, cpu_tsx, cpu_txa, cpu_txs, cpu_tya, cpu_ahx,
      cpu_alr, cpu_anc, cpu_arr, cpu_axs, cpu_dcp, cpu_isc, cpu_las, cpu_lax, cpu_rla, cpu_rra,
      cpu_sax, cpu_shx, cpu_shy, cpu_slo, cpu_sre, cpu_stp, cpu_tas, cpu_xaa, cpu_stub, cpu_zn,
      cpu_compare, cpu_push, cpu_push16, cpu_pull, cpu_pull16, CPU.set_c, CPU.set_z, CPU.set_i,
      CPU.set_d, CPU.set_v, CPU.set_n] <;>
    (try split_ifs) <;>
    first
      | rfl
      | exact hplp
      | simp only [mask_bits_bit_set _ _ _ (by decide : (0 : Nat) < 8) (by decide) (by decide),
          mask_bits_bit_set _ _ _ (by decide : (1 : Nat) < 8) (by decide) (by decide),
          mask_bits_bit_set _ _ _ (by decide : (2 : Nat) < 8) (by decide) (by decide),
          mask_bits_bit_set _ _ _ (by decide : (3 : Nat) < 8) (by decide) (by decide),
          mask_bits_bit_set _ _ _ (by decide : (6 : Nat) < 8) (by decide) (by decide),
          mask_bits_bit_set _ _ _ (by decide : (7 : Nat) < 8) (by decide) (by decide)]

/-- One `cpu_next_instr` step leaves bits 4 and 5 of the status byte as they
were. -/
theorem cpu_next_instr_mask (t : OpcodeTable) (cpu : CPU) :
    mask_bits (cpu_next_instr t cpu).status = mask_bits cpu.status := by
  have hstep : (cpu_next_instr t cpu).status =
      (instruction_action (t.opcode_instruction (memory_read cpu.mem cpu.pc))
        (cpu_resolve (t.opcode_addressing_mode (memory_read cpu.mem cpu.pc))
          (cpu_next_memory cpu).2).2
        (cpu_resolve (t.opcode_addressing_mode (memory_read cpu.mem cpu.pc))
          (cpu_next_memory cpu).2).1).status := rfl
  rw [hstep, instruction_action_mask]
  have hr : (cpu_resolve (t.opcode_addressing_mode (memory_read cpu.mem cpu.pc))
      (cpu_next_memory cpu).2).2.status = cpu.status := by
    cases t.opcode_addressing_mode (memory_read cpu.mem cpu.pc) <;> rfl
  rw [hr]

/-- C22: for every handler of `instruction_action` (PLP, RTI, PHP and BRK
included), every state and every resolved address, bits 4 and 5 of the live
status register are the same after the handler as before; hence every state
reached from `cpu_reset` by any number of `cpu_next_instr` steps, under any
opcode table, satisfies status AND 0x30 = 0x30. -/
theorem status_mask_bits_invariant (t : OpcodeTable) (cpu : CPU) (i : Instruction)
    (addr : Address) (n : Nat) :
    bit_get (instruction_action i cpu addr).status 4 = bit_get cpu.status 4 ∧
    bit_get (instruction_action i cpu addr).status 5 = bit_get cpu.status 5 ∧
    ((cpu_next_instr t)^[n] (cpu_reset cpu)).status &&& 0x30 = 0x30 := by
  have h := instruction_action_mask i cpu addr
  simp only [mask_bits, Prod.mk.injEq] at h
  refine ⟨h.1, h.2, ?_⟩
  rw [and_mask_eq_iff]
  induction n with
  | zero =>
    simp [cpu_reset, CPU.set_i, bit_set, CPU_STATUS_MASK, mask_bits, bit_get]
  | succ k ih =>
    rw [Function.iterate_succ_apply', cpu_next_instr_mask, ih]

/-! ## Indexed and indirect addressing -/

/-- C23: with b the operand byte at PC and w the 16-bit operand at PC, the
resolver yields, for IndexedIndirect, mem[p] + 256 * mem[(p + 1) mod 256]
with the pointer p = (b + X) mod 256, both pointer bytes inside the zero
page; for IndirectIndexed, (mem[b] + 256 * mem[(b + 1) mod 256] + Y) mod
65536; for AbsoluteX and AbsoluteY, (w + X) mod 65536 and (w + Y) mod
65536. -/
theorem cpu_resolve_indexed (cpu : CPU) :
    (cpu_resolve .ADDR_INDEXED_INDIRECT cpu).1.val =
      memory_read cpu.mem ((memory_read cpu.mem cpu.pc + cpu.x) % 256) +
        256 * memory_read cpu.mem (((memory_read cpu.mem cpu.pc + cpu.x) % 256 + 1) % 256) ∧
    (memory_read cpu.mem cpu.pc + cpu.x) % 256 < 0x0100 ∧
    ((memory_read cpu.mem cpu.pc + cpu.x) % 256 + 1) % 256 < 0x0100 ∧
    (cpu_resolve .ADDR_INDIRECT_INDEXED cpu).1.val =
      (memory_read cpu.mem (memory_read cpu.mem cpu.pc) +
        256 * memory_read cpu.mem ((memory_read cpu.mem cpu.pc + 1) % 256) + cpu.y) % 65536 ∧
    (cpu_resolve .ADDR_ABSOLUTE_X cpu).1.val = (memory_read16 cpu.mem cpu.pc + cpu.x) % 65536 ∧
    (cpu_resolve .ADDR_ABSOLUTE_Y cpu).1.val = (memory_read16 cpu.mem cpu.pc + cpu.y) % 65536 ∧
    (cpu_resolve .ADDR_INDEXED_INDIRECT cpu).1.null = false ∧
    (cpu_resolve .ADDR_INDIRECT_INDEXED cpu).1.null = false ∧
    (cpu_resolve .ADDR_ABSOLUTE_X cpu).1.null = false ∧
    (cpu_resolve .ADDR_ABSOLUTE_Y cpu).1.null = false := by
  have hb : memory_read cpu.mem cpu.pc % 256 = memory_read cpu.mem cpu.pc :=
    Nat.mod_eq_of_lt (memory_read_lt _ _)
  refine ⟨rfl, Nat.mod_lt _ (by decide), Nat.mod_lt _ (by decide), ?_, rfl, rfl, rfl, rfl, rfl,
    rfl⟩
  simp only [cpu_resolve, cpu_next_memory, memory_zero_page_read16, hb]

/-! ## Trace formatter against the address resolver -/

theorem shl8_or (hi lo : Nat) (hlo : lo < 256) : hi <<< 8 ||| lo = lo + 256 * hi := by
  rw [Nat.shiftLeft_eq, Nat.mul_comm hi, ← Nat.mul_add_lt_is_or (i := 8) hlo hi]
  omega

/-- The 16-bit operand the templates assemble from the two bytes after the
opcode is the one `cpu_next_memory16` reads once the opcode is fetched. -/
theorem debug_operand16 (cpu : CPU) :
    (memory_read cpu.mem (cpu.pc + 2) <<< 8 ||| memory_read cpu.mem (cpu.pc + 1)) % 65536 =
      memory_read16 cpu.mem ((cpu.pc + 1) % 65536) := by
  have h1 := memory_read_lt cpu.mem (cpu.pc + 1)
  have h2 := memory_read_lt cpu.mem (cpu.pc + 2)
  have e1 : memory_read cpu.mem ((cpu.pc + 1) % 65536) = memory_read cpu.mem (cpu.pc + 1) := by
    simp [memory_read]
  have e2 : memory_read cpu.mem ((cpu.pc + 1) % 65536 % 65536 + 1) =
      memory_read cpu.mem (cpu.pc + 2) := by
    simp only [memory_read]
    congr 2
    omega
  rw [shl8_or _ _ h1]
  simp only [memory_read16, e1, e2]
  omega

/-- C24: for every state and each of the addressing modes Relative,
ZeroPageX, ZeroPageY, AbsoluteX, AbsoluteY, Indirect, IndirectIndexed and
IndexedIndirect, the effective address the trace formatter computes for the
instruction about to execute (and prints as the branch target, after '@' or
as the dereferenced pointer) equals the address `cpu_next_instr` resolves
for that instruction from the same state. -/
theorem debug_addr_matches_resolver (cpu : CPU) (mode : AdressingMode)
    (instruction : Instruction)
    (hmode : mode = .ADDR_RELATIVE ∨ mode = .ADDR_ZERO_PAGE_X ∨ mode = .ADDR_ZERO_PAGE_Y ∨
      mode = .ADDR_ABSOLUTE_X ∨ mode = .ADDR_ABSOLUTE_Y ∨ mode = .ADDR_INDIRECT ∨
      mode = .ADDR_INDIRECT_INDEXED ∨ mode = .ADDR_INDEXED_INDIRECT) :
    debug_effective_addr mode cpu = some (cpu_resolve mode (cpu_next_memory cpu).2).1.val ∧
    (mode = .ADDR_RELATIVE → addr_mode_debug mode cpu instruction =
      fmt_02X (memory_read cpu.mem (cpu.pc + 1)) ++ "     ".toList ++
        (instruction_name instruction).toList ++ " $".toList ++
        fmt_04X (cpu_resolve mode (cpu_next_memory cpu).2).1.val) ∧
    (mode = .ADDR_ZERO_PAGE_X → addr_mode_debug mode cpu instruction =
      fmt_02X (memory_read cpu.mem (cpu.pc + 1)) ++ "     ".toList ++
        (instruction_name instruction).toList ++ " $".toList ++
        fmt_02X (memory_read cpu.mem (cpu.pc + 1)) ++ ",X @ ".toList ++
        fmt_02X (cpu_resolve mode (cpu_next_memory cpu).2).1.val ++ " = ".toList ++
        fmt_02X (memory_read cpu.mem (cpu_resolve mode (cpu_next_memory cpu).2).1.val)) ∧
    (mode = .ADDR_ZERO_PAGE_Y → addr_mode_debug mode cpu instruction =
      fmt_02X (memory_read cpu.mem (cpu.pc + 1)) ++ "     ".toList ++
        (instruction_name instruction).toList ++ " $".toList ++
        fmt_02X (memory_read cpu.mem (cpu.pc + 1)) ++ ",Y @ ".toList ++
        fmt_02X (cpu_resolve mode (cpu_next_memory cpu).2).1.val ++ " = ".toList ++
        fmt_02X (memory_read cpu.mem (cpu_resolve mode (cpu_next_memory cpu).2).1.val)) ∧
    (mode = .ADDR_ABSOLUTE_X → addr_mode_debug mode cpu instruction =
      fmt_02X (memory_read cpu.mem (cpu.pc + 1)) ++ " ".toList ++
        fmt_02X (memory_read cpu.mem (cpu.pc + 2)) ++ "  ".toList ++
        (instruction_name instruction).toList ++ " $".toList ++
        fmt_04X (memory_read16 cpu.mem ((cpu.pc + 1) % 65536)) ++ ",X @ ".toList ++
        fmt_04X (cpu_resolve mode (cpu_next_memory cpu).2).1.val ++ " = ".toList ++
        fmt_02X (memory_read cpu.mem (cpu_resolve mode (cpu_next_memory cpu).2).1.val)) ∧
    (mode = .ADDR_ABSOLUTE_Y → addr_mode_debug mode cpu instruction =
      fmt_02X (memory_read cpu.mem (cpu.pc + 1)) ++ " ".toList ++
        fmt_02X (memory_read cpu.mem (cpu.pc + 2)) ++ "  ".toList ++
        (instruction_name instruction).toList ++ " $".toList ++
        fmt_04X (memory_read16 cpu.mem ((cpu.pc + 1) % 65536)) ++ ",Y @ ".toList ++
        fmt_04X (cpu_resolve mode (cpu_next_memory cpu).2).1.val ++ " = ".toList ++
        fmt_02X (memory_read cpu.mem (cpu_resolve mode (cpu_next_memory cpu).2).1.val)) ∧
    (mode = .ADDR_INDIRECT → addr_mode_debug mode cpu instruction =
      fmt_02X (memory_read cpu.mem (cpu.pc + 1)) ++ " ".toList ++
        fmt_02X (memory_read cpu.mem (cpu.pc + 2)) ++ "  ".toList ++
        (instruction_name instruction).toList ++ " ($".toList ++
        fmt_04X (memory_read16 cpu.mem ((cpu.pc + 1) % 65536)) ++ ") = ".toList ++
        fmt_04X (cpu_resolve mode (cpu_next_memory cpu).2).1.val) ∧
    (mode = .ADDR_INDIRECT_INDEXED → addr_mode_debug mode cpu instruction =
      fmt_02X (memory_read cpu.mem (cpu.pc + 1)) ++ "     ".toList ++
        (instruction_name instruction).toList ++ " ($".toList ++
        fmt_02X (memory_read cpu.mem (cpu.pc + 1)) ++ "),Y = ".toList ++
        fmt_04X (memory_zero_page_read16 cpu.mem (memory_read cpu.mem (cpu.pc + 1))) ++
        " @ ".toList ++
        fmt_04X (cpu_resolve mode (cpu_next_memory cpu).2).1.val ++ " = ".toList ++
        fmt_02X (memory_read cpu.mem (cpu_resolve mode (cpu_next_memory cpu).2).1.val)) ∧
    (mode = .ADDR_INDEXED_INDIRECT → addr_mode_debug mode cpu instruction =
      fmt_02X (memory_read cpu.mem (cpu.pc + 1)) ++ "     ".toList ++
        (instruction_name instruction).toList ++ " ($".toList ++
        fmt_02X (memory_read cpu.mem (cpu.pc + 1)) ++ ",X) @ ".toList ++
        fmt_02X ((memory_read cpu.mem (cpu.pc + 1) + cpu.x) % 256) ++ " = ".toList ++
        fmt_04X (cpu_resolve mode (cpu_next_memory cpu).2).1.val ++ " = ".toList ++
        fmt_02X (memory_read cpu.mem (cpu_resolve mode (cpu_next_memory cpu).2).1.val)) := by
  have e1 : memory_read cpu.mem ((cpu.pc + 1) % 65536) = memory_read cpu.mem (cpu.pc + 1) := by
    simp [memory_read]
  have e16 := debug_operand16 cpu
  have ezp : ∀ a : Nat, memory_zero_page_read16 cpu.mem (a % 256) =
      memory_zero_page_read16 cpu.mem a := fun a => by
    simp [memory_zero_page_read16]
  have erel : (memory_read cpu.mem (cpu.pc + 1) + ((cpu.pc + 1) % 65536 + 1) % 65536) % 65536 =
      (cpu.pc + 2 + memory_read cpu.mem (cpu.pc + 1)) % 65536 := by omega
  have key : debug_effective_addr mode cpu =
      some (cpu_resolve mode (cpu_next_memory cpu).2).1.val := by
    rcases hmode with rfl | rfl | rfl | rfl | rfl | rfl | rfl | rfl <;>
      simp only [debug_effective_addr, cpu_resolve, cpu_next_memory, cpu_next_memory16, e1, e16,
        erel, ezp]
  rcases hmode with rfl | rfl | rfl | rfl | rfl | rfl | rfl | rfl <;>
    refine ⟨key, ?_, ?_, ?_, ?_, ?_, ?_, ?_, ?_⟩ <;> intro hm <;>
    first
      | exact absurd hm (by decide)
      | simp only [addr_mode_debug, debug_addr_relative, debug_addr_zero_page_x,
          debug_addr_zero_page_y, debug_addr_absolute_x, debug_addr_absolute_y,
          debug_addr_indirect, debug_addr_indirect_indexed, debug_addr_indexed_indirect,
          cpu_resolve, cpu_next_memory, cpu_next_memory16, e1, e16, erel, ezp]

theorem debug_addr_matches_resolver_witness :
    debug_effective_addr .ADDR_INDIRECT_INDEXED cpu_mid_stack = some 0xC453 ∧
    (cpu_resolve .ADDR_INDIRECT_INDEXED (cpu_next_memory cpu_mid_stack).2).1.val = 0xC453 :=
  ⟨by decide,
    Option.some.inj (((debug_addr_matches_resolver cpu_mid_stack .ADDR_INDIRECT_INDEXED
      .INSTR_LDA (by decide)).1).symm.trans (by decide))⟩

/-! ## Layout of the trace line -/

theorem instruction_name_length (i : Instruction) : (instruction_name i).toList.length = 3 := by
  cases i <;> rfl

theorem fmt_02X_length (n : Nat) : (fmt_02X n).length = 2 := rfl

theorem fmt_04X_length (n : Nat) : (fmt_04X n).length = 4 := rfl

/-- No template of the trace formatter is longer than 37 characters. -/
theorem addr_mode_debug_length (mode : AdressingMode) (cpu : CPU) (i : Instruction) :
    (addr_mode_debug mode cpu i).length ≤ 37 := by
  have hn := instruction_name_length i
  cases mode <;>
    simp only [addr_mode_debug, debug_addr_implied, debug_addr_accumulator, debug_addr_immediate,
      debug_addr_zero_page, debug_addr_absolute, debug_addr_relative, debug_addr_zero_page_x,
      debug_addr_zero_page_y, debug_addr_absolute_x, debug_addr_absolute_y, debug_addr_indirect,
      debug_addr_indirect_indexed, debug_addr_indexed_indirect] <;>
    (try split_ifs) <;>
    simp only [List.length_append, fmt_02X_length, fmt_04X_length, hn] <;>
    decide

set_option maxRecDepth 100000 in
theorem toDigits_length_le_3 : ∀ n, n < 341 → (Nat.toDigits 10 n).length ≤ 3 := by
  decide

/-- The field `%3d` of a value in 0..340 is exactly three characters: the
decimal digits of the value with spaces before them. -/
theorem fmt_3d_small (v : Int) (h0 : 0 ≤ v) (h1 : v < 341) :
    (fmt_3d v).length = 3 ∧
    fmt_3d v = List.replicate (3 - (Nat.toDigits 10 v.toNat).length) ' ' ++
      Nat.toDigits 10 v.toNat := by
  have hd : fmt_d v = Nat.toDigits 10 v.toNat := by
    simp only [fmt_d, if_neg (not_lt.mpr h0)]
  have hl := toDigits_length_le_3 v.toNat (by omega)
  refine ⟨?_, by simp only [fmt_3d, hd]⟩
  simp only [fmt_3d, hd, List.length_append, List.length_replicate]
  omega

theorem hex_digit_upper (d : Nat) : hex_digit d ∈ "0123456789ABCDEF".toList := by
  have h : ∀ k, k < 16 → hex_digit k ∈ "0123456789ABCDEF".toList := by decide
  have e : hex_digit d = hex_digit (d % 16) := by simp [hex_digit]
  rw [e]
  exact h _ (Nat.mod_lt _ (by decide))

/-- The first 48 characters of the trace line: head and template, then
spaces. -/
theorem cpu_debug_instr_take (t : OpcodeTable) (cpu : CPU) :
    (fmt_04X cpu.pc ++ "  ".toList ++ fmt_02X (memory_read cpu.mem cpu.pc) ++ " ".toList ++
      addr_mode_debug (t.opcode_addressing_mode (memory_read cpu.mem cpu.pc)) cpu
        (t.opcode_instruction (memory_read cpu.mem cpu.pc))).length ≤ 46 ∧
    (cpu_debug_instr t cpu).take 48 =
      fmt_04X cpu.pc ++ "  ".toList ++ fmt_02X (memory_read cpu.mem cpu.pc) ++ " ".toList ++
        addr_mode_debug (t.opcode_addressing_mode (memory_read cpu.mem cpu.pc)) cpu
          (t.opcode_instruction (memory_read cpu.mem cpu.pc)) ++
        List.replicate (39 - (addr_mode_debug
          (t.opcode_addressing_mode (memory_read cpu.mem cpu.pc)) cpu
          (t.opcode_instruction (memory_read cpu.mem cpu.pc))).length) ' ' ∧
    ((cpu_debug_instr t cpu).take 48).length = 48 := by
  have hb := addr_mode_debug_length (t.opcode_addressing_mode (memory_read cpu.mem cpu.pc)) cpu
    (t.opcode_instruction (memory_read cpu.mem cpu.pc))
  simp only [cpu_debug_instr]
  generalize addr_mode_debug (t.opcode_addressing_mode (memory_read cpu.mem cpu.pc)) cpu
    (t.opcode_instruction (memory_read cpu.mem cpu.pc)) = body at hb ⊢
  have hhead : (fmt_04X cpu.pc ++ "  ".toList ++ fmt_02X (memory_read cpu.mem cpu.pc) ++
      " ".toList).length = 9 := rfl
  generalize fmt_04X cpu.pc ++ "  ".toList ++ fmt_02X (memory_read cpu.mem cpu.pc) ++
    " ".toList = head at hhead ⊢
  have hneg : ((head.length : Int) + (body.length : Int) - 48) < 0 := by omega
  have hpad : fmt_star_c ((head.length : Int) + (body.length : Int) - 48) ' ' =
      List.replicate (39 - body.length) ' ' := by
    have hk : ((head.length : Int) + (body.length : Int) - 48).natAbs - 1 + 1 =
        39 - body.length := by omega
    simp only [fmt_star_c, if_pos hneg]
    rw [← hk, List.replicate_succ]
  rw [hpad]
  have hlen : (head ++ body ++ List.replicate (39 - body.length) ' ').length = 48 := by
    simp only [List.length_append, List.length_replicate]; omega
  have htk : (head ++ body ++ List.replicate (39 - body.length) ' ').take 48 =
      head ++ body ++ List.replicate (39 - body.length) ' ' :=
    List.take_of_length_le (by omega)
  rw [htk, List.take_left' hlen]
  exact ⟨by simp only [List.length_append]; omega, rfl, hlen⟩

/-- The value of `to_int32` inside the range of `int` is the exact value. -/
theorem to_int32_fit (r : Int) (h0 : -2147483648 ≤ r) (h1 : r ≤ 2147483647) :
    to_int32 r = r := by
  unfold to_int32
  omega

/-- Layout of the trace line while the product `clock * 3` fits the `int` it
is computed in: for every such state with a non-negative clock, every memory
and every opcode table, the line begins with the PC as 4 upper-case
hexadecimal digits; its address and disassembly part (head and template, at
most 46 characters) is padded with spaces so that the register dump starts at
character index 48 for all 13 templates; the dump is
'A:hh X:hh Y:hh P:hh SP:hh CYC:ddd' with ddd the decimal digits of
(clock * 3) mod 341 right-aligned in width 3; and the whole line is exactly
81 characters. -/
theorem cpu_debug_instr_layout (t : OpcodeTable) (cpu : CPU) (h : cpu.wf)
    (hclock : 0 ≤ cpu.clock) (hfit : cpu.clock * 3 ≤ 2147483647) :
    (cpu_debug_instr t cpu).take 4 = fmt_04X cpu.pc ∧
    (∀ c, c ∈ fmt_04X cpu.pc → c ∈ "0123456789ABCDEF".toList) ∧
    (∃ d3 d2 d1 d0, d3 < 16 ∧ d2 < 16 ∧ d1 < 16 ∧ d0 < 16 ∧
      cpu.pc = 4096 * d3 + 256 * d2 + 16 * d1 + d0 ∧
      fmt_04X cpu.pc = [hex_digit d3, hex_digit d2, hex_digit d1, hex_digit d0]) ∧
    (fmt_04X cpu.pc ++ "  ".toList ++ fmt_02X (memory_read cpu.mem cpu.pc) ++ " ".toList ++
      addr_mode_debug (t.opcode_addressing_mode (memory_read cpu.mem cpu.pc)) cpu
        (t.opcode_instruction (memory_read cpu.mem cpu.pc))).length ≤ 48 ∧
    (cpu_debug_instr t cpu).take 48 =
      fmt_04X cpu.pc ++ "  ".toList ++ fmt_02X (memory_read cpu.mem cpu.pc) ++ " ".toList ++
        addr_mode_debug (t.opcode_addressing_mode (memory_read cpu.mem cpu.pc)) cpu
          (t.opcode_instruction (memory_read cpu.mem cpu.pc)) ++
        List.replicate (39 - (addr_mode_debug
          (t.opcode_addressing_mode (memory_read cpu.mem cpu.pc)) cpu
          (t.opcode_instruction (memory_read cpu.mem cpu.pc))).length) ' ' ∧
    (cpu_debug_instr t cpu).drop 48 =
      "A:".toList ++ fmt_02X cpu.a ++ " X:".toList ++ fmt_02X cpu.x ++ " Y:".toList ++
        fmt_02X cpu.y ++ " P:".toList ++ fmt_02X cpu.status ++ " SP:".toList ++ fmt_02X cpu.sp ++
        " CYC:".toList ++ fmt_3d ((cpu.clock * 3) % 341) ∧
    (fmt_3d ((cpu.clock * 3) % 341)).length = 3 ∧
    fmt_3d ((cpu.clock * 3) % 341) =
      List.replicate (3 - (Nat.toDigits 10 ((cpu.clock * 3) % 341).toNat).length) ' ' ++
        Nat.toDigits 10 ((cpu.clock * 3) % 341).toNat ∧
    (cpu_debug_instr t cpu).length = 81 := by
  obtain ⟨hpc, -, -, -, -, -⟩ := h
  obtain ⟨hlen46, htake, htake_len⟩ := cpu_debug_instr_take t cpu
  have hdump := cpu_debug_instr_dump t cpu
  rw [to_int32_fit _ (by omega) hfit, Int.tmod_eq_emod (by omega) (by decide)] at hdump
  obtain ⟨h3, h3d⟩ := fmt_3d_small ((cpu.clock * 3) % 341) (by omega) (by omega)
  have hdrop_len : ((cpu_debug_instr t cpu).drop 48).length = 33 := by
    rw [hdump]
    simp only [List.length_append, fmt_02X_length, h3]
    rfl
  have htotal : (cpu_debug_instr t cpu).length = 81 := by
    have := List.take_append_drop 48 (cpu_debug_instr t cpu)
    have hl := congrArg List.length this
    rw [List.length_append, htake_len, hdrop_len] at hl
    omega
  refine ⟨?_, ?_, ?_, by omega, htake, hdump, h3, h3d, htotal⟩
  · have h4 : (cpu_debug_instr t cpu).take 4 = ((cpu_debug_instr t cpu).take 48).take 4 := by
      rw [List.take_take]; rfl
    rw [h4, htake]
    rfl
  · intro c hc
    simp only [fmt_04X, List.mem_cons, List.mem_singleton, List.not_mem_nil, or_false] at hc
    rcases hc with rfl | rfl | rfl | rfl <;> exact hex_digit_upper _
  · refine ⟨cpu.pc / 4096, cpu.pc / 256 % 16, cpu.pc / 16 % 16, cpu.pc % 16, by omega, by omega,
      by omega, by omega, by omega, ?_⟩
    simp [fmt_04X, hex_digit]

set_option maxRecDepth 100000 in
/-- The layout on a concrete state: an LDA with AbsoluteX addressing at
0x8000, clock 7. -/
theorem cpu_debug_instr_layout_sample :
    (cpu_debug_instr table_lda_absx cpu_mid_stack).length = 81 ∧
    (cpu_debug_instr table_lda_absx cpu_mid_stack).take 4 = "8000".toList :=
  ⟨(cpu_debug_instr_layout table_lda_absx cpu_mid_stack (by decide) (by decide)
      (by decide)).2.2.2.2.2.2.2.2,
    (cpu_debug_instr_layout table_lda_absx cpu_mid_stack (by decide) (by decide)
      (by decide)).1.trans (by decide)⟩

set_option maxRecDepth 100000 in
/-- C25, refuted on a state with a large clock: with clock = 715827884 (non-negative, inside
the range of `int`) the exact product clock * 3 = 2147483652 is 6 modulo 341, but it does not
fit the `int` in which `cpu_debug_instr` computes it; on the 32-bit wrap-around the product is
-2147483644, `ppu_cycle` is -339 and `%3d` prints the four characters '-339'. The line still
begins with the PC and has its dump at index 48, but the cycle field is not
(clock * 3) mod 341 and the line has 82 characters, one more than the 82-byte buffer holds
with the terminator. -/
theorem cpu_debug_instr_clock_overflow :
    cpu_clock_overflow.wf ∧ 0 ≤ cpu_clock_overflow.clock ∧
    cpu_clock_overflow.clock ≤ 2147483647 ∧
    (cpu_clock_overflow.clock * 3) % 341 = 6 ∧
    to_int32 (cpu_clock_overflow.clock * 3) = -2147483644 ∧
    Int.tmod (to_int32 (cpu_clock_overflow.clock * 3)) 341 = -339 ∧
    cpu_debug_instr table_lda_absx cpu_clock_overflow =
      "8000  C3 C3 C3  LDA $C3C3,X @ C3D3 = C3         A:81 X:10 Y:90 P:34 SP:80 CYC:-339".toList ∧
    (cpu_debug_instr table_lda_absx cpu_clock_overflow).length = 82 ∧
    (cpu_debug_instr table_lda_absx cpu_clock_overflow).drop 48 ≠
      "A:81 X:10 Y:90 P:34 SP:80 CYC:  6".toList ∧
    ¬ (∀ (t : OpcodeTable) (cpu : CPU), cpu.wf → 0 ≤ cpu.clock →
        (cpu_debug_instr t cpu).length = 81) := by
  refine ⟨by decide, by decide, by decide, by decide, by decide, by decide, by decide,
    by decide, by decide, ?_⟩
  intro hall
  exact absurd (hall table_lda_absx cpu_clock_overflow (by decide) (by decide)) (by decide)

/-! ## PHA and PLA -/

/-- Away from the bottom of the stack page (SP at least 1), PHA followed by
PLA gives back A and SP, whatever A is set to in between, and both accesses
are inside the stack page. -/
theorem cpu_pha_pla_value (cpu : CPU) (addr1 addr2 : Address) (between : Nat) (h : cpu.wf)
    (hsp : 1 ≤ cpu.sp) :
    (cpu_pla { cpu_pha cpu addr1 with a := between } addr2).a = cpu.a ∧
    (cpu_pla { cpu_pha cpu addr1 with a := between } addr2).sp = cpu.sp ∧
    0x0100 ≤ STACK_MIN + cpu.sp ∧ STACK_MIN + cpu.sp ≤ 0x01FF ∧
    0x0100 ≤ STACK_MIN + (cpu_pha cpu addr1).sp + 1 ∧
    STACK_MIN + (cpu_pha cpu addr1).sp + 1 ≤ 0x01FF := by
  obtain ⟨-, hsp', ha, -, -, -⟩ := h
  have e1 : (cpu.sp + 256 - 1) % 256 = cpu.sp - 1 := by omega
  have e2 : STACK_MIN + (cpu.sp - 1) + 1 = STACK_MIN + cpu.sp := by omega
  have e3 : (cpu.sp - 1 + 1) % 256 = cpu.sp := by omega
  have hrd : memory_read (memory_write cpu.mem (STACK_MIN + cpu.sp) cpu.a)
      (STACK_MIN + cpu.sp) = cpu.a := by
    rw [memory_read_write_same]; exact Nat.mod_eq_of_lt ha
  refine ⟨?_, ?_, ?_, ?_, ?_, ?_⟩
  · simp only [cpu_pla, cpu_pha, cpu_push, cpu_pull, cpu_zn, CPU.set_z, CPU.set_n, e1, e2, hrd]
  · simp only [cpu_pla, cpu_pha, cpu_push, cpu_pull, cpu_zn, CPU.set_z, CPU.set_n, e1, e3]
  · simp only [STACK_MIN]; omega
  · simp only [STACK_MIN]; omega
  · simp only [cpu_pha, cpu_push, e1, STACK_MIN]; omega
  · simp only [cpu_pha, cpu_push, e1, STACK_MIN]; omega

/-- C26, at the failing input SP = 0x00, A = 0x42: `cpu_pha` stores 0x42 at
0x0100 and leaves SP = 0xFF; the `cpu_pla` that follows reads the cell
0x0100 + 0xFF + 1 = 0x0200, outside the stack page, and leaves A = 0x00, not
0x42, with Z = 1, although SP is back at 0x00; so the round trip does not
hold for every stack pointer. -/
theorem cpu_pha_pla_sp_zero :
    cpu_sp_zero_a42.wf ∧
    memory_read (cpu_pha cpu_sp_zero_a42 addr_sample).mem 0x0100 = 0x42 ∧
    (cpu_pha cpu_sp_zero_a42 addr_sample).sp = 0xFF ∧
    STACK_MIN + (cpu_pha cpu_sp_zero_a42 addr_sample).sp + 1 = 0x0200 ∧
    (cpu_pla (cpu_pha cpu_sp_zero_a42 addr_sample) addr_sample).a = 0x00 ∧
    (cpu_pla (cpu_pha cpu_sp_zero_a42 addr_sample) addr_sample).z = 1 ∧
    (cpu_pla (cpu_pha cpu_sp_zero_a42 addr_sample) addr_sample).sp = 0x00 ∧
    ¬ (∀ (cpu : CPU) (addr : Address), cpu.wf →
        (cpu_pla (cpu_pha cpu addr) addr).a = cpu.a ∧
        STACK_MIN + (cpu_pha cpu addr).sp + 1 ≤ 0x01FF) := by
  refine ⟨by decide, by decide, by decide, by decide, by decide, by decide, by decide, ?_⟩
  intro hall
  exact absurd (hall cpu_sp_zero_a42 addr_sample (by decide)).1 (by decide)

/-! ## Signed overflow -/

/-- The overflow flag left by `cpu_adc`, in arithmetic form. -/
theorem cpu_adc_v (cpu : CPU) (addr : Address) :
    (cpu_adc cpu addr).v =
      if (cpu.a / 128 + memory_read cpu.mem addr.val / 128) % 2 = 0 ∧
          ((cpu.a + memory_read cpu.mem addr.val + cpu.c) % 65536 / 128 + cpu.a / 128) % 2 = 1
      then 1 else 0 := by
  simp only [cpu_adc, cpu_zn, CPU.set_c, CPU.set_v, CPU.set_z, CPU.set_n, CPU.c, CPU.v]
  simp only [bit7_xor]
  simp only [b2n, Nat.and_one_is_mod, Nat.shiftRight_eq_div_pow]
  simp [bit_get_bit_set]
  split_ifs <;> decide

/-- The overflow flag left by `cpu_sbc`, in arithmetic form. -/
theorem cpu_sbc_v (cpu : CPU) (addr : Address) :
    (cpu_sbc cpu addr).v =
      if (cpu.a / 128 + memory_read cpu.mem addr.val / 128) % 2 = 1 ∧
          (int_bits (to_int16 ((cpu.a : Int) - (memory_read cpu.mem addr.val : Int) -
            (1 - (cpu.c : Int)))) / 128 + cpu.a / 128) % 2 = 1
      then 1 else 0 := by
  simp only [cpu_sbc, cpu_zn, CPU.set_c, CPU.set_v, CPU.set_z, CPU.set_n, CPU.c, CPU.v]
  simp only [bit7_xor]
  simp only [b2n, Nat.and_one_is_mod, Nat.shiftRight_eq_div_pow]
  simp [bit_get_bit_set]
  split_ifs <;> decide

/-- C27: for every A, operand M and carry-in c, the overflow flag left by
`cpu_adc` is 1 exactly when the signed sum s(A) + s(M) + c lies outside
-128..127, s reading a byte as a signed 8-bit value; and the flag left by
`cpu_sbc` is 1 exactly when s(A) - s(M) - (1 - c) lies outside -128..127. -/
theorem overflow_flag_signed (cpu : CPU) (addr : Address) (h : cpu.wf) :
    ((cpu_adc cpu addr).v = 1 ↔
      (spec_signed8 cpu.a + spec_signed8 (memory_read cpu.mem addr.val) + (cpu.c : Int) < -128 ∨
        127 < spec_signed8 cpu.a + spec_signed8 (memory_read cpu.mem addr.val) + (cpu.c : Int))) ∧
    ((cpu_sbc cpu addr).v = 1 ↔
      (spec_signed8 cpu.a - spec_signed8 (memory_read cpu.mem addr.val) - (1 - (cpu.c : Int))
          < -128 ∨
        127 < spec_signed8 cpu.a - spec_signed8 (memory_read cpu.mem addr.val)
          - (1 - (cpu.c : Int)))) := by
  obtain ⟨-, -, ha, -, -, -⟩ := h
  have hm : memory_read cpu.mem addr.val < 256 := memory_read_lt _ _
  have hc : cpu.c < 2 := Nat.mod_lt _ (by decide)
  rw [cpu_adc_v, cpu_sbc_v]
  simp only [spec_signed8, to_int16, int_bits]
  generalize memory_read cpu.mem addr.val = M at hm ⊢
  generalize cpu.a = A at ha ⊢
  generalize cpu.c = C at hc ⊢
  have hr : ((A : Int) - (M : Int) - (1 - (C : Int)) + 32768) % 65536 - 32768
      = (A : Int) - (M : Int) - (1 - (C : Int)) := by omega
  simp only [hr]
  constructor <;> split_ifs <;> simp <;> omega

theorem overflow_flag_signed_witness :
    cpu_mid_stack.wf ∧ (cpu_adc cpu_mid_stack addr_sample).v = 1 :=
  ⟨by decide, (overflow_flag_signed cpu_mid_stack addr_sample (by decide)).1.mpr (by decide)⟩

/-! ## Subtraction as addition of the complement -/

set_option maxRecDepth 100000 in
theorem xor_ff : ∀ m, m < 256 → m ^^^ 0xFF = 255 - m := by
  decide

theorem cpu_zn_mod (cpu : CPU) (v : Nat) : cpu_zn cpu (v % 256) = cpu_zn cpu v := by
  simp [cpu_zn]

/-- C28: for every CPU state, `cpu_sbc` on an operand M produces exactly the
same resulting state (A, C, V, Z, N and everything else) as `cpu_adc` on the
operand M xor 0xFF from the same starting state; the two operands are read
at two resolved addresses of the same memory. -/
theorem cpu_sbc_eq_adc_complement (cpu : CPU) (addr1 addr2 : Address) (h : cpu.wf)
    (hm : memory_read cpu.mem addr2.val = memory_read cpu.mem addr1.val ^^^ 0xFF) :
    cpu_sbc cpu addr1 = cpu_adc cpu addr2 := by
  obtain ⟨-, -, ha, -, -, -⟩ := h
  have hM : memory_read cpu.mem addr1.val < 256 := memory_read_lt _ _
  have hc : cpu.c < 2 := Nat.mod_lt _ (by decide)
  rw [xor_ff _ hM] at hm
  simp only [cpu_sbc, cpu_adc, hm]
  generalize memory_read cpu.mem addr1.val = M at hM ⊢
  have hr : to_int16 ((cpu.a : Int) - (M : Int) - (1 - (cpu.c : Int)))
      = (cpu.a : Int) - (M : Int) - (1 - (cpu.c : Int)) := by
    simp only [to_int16]; omega
  have hR : (cpu.a + (255 - M) + cpu.c) % 65536 = cpu.a + (255 - M) + cpu.c := by omega
  have hA : (((cpu.a : Int) - (M : Int) - (1 - (cpu.c : Int))) % 256).toNat =
      (cpu.a + (255 - M) + cpu.c) % 256 := by omega
  have hC : decide ((cpu.a : Int) - (M : Int) - (1 - (cpu.c : Int)) ≥ 0) =
      decide (cpu.a + (255 - M) + cpu.c > 255) := by
    rw [decide_eq_decide]; omega
  have hV : (((cpu.a ^^^ M) >>> 7 &&& 1 != 0) &&
        ((int_bits ((cpu.a : Int) - (M : Int) - (1 - (cpu.c : Int))) ^^^ cpu.a) >>> 7 &&& 1 != 0)) =
      (!((cpu.a ^^^ (255 - M)) >>> 7 &&& 1 != 0) &&
        (((cpu.a + (255 - M) + cpu.c) ^^^ cpu.a) >>> 7 &&& 1 != 0)) := by
    simp only [bit7_xor, int_bits]
    rw [Bool.eq_iff_iff]
    simp
    omega
  rw [hr, hR, hA, hC, hV, cpu_zn_mod]

theorem cpu_sbc_eq_adc_complement_witness :
    cpu_complement.wf ∧
    memory_read cpu_complement.mem 0x0201 = memory_read cpu_complement.mem 0x0200 ^^^ 0xFF ∧
    (cpu_sbc cpu_complement { val := 0x0200, null := false }).a = 0x14 ∧
    (cpu_adc cpu_complement { val := 0x0201, null := false }).a = 0x14 :=
  ⟨by decide, by decide, by decide,
    (congrArg CPU.a (cpu_sbc_eq_adc_complement cpu_complement { val := 0x0200, null := false }
      { val := 0x0201, null := false } (by decide) (by decide))).symm.trans (by decide)⟩

/-! ## Rotates as inverses -/

/-- The accumulator form of `cpu_rol` and `cpu_ror`. -/
theorem cpu_rotate_acc (cpu : CPU) (addr : Address) (ha : cpu.a < 256)
    (hnull : addr.null = true) :
    (cpu_rol cpu addr).a = (2 * cpu.a + cpu.c) % 256 ∧ (cpu_rol cpu addr).c = bit_get cpu.a 7 ∧
    (cpu_rol cpu addr).mem = cpu.mem ∧
    (cpu_ror cpu addr).a = cpu.a / 2 + 128 * cpu.c ∧ (cpu_ror cpu addr).c = bit_get cpu.a 0 ∧
    (cpu_ror cpu addr).mem = cpu.mem := by
  have hc : cpu.c < 2 := Nat.mod_lt _ (by decide)
  have ra := ror_arith cpu.a ha cpu.c hc
  have la := rol_arith cpu.a ha cpu.c hc
  have t1 := shift_tail_acc cpu (cpu.a >>> 7 &&& 1) ((cpu.a <<< 1 ||| cpu.c) % 256)
    (Nat.mod_lt _ (by decide))
  have t2 := shift_tail_acc cpu (cpu.a &&& 1) ((cpu.a >>> 1 ||| cpu.c <<< 7) % 256)
    (Nat.mod_lt _ (by decide))
  simp only [bit7_shift, bit_get_mod, la] at t1
  simp only [bit0_and, bit_get_mod, ra] at t2
  have r1 : (cpu_rol cpu addr).a = (2 * cpu.a + cpu.c) % 256 ∧
      (cpu_rol cpu addr).c = bit_get cpu.a 7 ∧ (cpu_rol cpu addr).mem = cpu.mem := by
    simpa only [cpu_rol, hnull, if_true, bit7_shift, la] using ⟨t1.1, t1.2.1, t1.2.2.2.2⟩
  have r2 : (cpu_ror cpu addr).a = cpu.a / 2 + 128 * cpu.c ∧
      (cpu_ror cpu addr).c = bit_get cpu.a 0 ∧ (cpu_ror cpu addr).mem = cpu.mem := by
    simpa only [cpu_ror, hnull, if_true, bit0_and, ra] using ⟨t2.1, t2.2.1, t2.2.2.2.2⟩
  exact ⟨r1.1, r1.2.1, r1.2.2, r2.1, r2.2.1, r2.2.2⟩

/-- The memory form of `cpu_rol` and `cpu_ror`. -/
theorem cpu_rotate_mem (cpu : CPU) (addr : Address) (hnull : addr.null = false) :
    (memory_read (cpu_rol cpu addr).mem addr.val =
        (2 * memory_read cpu.mem addr.val + cpu.c) % 256 ∧
      (∀ other, other % 65536 ≠ addr.val % 65536 →
        memory_read (cpu_rol cpu addr).mem other = memory_read cpu.mem other) ∧
      (cpu_rol cpu addr).a = cpu.a ∧
      (cpu_rol cpu addr).c = bit_get (memory_read cpu.mem addr.val) 7) ∧
    (memory_read (cpu_ror cpu addr).mem addr.val =
        memory_read cpu.mem addr.val / 2 + 128 * cpu.c ∧
      (∀ other, other % 65536 ≠ addr.val % 65536 →
        memory_read (cpu_ror cpu addr).mem other = memory_read cpu.mem other) ∧
      (cpu_ror cpu addr).a = cpu.a ∧
      (cpu_ror cpu addr).c = bit_get (memory_read cpu.mem addr.val) 0) := by
  have hm := memory_read_lt cpu.mem addr.val
  have hc : cpu.c < 2 := Nat.mod_lt _ (by decide)
  have rm := ror_arith _ hm cpu.c hc
  have lm := rol_arith _ hm cpu.c hc
  have t1 := shift_tail_mem cpu (memory_read cpu.mem addr.val >>> 7 &&& 1)
    ((memory_read cpu.mem addr.val <<< 1 ||| cpu.c) % 256) addr.val (Nat.mod_lt _ (by decide))
  have t2 := shift_tail_mem cpu (memory_read cpu.mem addr.val &&& 1)
    ((memory_read cpu.mem addr.val >>> 1 ||| cpu.c <<< 7) % 256) addr.val
    (Nat.mod_lt _ (by decide))
  simp only [bit7_shift, bit_get_mod, lm] at t1
  simp only [bit0_and, bit_get_mod, rm] at t2
  constructor
  · simpa only [cpu_rol, hnull, Bool.false_eq_true, if_false, bit7_shift, lm]
      using ⟨t1.1, t1.2.1, t1.2.2.1, t1.2.2.2.1⟩
  · simpa only [cpu_ror, hnull, Bool.false_eq_true, if_false, bit0_and, rm]
      using ⟨t2.1, t2.2.1, t2.2.2.1, t2.2.2.2.1⟩

/-- Rotating a byte left through the carry and then right, or right and then left, gives back the
byte and the carry. -/
theorem rotate_arith (a c : Nat) (ha : a < 256) (hc : c < 2) :
    ((2 * a + c) % 256) / 2 + 128 * bit_get a 7 = a ∧
    bit_get ((2 * a + c) % 256) 0 = c ∧
    (2 * (a / 2 + 128 * c) + bit_get a 0) % 256 = a ∧
    bit_get (a / 2 + 128 * c) 7 = c := by
  have b7 : ∀ x, bit_get x 7 = x / 128 % 2 := fun x => by simp [bit_get]
  have b0 : ∀ x, bit_get x 0 = x % 2 := fun x => by simp [bit_get]
  simp only [b7, b0]
  refine ⟨?_, ?_, ?_, ?_⟩ <;> omega

/-- C29: for every accumulator value and carry, ROL on the accumulator
followed by ROR on the accumulator restores both A and the carry flag, and
likewise ROR followed by ROL; in the memory form on a fixed resolved address
the two restore the memory cell and the carry, no other cell and not A being
changed. -/
theorem cpu_rol_ror_inverse (cpu : CPU) (addr : Address) (h : cpu.wf) :
    (addr.null = true →
      (cpu_ror (cpu_rol cpu addr) addr).a = cpu.a ∧
      (cpu_ror (cpu_rol cpu addr) addr).c = cpu.c ∧
      (cpu_rol (cpu_ror cpu addr) addr).a = cpu.a ∧
      (cpu_rol (cpu_ror cpu addr) addr).c = cpu.c) ∧
    (addr.null = false →
      memory_read (cpu_ror (cpu_rol cpu addr) addr).mem addr.val =
        memory_read cpu.mem addr.val ∧
      (cpu_ror (cpu_rol cpu addr) addr).c = cpu.c ∧
      memory_read (cpu_rol (cpu_ror cpu addr) addr).mem addr.val =
        memory_read cpu.mem addr.val ∧
      (cpu_rol (cpu_ror cpu addr) addr).c = cpu.c ∧
      (∀ other, other % 65536 ≠ addr.val % 65536 →
        memory_read (cpu_ror (cpu_rol cpu addr) addr).mem other = memory_read cpu.mem other ∧
        memory_read (cpu_rol (cpu_ror cpu addr) addr).mem other = memory_read cpu.mem other) ∧
      (cpu_ror (cpu_rol cpu addr) addr).a = cpu.a ∧
      (cpu_rol (cpu_ror cpu addr) addr).a = cpu.a) := by
  obtain ⟨-, -, ha, -, -, -⟩ := h
  have hc : cpu.c < 2 := Nat.mod_lt _ (by decide)
  constructor
  · intro hnull
    obtain ⟨l1, l2, -, r1, r2, -⟩ := cpu_rotate_acc cpu addr ha hnull
    have hla : (cpu_rol cpu addr).a < 256 := by rw [l1]; exact Nat.mod_lt _ (by decide)
    have hra : (cpu_ror cpu addr).a < 256 := by rw [r1]; omega
    obtain ⟨-, -, -, lr1, lr2, -⟩ := cpu_rotate_acc (cpu_rol cpu addr) addr hla hnull
    obtain ⟨rl1, rl2, -, -, -, -⟩ := cpu_rotate_acc (cpu_ror cpu addr) addr hra hnull
    simp only [l1, l2] at lr1 lr2
    simp only [r1, r2] at rl1 rl2
    obtain ⟨q1, q2, q3, q4⟩ := rotate_arith cpu.a cpu.c ha hc
    exact ⟨lr1.trans q1, lr2.trans q2, rl1.trans q3, rl2.trans q4⟩
  · intro hnull
    have hm := memory_read_lt cpu.mem addr.val
    obtain ⟨⟨l1, l2, l3, l4⟩, ⟨r1, r2, r3, r4⟩⟩ := cpu_rotate_mem cpu addr hnull
    obtain ⟨-, ⟨lr1, lr2, lr3, lr4⟩⟩ := cpu_rotate_mem (cpu_rol cpu addr) addr hnull
    obtain ⟨⟨rl1, rl2, rl3, rl4⟩, -⟩ := cpu_rotate_mem (cpu_ror cpu addr) addr hnull
    simp only [l1, l4] at lr1 lr4
    simp only [r1, r4] at rl1 rl4
    obtain ⟨q1, q2, q3, q4⟩ := rotate_arith (memory_read cpu.mem addr.val) cpu.c hm hc
    refine ⟨lr1.trans q1, lr4.trans q2, rl1.trans q3, rl4.trans q4, ?_,
      by rw [lr3, l3], by rw [rl3, r3]⟩
    intro other ho
    exact ⟨by rw [lr2 other ho, l2 other ho], by rw [rl2 other ho, r2 other ho]⟩

theorem cpu_rol_ror_inverse_witness :
    cpu_sample.wf ∧ addr_sample.null = false ∧
    memory_read (cpu_ror (cpu_rol cpu_sample addr_sample) addr_sample).mem addr_sample.val =
      0x10 ∧
    (cpu_ror (cpu_rol cpu_sample { val := 0, null := true }) { val := 0, null := true }).a =
      0x50 :=
  ⟨by decide, rfl,
    ((cpu_rol_ror_inverse cpu_sample addr_sample (by decide)).2 rfl).1.trans (by decide),
    ((cpu_rol_ror_inverse cpu_sample { val := 0, null := true } (by decide)).1 rfl).1⟩

/-! ## The harness on the content of the reference log -/

/-- A call of `fgets` splits what is left of the file in two. -/
theorem fgets_read_append (n : Nat) (fp : List Char) :
    (fgets_read n fp).1 ++ (fgets_read n fp).2 = fp := by
  induction n generalizing fp with
  | zero => rfl
  | succ n ih =>
    cases fp with
    | nil => rfl
    | cons c fp =>
      by_cases hc : c = '\n'
      · simp [fgets_read, hc]
      · simp [fgets_read, hc, ih fp]

/-- A call of `fgets` with room for at least one character takes at least one
character of a file that is not at its end, and at most `n`. -/
theorem fgets_read_length (n : Nat) (c : Char) (fp : List Char) :
    1 ≤ (fgets_read (n + 1) (c :: fp)).1.length ∧
    ∀ m fp1, (fgets_read m fp1).1.length ≤ m := by
  constructor
  · by_cases hc : c = '\n' <;> simp [fgets_read, hc]
  · intro m
    induction m with
    | zero => intro fp1; simp [fgets_read]
    | succ m ih =>
      intro fp1
      cases fp1 with
      | nil => simp [fgets_read]
      | cons d fp1 =>
        by_cases hd : d = '\n'
        · simp [fgets_read, hd]
        · simpa [fgets_read, hd] using ih fp1

/-- The loop of `fgets` calls reaches the end of the file: with fuel for one
call per character, the pieces read are the whole file, none is empty and
none has more than 82 characters. -/
theorem fgets_pieces_fuel_all (fuel : Nat) (fp : List Char) (h : fp.length ≤ fuel) :
    (fgets_pieces_fuel fuel fp).flatten = fp ∧
    ∀ test ∈ fgets_pieces_fuel fuel fp, 1 ≤ test.length ∧ test.length ≤ 82 := by
  induction fuel generalizing fp with
  | zero =>
    have : fp = [] := List.length_eq_zero.mp (by omega)
    subst this
    simp [fgets_pieces_fuel]
  | succ fuel ih =>
    cases fp with
    | nil => simp [fgets_pieces_fuel, fgets]
    | cons c fp =>
      have happ := fgets_read_append 82 (c :: fp)
      have h1 : 1 ≤ (fgets_read 82 (c :: fp)).1.length := (fgets_read_length 81 c fp).1
      have h82 := (fgets_read_length 81 c fp).2
      have hrest : (fgets_read 82 (c :: fp)).2.length ≤ fuel := by
        have hl := congrArg List.length happ
        simp only [List.length_append, List.length_cons] at hl h
        omega
      obtain ⟨i1, i2⟩ := ih (fgets_read 82 (c :: fp)).2 hrest
      simp only [fgets_pieces_fuel, fgets, List.flatten_cons, i1, happ, List.mem_cons, true_and]
      rintro test (rfl | hmem)
      · exact ⟨h1, h82 82 (c :: fp)⟩
      · exact i2 test hmem

/-- The pieces `cpu_debug_test_loop` works on make up the whole reference
log. -/
theorem fgets_pieces_all (fp : List Char) :
    (fgets_pieces fp).flatten = fp ∧
    ∀ test ∈ fgets_pieces fp, 1 ≤ test.length ∧ test.length ≤ 82 :=
  fgets_pieces_fuel_all fp.length fp (Nat.le_refl _)

/-- A line of fewer than `n` characters is read, with its newline, by one call
of `fgets`. -/
theorem fgets_read_line (n : Nat) (l rest : List Char) (hlen : l.length < n)
    (hnl : '\n' ∉ l) : fgets_read n (l ++ '\n' :: rest) = (l ++ ['\n'], rest) := by
  induction l generalizing n with
  | nil =>
    cases n with
    | zero => simp at hlen
    | succ n => simp [fgets_read]
  | cons c l ih =>
    cases n with
    | zero => simp at hlen
    | succ n =>
      have hc : c ≠ '\n' := fun hc => hnl (by simp [hc])
      have hl : '\n' ∉ l := fun hl => hnl (List.mem_cons_of_mem _ hl)
      simp only [List.length_cons] at hlen
      simp [fgets_read, hc, ih n (by omega) hl]

/-- A reference log whose lines have at most 81 characters is read one line
per call of `fgets`. -/
theorem fgets_pieces_fuel_lines (lines : List (List Char)) (fuel : Nat)
    (hfuel : lines.length ≤ fuel) (h : ∀ l ∈ lines, l.length ≤ 81 ∧ '\n' ∉ l) :
    fgets_pieces_fuel fuel (spec_log_file lines) = lines.map (fun l => l ++ ['\n']) := by
  induction lines generalizing fuel with
  | nil => cases fuel <;> simp [fgets_pieces_fuel, spec_log_file, fgets]
  | cons l ls ih =>
    cases fuel with
    | zero => simp at hfuel
    | succ fuel =>
      obtain ⟨hl, hnl⟩ := h l (List.mem_cons_self _ _)
      have hrd := fgets_read_line 82 l (spec_log_file ls) (by omega) hnl
      have hne : ∃ c fp, l ++ '\n' :: spec_log_file ls = c :: fp := by
        cases l with
        | nil => exact ⟨_, _, rfl⟩
        | cons c l => exact ⟨_, _, rfl⟩
      obtain ⟨c, fp, hcf⟩ := hne
      have hf : fgets 83 (l ++ '\n' :: spec_log_file ls) = some (l ++ ['\n'], spec_log_file ls) := by
        rw [hcf] at hrd ⊢
        simp only [fgets]
        rw [hrd]
      simp only [List.length_cons] at hfuel
      simp only [spec_log_file, fgets_pieces_fuel, hf, List.map_cons]
      rw [ih fuel (by omega) (fun l1 h1 => h l1 (List.mem_cons_of_mem _ h1))]

theorem spec_log_file_length (lines : List (List Char)) :
    lines.length ≤ (spec_log_file lines).length := by
  induction lines with
  | nil => simp
  | cons l ls ih => simp only [spec_log_file, List.length_cons, List.length_append]; omega

/-- The harness over a reference log whose lines have at most 81 characters:
every call of `fgets` returns one line with its newline, and with a tolerance
T >= 1 the loop executes exactly k instructions, k being the 1-based position
of the T-th mismatching line if at least T lines mismatch and the number of
lines otherwise. -/
theorem cpu_debug_test_loop_short_lines (t : OpcodeTable) (lines : List (List Char))
    (cpu : CPU) (T : Nat) (lineno : Int) (out : List String) (hT : 1 ≤ T)
    (h : ∀ l ∈ lines, l.length ≤ 81 ∧ '\n' ∉ l) :
    fgets_pieces (spec_log_file lines) = lines.map (fun l => l ++ ['\n']) ∧
    (fgets_pieces (spec_log_file lines)).length = lines.length ∧
    (cpu_debug_test_loop t (fgets_pieces (spec_log_file lines))
        { cpu := cpu, tolerance := (T : Int), lineno := lineno, out := out }).cpu =
      (cpu_next_instr t)^[spec_executed T
        (spec_mismatches t cpu (lines.map (fun l => l ++ ['\n'])))] cpu ∧
    spec_executed T (spec_mismatches t cpu (lines.map (fun l => l ++ ['\n']))) ≤
      lines.length := by
  have hp : fgets_pieces (spec_log_file lines) = lines.map (fun l => l ++ ['\n']) :=
    fgets_pieces_fuel_lines lines _ (spec_log_file_length lines) h
  obtain ⟨-, e2, e3⟩ := cpu_debug_test_loop_executed t (lines.map (fun l => l ++ ['\n'])) cpu T
    lineno out hT
  rw [hp]
  exact ⟨rfl, by simp, e2, by simpa using e3⟩

set_option maxRecDepth 100000 in
/-- C19, refuted on a reference log of one line of 88 characters (the 81
characters of the first trace line followed by a scanline column) with
tolerance 1: the line matches the trace in its first 81 characters, so the
claim lets the harness execute one instruction, the number of lines. But
`fgets(test, 83, fp)` returns the line in two pieces, its first 82 characters
and then 'SL:241' with the newline; the loop makes two passes, reports a
mismatch at 'line 2' and executes two instructions: PC ends at 0xC002 and
the clock at 4, not at 0xC001 and 2. -/
theorem cpu_debug_test_long_line :
    line_nop_long.length = 88 ∧ '\n' ∉ line_nop_long ∧
    spec_mismatches table_nop ((cpu_new mem_nop).set_b 0) [line_nop_long] = [false] ∧
    spec_executed 1 (spec_mismatches table_nop ((cpu_new mem_nop).set_b 0) [line_nop_long]) = 1 ∧
    fgets_pieces (spec_log_file [line_nop_long]) =
      ["C000  EA        NOP                             A:00 X:00 Y:00 P:24 SP:FD CYC:  0 ".toList,
        "SL:241\n".toList] ∧
    ((cpu_next_instr table_nop)^[1] ((cpu_new mem_nop).set_b 0)).pc = 0xC001 ∧
    ((cpu_next_instr table_nop)^[1] ((cpu_new mem_nop).set_b 0)).clock = 2 ∧
    (cpu_debug_test_loop table_nop (fgets_pieces (spec_log_file [line_nop_long]))
        { cpu := (cpu_new mem_nop).set_b 0, tolerance := 1, lineno := 1, out := [] }).cpu.pc =
      0xC002 ∧
    (cpu_debug_test_loop table_nop (fgets_pieces (spec_log_file [line_nop_long]))
        { cpu := (cpu_new mem_nop).set_b 0, tolerance := 1, lineno := 1, out := [] }).cpu.clock =
      4 ∧
    (cpu_debug_test_loop table_nop (fgets_pieces (spec_log_file [line_nop_long]))
        { cpu := (cpu_new mem_nop).set_b 0, tolerance := 1, lineno := 1, out := [] }).lineno =
      3 ∧
    (cpu_debug_test table_nop id (some 1) (.ok (fgets_pieces (spec_log_file [line_nop_long])))
        (cpu_new mem_nop)).2 =
      ["Reset to initial state\n", "\n",
        "Test Failed (line 2):\nExpected: SL:241\nObtained: C001  EA        NOP                             A:00 X:00 Y:00 P:24 SP:FD CYC:  6\n",
        "\n", "Reset to initial state\n"] ∧
    ¬ (∀ (t : OpcodeTable) (lines : List (List Char)) (cpu : CPU) (T : Nat), 1 ≤ T →
        (cpu_debug_test_loop t (fgets_pieces (spec_log_file lines))
            { cpu := cpu, tolerance := (T : Int), lineno := 1, out := [] }).cpu.pc =
          ((cpu_next_instr t)^[spec_executed T (spec_mismatches t cpu lines)] cpu).pc) := by
  refine ⟨by decide, by decide, by decide, by decide, by decide, by decide, by decide, by decide,
    by decide, by decide, by decide, ?_⟩
  intro hall
  exact absurd (hall table_nop [line_nop_long] ((cpu_new mem_nop).set_b 0) 1 (by decide))
    (by decide)

end NesEmu
